import Mathlib

/-!
# goproxy: the GAE tunnel transport and the relay envelope

A shallow embedding of `httpproxy/filters/gae/gaetransport.go`
(`Transport.RoundTrip`) and of the envelope framing of `gae/gae.go`.

The collaborators of `RoundTrip` (the server pool, the codec, the carrier
`http.RoundTripper`, the peer-address helpers, the clock) are not part of the
embedded code: they are taken as arbitrary functions.  Inside one call of
`RoundTrip` every collaborator is asked at most once per attempt, so each one
receives the attempt index next to its real arguments; quantifying over all
such functions covers every sequence of answers that stateful collaborators
can give.  The side effects of a call are collected, in order, in a log of
events.
-/

namespace GoProxy

/-! ## Data model -/

/-- Go `time.Duration` and `time.Time` offsets, as a count of nanoseconds. -/
abbrev Duration := Int

def Second : Duration := 1000000000

def Minute : Duration := 60 * Second

def Hour : Duration := 60 * Minute

/-- Byte slices (`[]byte`): one number per byte. -/
abbrev Bytes := List Nat

/-- The parts of `http.Request` that the transport passes around. -/
structure Request where
  Method : String
  URL : String
  Host : String
deriving DecidableEq, Repr

/-- A relay endpoint of the pool (`Server`), used only through `Host`. -/
structure Server where
  Host : String
deriving DecidableEq, Repr

/-- The fields of `*net.OpError` that the transport reads.  `Addr` is the text
`ne.Addr.String()`, or `none` when the `Addr` interface value is nil. -/
structure OpError where
  Op : String
  Addr : Option String
deriving DecidableEq, Repr

/-- A Go `error` value, seen through the three observations `RoundTrip` makes:
`err.Error()`, whether it has a `Timeout() bool` method that answers true, and
whether its dynamic type is `*net.OpError`. -/
structure GoError where
  Error : String
  Timeout : Bool
  opError : Option OpError
deriving DecidableEq, Repr

/-- The error built by `fmt.Errorf`: a plain text, no `Timeout` method, not an
`*net.OpError`. -/
def Errorf (text : String) : GoError := ⟨text, false, none⟩

/-- An `io.ReadCloser` body: the bytes a full read delivers and the error, if
any, that ends the read instead of a clean end of stream. -/
structure ReadCloser where
  data : Bytes
  err : Option GoError
deriving DecidableEq, Repr

/-- The result pair of `ioutil.ReadAll`. -/
def ReadAll (b : ReadCloser) : Bytes × Option GoError := (b.data, b.err)

/-- The reader `ioutil.NopCloser(bytes.NewReader(body))`. -/
def NopCloser (body : Bytes) : ReadCloser := ⟨body, none⟩

/-- The parts of `http.Response` that the transport reads or writes. -/
structure Response where
  StatusCode : Int
  Body : ReadCloser
  Request : Option Request
deriving DecidableEq, Repr

/-- The configuration fields of `Transport`.  `MultiDialer` is true when the
pointer `t.MultiDialer` is not nil. -/
structure Transport where
  MultiDialer : Bool
  Deadline : Duration
  RetryDelay : Duration
  RetryTimes : Int
deriving DecidableEq, Repr

/-- The collaborators of `RoundTrip`.  The leading `Nat` of a field is the
index of the attempt in which the call is made. -/
structure Collaborators where
  /-- Pool: `t.Servers.PickFetchServer(req, i)`. -/
  PickFetchServer : Request → Nat → Server
  /-- Pool: `t.Servers.EncodeRequest(req, server, deadline)`. -/
  EncodeRequest : Nat → Request → Server → Duration → Except GoError Request
  /-- Carrier: `t.RoundTripper.RoundTrip(req1)`. -/
  RoundTrip : Nat → Request → Except GoError Response
  /-- Pool: `t.Servers.DecodeResponse(resp)`; the response may be nil. -/
  DecodeResponse : Nat → Response → Except GoError (Option Response)
  /-- Helper: `helpers.ReflectRemoteAddrFromResponse(resp)`. -/
  ReflectRemoteAddrFromResponse : Nat → Response → Except GoError String
  /-- Library: `net.SplitHostPort(addr)`, `none` when it reports an error. -/
  SplitHostPort : String → Option (String × String)
  /-- Clock: `time.Now()`. -/
  Now : Nat → Duration
  /-- Library: the text of the request under the verb `%#v` of `fmt`. -/
  GoString : Request → String

/-- The observable effects of one call of `RoundTrip`, in program order. -/
inductive Event where
  | PickFetchServer (i : Nat) (server : Server)
  | EncodeRequest (i : Nat)
  | RoundTrip (i : Nat) (req1 : Request)
  | DecodeResponse (i : Nat)
  | CloseConnections
  | CloseConnectionByRemoteHost (host : String)
  | IPBlackListSet (ip : String) (expiry : Duration)
  | ToggleBadServer (server : Server)
  | Sleep (d : Duration)
deriving DecidableEq, Repr

/-- How a call ends: a returned pair `(resp, err)`, or a run-time fault (the
nil dereference of Go). -/
inductive Outcome where
  | ret (resp : Option Response) (err : Option GoError)
  | fault
deriving DecidableEq, Repr

/-- The result of one pass through the loop body: the call ends (`return`), or
the loop goes on (`continue`). -/
inductive Step where
  | done (o : Outcome) (log : List Event)
  | next (log : List Event)
deriving DecidableEq, Repr

/-! ## `Transport.RoundTrip` -/

/-- The call `bytes.Contains(b, sub)`. -/
def bytesContains (b sub : Bytes) : Bool :=
  b.tails.any (fun s => sub.isPrefixOf s)

/-- The byte slice `[]byte(s)` of an ASCII string literal. -/
def bytesOf (s : String) : Bytes := s.data.map Char.toNat

/-- Lines 40-48: the classification of a carrier error as a timeout. -/
def isTimeoutError (err : GoError) : Bool :=
  err.Timeout ||
    (match err.opError with
     | some ne => ne.Op == "read"
     | none => false)

/-- Lines 38-75: the carrier call returned an error. -/
def onCarrierError (c : Collaborators) (t : Transport) (i : Nat) (err : GoError)
    (log : List Event) : Step :=
  if isTimeoutError err then
    let log1 := log ++ [Event.CloseConnections]
    match err.opError with
    | some ne =>
      match ne.Addr with
      | none => Step.done Outcome.fault log1
      | some addr =>
        match c.SplitHostPort addr with
        | some (ip, _) =>
          if t.MultiDialer then
            Step.done (Outcome.ret none (some err))
              (log1 ++ [Event.IPBlackListSet ip (c.Now i + 5 * Minute)])
          else Step.done (Outcome.ret none (some err)) log1
        | none => Step.done (Outcome.ret none (some err)) log1
    | none => Step.done (Outcome.ret none (some err)) log1
  else if (i : Int) = t.RetryTimes - 1 then
    Step.done (Outcome.ret none (some err)) log
  else if err.Error = "unexpected EOF" then
    Step.done (Outcome.ret none (some err)) (log ++ [Event.CloseConnections])
  else Step.next log

/-- Lines 92-105: the blacklist write and the connection teardown for a carrier
status 302, 502, 404 or 405. -/
def blacklistPeer (c : Collaborators) (t : Transport) (i : Nat) (resp : Response)
    (log : List Event) : List Event :=
  if t.MultiDialer then
    match c.ReflectRemoteAddrFromResponse i resp with
    | Except.ok addr =>
      let log1 :=
        match c.SplitHostPort addr with
        | some (ip, _) => log ++ [Event.IPBlackListSet ip (c.Now i + 8 * Hour)]
        | none => log
      match c.SplitHostPort addr with
      | some (host, _) => log1 ++ [Event.CloseConnectionByRemoteHost host]
      | none => log1
    | Except.error _ => log
  else log

/-- Lines 77-110: the carrier response has a status other than 200. -/
def onNotOK (c : Collaborators) (t : Transport) (i : Nat) (server : Server)
    (resp : Response) (log : List Event) : Step :=
  if (i : Int) = t.RetryTimes - 1 then
    Step.done (Outcome.ret (some resp) none) log
  else if resp.StatusCode = 503 then
    Step.next (log ++ [Event.ToggleBadServer server, Event.Sleep t.RetryDelay])
  else if resp.StatusCode = 302 ∨ resp.StatusCode = 502 ∨ resp.StatusCode = 404
      ∨ resp.StatusCode = 405 then
    Step.next (blacklistPeer c t i resp log)
  else Step.done (Outcome.ret (some resp) none) log

/-- Lines 123-152: the switch on the decoded status, on an attempt that is not
the last one. -/
def onDecoded (t : Transport) (server : Server) (resp1 : Response)
    (log : List Event) : Step :=
  if resp1.StatusCode = 502 then
    match ReadAll resp1.Body with
    | (_, some err) => Step.done (Outcome.ret none (some err)) log
    | (body, none) =>
      if bytesContains body (bytesOf "DEADLINE_EXCEEDED") then
        Step.next (log ++ [Event.Sleep t.Deadline])
      else if bytesContains body (bytesOf "ver quota") then
        Step.next (log ++ [Event.ToggleBadServer server, Event.Sleep t.RetryDelay])
      else if bytesContains body (bytesOf "urlfetch: CLOSED") then
        Step.next (log ++ [Event.Sleep t.RetryDelay])
      else
        Step.done (Outcome.ret (some { resp1 with Body := NopCloser body }) none) log
  else Step.done (Outcome.ret (some resp1) none) log

/-- Lines 112-152: the carrier response has status 200. -/
def onOK (c : Collaborators) (t : Transport) (req : Request) (i : Nat)
    (server : Server) (resp : Response) (log : List Event) : Step :=
  match c.DecodeResponse i resp with
  | Except.error err =>
    Step.done (Outcome.ret none (some err)) (log ++ [Event.DecodeResponse i])
  | Except.ok r =>
    let log1 := log ++ [Event.DecodeResponse i]
    let r1 := r.map (fun x => { x with Request := some req })
    if (i : Int) = t.RetryTimes - 1 then
      Step.done (Outcome.ret (some resp) none) log1
    else
      match r1 with
      | none => Step.done Outcome.fault log1
      | some resp1 => onDecoded t server resp1 log1

/-- Lines 30-152: the body of the retry loop, for the attempt of index `i`. -/
def attempt (c : Collaborators) (t : Transport) (req : Request) (i : Nat)
    (log : List Event) : Step :=
  let server := c.PickFetchServer req i
  let log1 := log ++ [Event.PickFetchServer i server, Event.EncodeRequest i]
  match c.EncodeRequest i req server t.Deadline with
  | Except.error err =>
    Step.done (Outcome.ret none (some (Errorf ("GAE EncodeRequest: " ++ err.Error)))) log1
  | Except.ok req1 =>
    let log2 := log1 ++ [Event.RoundTrip i req1]
    match c.RoundTrip i req1 with
    | Except.error err => onCarrierError c t i err log2
    | Except.ok resp =>
      if resp.StatusCode ≠ 200 then onNotOK c t i server resp log2
      else onOK c t req i server resp log2

/-- Line 155: the error returned after the loop,
`fmt.Errorf("GAE: cannot reach here with %#v", req)`. -/
def cannotReachHere (c : Collaborators) (req : Request) : GoError :=
  Errorf ("GAE: cannot reach here with " ++ c.GoString req)

/-- Lines 29-155: the loop `for i := 0; i < retryTimes; i++`, with `n` passes
left and the next index `i`. -/
def attemptsFrom (c : Collaborators) (t : Transport) (req : Request) :
    Nat → Nat → List Event → Outcome × List Event
  | 0, _, log => (Outcome.ret none (some (cannotReachHere c req)), log)
  | n + 1, i, log =>
    match attempt c t req i log with
    | Step.done o log1 => (o, log1)
    | Step.next log1 => attemptsFrom c t req n (i + 1) log1

/-- The method `(t *Transport) RoundTrip(req)`: its outcome and its effects. -/
def RoundTrip (c : Collaborators) (t : Transport) (req : Request) :
    Outcome × List Event :=
  attemptsFrom c t req t.RetryTimes.toNat 0 []

/-- The number of carrier calls recorded in a log. -/
def carrierCalls (log : List Event) : Nat :=
  log.countP (fun e => match e with
    | Event.RoundTrip _ _ => true
    | _ => false)

/-- The log carried by a step. -/
def Step.log : Step → List Event
  | Step.done _ l => l
  | Step.next l => l

/-- The durations slept in a log, in order. -/
def sleeps (log : List Event) : List Duration :=
  log.filterMap (fun e => match e with
    | Event.Sleep d => some d
    | _ => none)

/-- The servers marked bad in a log, in order. -/
def toggles (log : List Event) : List Server :=
  log.filterMap (fun e => match e with
    | Event.ToggleBadServer s => some s
    | _ => none)

/-! ## The relay envelope (`gae/gae.go`) -/

/-- The conversion `uint16(n)` of a length. -/
def uint16 (n : Nat) : Nat := n % 65536

/-- The two bytes written by `binary.BigEndian.PutUint16(b0, v)`. -/
def PutUint16 (v : Nat) : Bytes := [v / 256 % 256, v % 256]

/-- Lines 361-375 of `handler`: the bytes written to the carrier response, for
the header text written into the flate writer and the body copied after it.
`deflate` is the compressor `flate.NewWriter(&b, flate.BestCompression)`. -/
def wrapEnvelope (deflate : Bytes → Bytes) (header body : Bytes) : Bytes :=
  let b := deflate header
  PutUint16 (uint16 b.length) ++ b ++ body

/-- Line 161 of `handler`: `binary.Read(r.Body, binary.BigEndian, &hdrLen)`,
the value read and the bytes left in the body. -/
def binaryReadUint16 (s : Bytes) : Except GoError (Nat × Bytes) :=
  match s with
  | b0 :: b1 :: rest => Except.ok (b0 * 256 + b1, rest)
  | [_] => Except.error (Errorf "unexpected EOF")
  | [] => Except.error (Errorf "EOF")

/-- Lines 160-167 of `handler`: the length is read, and the next `hdrLen` bytes
of the carrier body (the `io.LimitedReader`) feed the flate reader, whose
output is the header stream handed to `ReadRequest`; the bytes after them stay
in the carrier body.  `inflate` is the decompressor `flate.NewReader`: the
bytes it delivers and the error, if any, that ends its stream.  The second
component is what is left of the carrier body for a section that the flate
reader uses up: one that is a whole deflate stream, as `wrapEnvelope` writes
it, or one that the carrier body cuts short.  For a section whose deflate
stream ends or breaks before the declared length, the bytes that the reader
has not taken stay in the body as well; no statement below is about them. -/
def unwrapEnvelope (inflate : Bytes → ReadCloser) (carrierBody : Bytes) :
    Except GoError (ReadCloser × Bytes) :=
  match binaryReadUint16 carrierBody with
  | Except.error e => Except.error e
  | Except.ok (hdrLen, rest) => Except.ok (inflate (rest.take hdrLen), rest.drop hdrLen)

/-! ## The relay handler (`gae/gae.go`): strings and headers

Go strings are taken as lists of characters, one character per byte.  The
sums and products of `int` and of `time.Duration` formed from the options and
from a Range value wrap around at 64 bits (`wrapInt64`); lengths of byte
slices are far from the limit and are added exactly. -/

namespace Relay

/-- The pieces of a list between the occurrences of a separator: the first
piece and the pieces after it. -/
def splitList {α : Type} [DecidableEq α] (sep : α) : List α → List α × List (List α)
  | [] => ([], [])
  | c :: cs =>
    if c = sep then ([], (splitList sep cs).1 :: (splitList sep cs).2)
    else (c :: (splitList sep cs).1, (splitList sep cs).2)

/-- The call `strings.Split(s, sep)` for a separator of one character. -/
def Split (s : String) (sep : Char) : List String :=
  ((splitList sep s.data).1 :: (splitList sep s.data).2).map String.mk

/-- The call `strings.SplitN(s, sep, 2)` for a separator of one character: the
text before the first separator and, when there is one, the text after it. -/
def SplitN2 (s : String) (sep : Char) : String × Option String :=
  match s.data.span (fun c => c ≠ sep) with
  | (a, []) => (String.mk a, none)
  | (a, _ :: b) => (String.mk a, some (String.mk b))

/-- The UTF-8 encodings of the code points accepted by `unicode.IsSpace`:
U+0009 to U+000D, U+0020, U+0085, U+00A0, U+1680, U+2000 to U+200A, U+2028,
U+2029, U+202F, U+205F and U+3000.  A byte that is not part of the valid
encoding of one of them decodes to a rune that is not a space. -/
def spaceEncodings : List (List Nat) :=
  [[0x20], [0x09], [0x0A], [0x0B], [0x0C], [0x0D], [0xC2, 0x85], [0xC2, 0xA0],
   [0xE1, 0x9A, 0x80],
   [0xE2, 0x80, 0x80], [0xE2, 0x80, 0x81], [0xE2, 0x80, 0x82], [0xE2, 0x80, 0x83],
   [0xE2, 0x80, 0x84], [0xE2, 0x80, 0x85], [0xE2, 0x80, 0x86], [0xE2, 0x80, 0x87],
   [0xE2, 0x80, 0x88], [0xE2, 0x80, 0x89], [0xE2, 0x80, 0x8A],
   [0xE2, 0x80, 0xA8], [0xE2, 0x80, 0xA9], [0xE2, 0x80, 0xAF], [0xE2, 0x81, 0x9F],
   [0xE3, 0x80, 0x80]]

/-- The number of bytes of the rune at the start of `l` when that rune is a
space in one of the encodings given, and 0 when it is not. -/
def spaceWidth (encodings : List (List Nat)) (l : List Char) : Nat :=
  match encodings.find? (fun e => e.isPrefixOf ((l.take 3).map Char.toNat)) with
  | some e => e.length
  | none => 0

/-- The runes at the start of `l` that are spaces are removed, `n` of them at
most. -/
def trimSpaces (encodings : List (List Nat)) : Nat → List Char → List Char
  | 0, l => l
  | n + 1, l =>
    if spaceWidth encodings l = 0 then l
    else trimSpaces encodings n (l.drop (spaceWidth encodings l))

/-- The call `strings.TrimSpace(s)`: the runes of white space are removed at
the start (`TrimLeftFunc`), then at the end (`TrimRightFunc`, which decodes
the last rune: the bytes of its encoding, read backwards). -/
def TrimSpace (s : String) : String :=
  String.mk (trimSpaces (spaceEncodings.map List.reverse) s.length
    (trimSpaces spaceEncodings s.length s.data).reverse).reverse

/-- The call `strings.Contains(s, sub)`. -/
def Contains (s sub : String) : Bool :=
  s.data.tails.any (fun t => sub.data.isPrefixOf t)

/-- The call `strings.HasPrefix(s, p)`. -/
def HasPrefix (s p : String) : Bool := p.data.isPrefixOf s.data

/-- The runes of `strings.ToLower(s)` whose lower case is an ASCII letter: the
letters A-Z, and the two runes outside ASCII that `unicode.ToLower` maps to
one, U+0130 (bytes C4 B0, lowered to `i`) and U+212A (bytes E2 84 AA, lowered
to `k`).  Every other byte is left as it is.  At most `n` runes are read. -/
def lowerRunes : Nat → List Char → List Char
  | 0, _ => []
  | _, [] => []
  | n + 1, c :: rest =>
    if c.toNat = 0xC4 ∧ (rest.head?.map Char.toNat) = some 0xB0 then
      'i' :: lowerRunes n (rest.drop 1)
    else if c.toNat = 0xE2 ∧ ((rest.take 2).map Char.toNat) = [0x84, 0xAA] then
      'k' :: lowerRunes n (rest.drop 2)
    else c.toLower :: lowerRunes n rest

/-- The call `strings.ToLower(s)`, as far as a comparison with an ASCII text
can tell: a rune outside ASCII whose lower case is outside ASCII too is left
as it is, and so is a byte that is no part of a rune. -/
def ToLower (s : String) : String := String.mk (lowerRunes s.length s.data)

/-- The value of a list of decimal digits, `none` when a character is not a
digit. -/
def digitsValue : List Char → Nat → Option Nat
  | [], acc => some acc
  | c :: cs, acc =>
    if c.isDigit then digitsValue cs (acc * 10 + (c.toNat - 48)) else none

/-- The calls `strconv.Atoi(s)` and `strconv.ParseInt(s, 10, 64)`, with an
`int` of 64 bits: an optional sign, then at least one digit, and a value that
fits; `none` when the call returns an error. -/
def Atoi (s : String) : Option Int :=
  match s.data with
  | [] => none
  | c :: cs =>
    if c = '-' then
      if cs = [] then none
      else (digitsValue cs 0).bind (fun n => if n ≤ 2 ^ 63 then some (-(n : Int)) else none)
    else if c = '+' then
      if cs = [] then none
      else (digitsValue cs 0).bind (fun n => if n < 2 ^ 63 then some (n : Int) else none)
    else (digitsValue (c :: cs) 0).bind (fun n => if n < 2 ^ 63 then some (n : Int) else none)

/-- The value of a 64-bit signed integer (`int`, `int64`, `time.Duration`)
after an operation whose exact result is `x`: the result modulo `2 ^ 64`, in
the range from `-2 ^ 63` to `2 ^ 63 - 1`. -/
def wrapInt64 (x : Int) : Int := (x + 2 ^ 63) % 2 ^ 64 - 2 ^ 63

/-- The text of an integer under the verb `%d`, `strconv.Itoa` and
`strconv.FormatInt(n, 10)`. -/
def Itoa (n : Int) : String := toString n

/-- An `http.Header`: the values stored under each canonical key.  A nil
header is the empty list. -/
abbrev Header := List (String × List String)

/-- The fields of `url.URL` the handler reads, and the text `u.String()`. -/
structure URL where
  Host : String
  Path : String
  text : String
deriving DecidableEq, Repr

/-- The library functions the handler calls and the embedding leaves open. -/
structure Lib where
  /-- The function `textproto.CanonicalMIMEHeaderKey`. -/
  CanonicalMIMEHeaderKey : String → String
  /-- The function `url.Parse`. -/
  Parse : String → Except GoError URL
  /-- The function `strconv.Quote`, the verb `%#v` on a string. -/
  Quote : String → String
  /-- The writer `flate.NewWriter(_, flate.BestCompression)`. -/
  deflate : Bytes → Bytes
  /-- The reader `flate.NewReader`: what it delivers and how its stream ends. -/
  inflate : Bytes → ReadCloser
  /-- The writer `gzip.NewWriterLevel(_, gzip.BestCompression)`. -/
  gzip : Bytes → Bytes
  /-- The method `Header.Write`: the header lines, each ended by CR LF. -/
  HeaderWrite : Header → String
  /-- The function `filepath.Ext`. -/
  Ext : String → String
  /-- The function `mime.TypeByExtension`. -/
  TypeByExtension : String → String

/-- The values stored under a canonical key. -/
def Header.values (h : Header) (ck : String) : List String :=
  match h.find? (fun p => p.1 = ck) with
  | some p => p.2
  | none => []

/-- The method `Header.Get`: the first value under the key, or "". -/
def Header.Get (lib : Lib) (h : Header) (key : String) : String :=
  (h.values (lib.CanonicalMIMEHeaderKey key)).headD ""

/-- The method `Header.Del`. -/
def Header.Del (lib : Lib) (h : Header) (key : String) : Header :=
  h.filter (fun p => p.1 ≠ lib.CanonicalMIMEHeaderKey key)

/-- The method `Header.Set`: the key holds the one value. -/
def Header.Set (lib : Lib) (h : Header) (key value : String) : Header :=
  (lib.CanonicalMIMEHeaderKey key, [value]) ::
    h.filter (fun p => p.1 ≠ lib.CanonicalMIMEHeaderKey key)

/-- The method `Header.Add`: the value is appended to those of the key. -/
def Header.Add (lib : Lib) (h : Header) (key value : String) : Header :=
  (lib.CanonicalMIMEHeaderKey key, h.values (lib.CanonicalMIMEHeaderKey key) ++ [value]) ::
    h.filter (fun p => p.1 ≠ lib.CanonicalMIMEHeaderKey key)

/-- Lines 38-55: the scan of `IsBinary`, at index `i` with the bytes from
there on. -/
def IsBinaryFrom : Nat → Bytes → Bool
  | _, [] => false
  | i, c :: rest =>
    if c > 0x7f then true
    else if c = 10 ∧ i > 4 then false
    else if i > 32 then false
    else IsBinaryFrom (i + 1) rest

/-- Lines 38-55: `IsBinary`. -/
def IsBinary (b : Bytes) : Bool :=
  if b.length > 3 ∧ b.getD 0 0 = 0xef ∧ b.getD 1 0 = 0xbb ∧ b.getD 2 0 = 0xbf then false
  else IsBinaryFrom 0 b

/-- Lines 57-66: `IsTextContentType`. -/
def IsTextContentType (contentType : String) : Bool :=
  HasPrefix contentType "text/" ||
  HasPrefix contentType "application/json" ||
  HasPrefix contentType "application/x-javascript" ||
  HasPrefix contentType "application/javascript" ||
  HasPrefix contentType "application/x-www-form-urlencoded"

/-! ## The relay handler: `ReadRequest` -/

/-- The outcome of a function that returns a value or an error, or ends in a
run-time fault (the nil dereference of Go). -/
inductive Result (α : Type) where
  | ok (a : α)
  | error (err : GoError)
  | fault
deriving DecidableEq, Repr

/-- The parts of the synthetic `http.Request` built by `ReadRequest` and
completed by `handler`.  `Body` holds the bytes of the carrier body left
after the header block. -/
structure Request where
  Method : String
  RequestURI : String
  Proto : String
  ProtoMajor : Int
  ProtoMinor : Int
  URL : URL
  Host : String
  Header : Header
  ContentLength : Int
  RemoteAddr : String
  Body : Bytes
deriving DecidableEq, Repr

/-- The string `string(b)` of a byte slice. -/
def stringOf (b : Bytes) : String := String.mk (b.map Char.ofNat)

/-- The function `dropCR` of `bufio`: one trailing carriage return is removed. -/
def dropCR (l : Bytes) : Bytes :=
  if l.getLast? = some 13 then l.dropLast else l

/-- The constant `bufio.MaxScanTokenSize`: the size of the buffer of a
scanner. -/
def MaxScanTokenSize : Nat := 64 * 1024

/-- The error `bufio.ErrTooLong`. -/
def ErrTooLong : GoError := Errorf "bufio.Scanner: token too long"

/-- The lines of a stream that delivers `data`, as the split function
`ScanLines` cuts them: the bytes before each newline, then the bytes after
the last newline when there are any. -/
def scanTokens (data : Bytes) : List Bytes :=
  let pieces := (splitList 10 data).1 :: (splitList 10 data).2
  if pieces.getLast? = some [] then pieces.dropLast else pieces

/-- The tokens that the calls of `Scan` in `ReadRequest` hand out, for a
`bufio.Scanner` with the default buffer over a stream that delivers `data`.
A line of `MaxScanTokenSize` bytes or more fills the buffer before its end is
seen: `Scan` returns false with `ErrTooLong`, and the loop of line 94 stops.
The stream is taken to report its end, or its error, in a read of its own. -/
def scanLines (data : Bytes) : List String :=
  ((scanTokens data).takeWhile (fun l => l.length < MaxScanTokenSize)).map
    (fun l => stringOf (dropCR l))

/-- The value of `scanner.Err()` on line 106: `ErrTooLong` when a line was too
long, and otherwise the error, if any, that ended the stream. -/
def scanErr (r : ReadCloser) : Option GoError :=
  if (scanTokens r.data).all (fun l => l.length < MaxScanTokenSize) then r.err
  else some ErrTooLong

/-- The loop of `strconv.ParseUint` over the characters left, with the value
read so far: the first character that is not a digit is a syntax error, and a
value that leaves 64 bits before such a character is a range error. -/
def uintErrorKind : List Char → Nat → Option String
  | [], _ => none
  | c :: cs, acc =>
    if c.isDigit then
      if acc * 10 + (c.toNat - 48) < 2 ^ 64 then uintErrorKind cs (acc * 10 + (c.toNat - 48))
      else some "value out of range"
    else some "invalid syntax"

/-- The error `*strconv.NumError` of a failed `strconv.ParseInt`: one sign is
taken off, an empty text is a syntax error, and digits that pass the loop of
`ParseUint` fail only by their range. -/
def numError (lib : Lib) (s : String) : GoError :=
  Errorf ("strconv.ParseInt: parsing " ++ lib.Quote s ++ ": " ++
    (match s.data with
     | [] => "invalid syntax"
     | c :: cs =>
       match (if c = '-' ∨ c = '+' then cs else c :: cs) with
       | [] => "invalid syntax"
       | d :: ds => (uintErrorKind (d :: ds) 0).getD "value out of range"))

/-- Lines 94-104 of `ReadRequest`: the header built from the lines after the
first one. -/
def readHeaderLines (lib : Lib) (lines : List String) : Header :=
  lines.foldl (fun h line =>
    match SplitN2 line ':' with
    | (_, none) => h
    | (key, some value) => Header.Add lib h (TrimSpace key) (TrimSpace value)) []

/-- Lines 68-122: `ReadRequest(r)`, for a reader that delivers `r.data` and
then ends with `r.err` (`none` is a clean end of stream).  The named result
`err` is assigned `scanner.Err()` on line 106 and is what the final bare
`return` returns, unless the parse of a Content-Length has overwritten it.
When the first `Scan` hands out no line, because the stream delivers no byte
or because its first line is too long, lines 73-91 are skipped and the URL
and the header stay nil: after `ErrTooLong` the next `Scan` hands out the
buffer, and the call ends in the write to the nil header map on line 103 or
in the nil dereference on line 116. -/
def ReadRequest (lib : Lib) (r : ReadCloser) : Result Request :=
  match scanLines r.data with
  | [] => Result.fault
  | line :: rest =>
    match Split line ' ' with
    | [method, uri, _] =>
      match lib.Parse uri with
      | Except.error err => Result.error err
      | Except.ok u =>
        let header := readHeaderLines lib rest
        let req : Request :=
          { Method := method, RequestURI := uri, Proto := "HTTP/1.1", ProtoMajor := 1,
            ProtoMinor := 1, URL := u,
            Host := if u.Host = "" then Header.Get lib header "Host" else u.Host,
            Header := header, ContentLength := 0, RemoteAddr := "", Body := [] }
        let cl := Header.Get lib header "Content-Length"
        if cl ≠ "" then
          match Atoi cl with
          | none => Result.error (numError lib cl)
          | some n => Result.ok { req with ContentLength := n }
        else
          match scanErr r with
          | some err => Result.error err
          | none => Result.ok req
    | _ => Result.error (Errorf ("Invaild Request Line: " ++ lib.Quote line))

/-! ## The relay handler: `handlerError` and `handler` -/

/-- The constant `Password` of line 30, which a deployment edits. -/
structure Config where
  Password : String

/-- The texts of the Go runtime and of App Engine that `fmtError` prints. -/
structure Runtime where
  Version : String
  GOOS : String
  GOARCH : String
  DefaultVersionHostname : String
  ServerSoftware : String

def DefaultFetchMaxSize : Int := 1024 * 1024 * 4

def DefaultDeadline : Duration := 20 * Second

def DefaultOverquotaDelay : Duration := 4 * Second

def DefaultURLFetchClosedDelay : Duration := 1 * Second

/-- Lines 124-132: `fmtError`. -/
def fmtError (rt : Runtime) (err : GoError) : String :=
  "\x7b\n    \"type\": \"appengine(" ++ rt.Version ++ ", " ++ rt.GOOS ++ "/" ++ rt.GOARCH ++
    ")\",\n    \"host\": \"" ++ rt.DefaultVersionHostname ++
    "\",\n    \"software\": \"" ++ rt.ServerSoftware ++
    "\",\n    \"error\": \"" ++ err.Error ++ "\"\n\x7d\n"

/-- What a handler writes to the `http.ResponseWriter`: the two headers it
sets, the status of `WriteHeader`, and the bytes of the body. -/
structure Written where
  ContentType : String
  ContentLength : String
  StatusCode : Int
  Body : Bytes
deriving DecidableEq, Repr

/-- Lines 135-144 of `handlerError`: the text written into the flate writer. -/
def errorText (rt : Runtime) (err : GoError) (code : Int) : String :=
  "HTTP/1.1 " ++ Itoa code ++ "\r\n" ++
    "Content-Type: text/plain; charset=utf-8\r\n" ++
    "Content-Length: " ++ Itoa (fmtError rt err).length ++ "\r\n" ++
    "\r\n" ++ fmtError rt err

/-- Lines 134-154: `handlerError`. -/
def handlerError (rt : Runtime) (lib : Lib) (err : GoError) (code : Int) : Written :=
  let b := lib.deflate (bytesOf (errorText rt err code))
  let b0 := PutUint16 (uint16 b.length)
  { ContentType := "image/gif",
    ContentLength := Itoa ((b0.length + b.length : Nat) : Int),
    StatusCode := 200,
    Body := b0 ++ b }

/-- The carrier request received by `handler`. -/
structure CarrierRequest where
  RemoteAddr : String
  Body : Bytes
deriving DecidableEq, Repr

/-- The response of `urlfetch.Transport.RoundTrip`: the fields of
`http.Response` the handler reads, and the fields `content` and `truncated`
of its body, read by reflection. -/
structure Response where
  Status : String
  StatusCode : Int
  Header : Header
  ContentLength : Int
  content : Bytes
  truncated : Bool
deriving DecidableEq, Repr

/-- The fetch facility: the call `t.RoundTrip(req)` of pass `i`, on a
`urlfetch.Transport` with the given `Deadline` and
`AllowInvalidServerCertificate`. -/
abbrev Fetch := Nat → Request → Duration → Bool → Except GoError Response

/-- The observable effects of one call of `handler`, in program order. -/
inductive Event where
  | Fetch (i : Nat) (req : Request) (deadline : Duration) (allowInvalid : Bool)
  | Sleep (d : Duration)
deriving DecidableEq, Repr

/-- How a call of `handler` ends: with what it wrote, or in a run-time fault. -/
inductive Reply where
  | wrote (w : Written)
  | fault
deriving DecidableEq, Repr

/-- The map `params` of line 179. -/
abbrev Params := List (String × String)

/-- The assignment `params[k] = v`. -/
def Params.set (m : Params) (k v : String) : Params :=
  (k, v) :: m.filter (fun p => p.1 ≠ k)

/-- The lookup `v, ok := params[k]`. -/
def Params.get? (m : Params) (k : String) : Option String :=
  (m.find? (fun p => p.1 = k)).map (fun p => p.2)

/-- Lines 181-188: the loop over the pairs of the options value. -/
def parseParams (options : String) : Params :=
  (Split options ',').foldl (fun m pair =>
    match SplitN2 pair '=' with
    | (_, none) => m.set (TrimSpace pair) ""
    | (a, some b) => m.set (TrimSpace a) (TrimSpace b)) []

/-- Lines 179-190: the options are read and their header is deleted. -/
def takeOptions (lib : Lib) (h : Header) : Params × Header :=
  if Header.Get lib h "X-UrlFetch-Options" ≠ "" then
    (parseParams (Header.Get lib h "X-UrlFetch-Options"), Header.Del lib h "X-UrlFetch-Options")
  else ([], h)

/-- Lines 192-197: the Accept-Encoding of the request is set to gzip or
removed. -/
def normalizeAcceptEncoding (lib : Lib) (h : Header) : Header :=
  if Contains (Header.Get lib h "Accept-Encoding") "gzip"
      ∧ Header.Get lib h "X-Requested-With" = "" then
    Header.Set lib h "Accept-Encoding" "gzip"
  else Header.Del lib h "Accept-Encoding"

/-- Lines 216-221: the deadline of the fetch.  The product
`time.Duration(n) * time.Second` is one of 64-bit integers. -/
def deadlineOf (params : Params) : Duration :=
  match params.get? "deadline" with
  | some s =>
    if s ≠ "" then
      match Atoi s with
      | some n => wrapInt64 (n * Second)
      | none => DefaultDeadline
    else DefaultDeadline
  | none => DefaultDeadline

/-- Lines 223-228: the size limit of the fetch. -/
def fetchMaxSizeOf (params : Params) : Int :=
  match params.get? "maxsize" with
  | some s =>
    if s ≠ "" then
      match Atoi s with
      | some n => n
      | none => DefaultFetchMaxSize
    else DefaultFetchMaxSize
  | none => DefaultFetchMaxSize

/-- The text `fmt.Sprintf("bytes=%d-%d", a, b)`. -/
def rangeText (a b : Int) : String := "bytes=" ++ Itoa a ++ "-" ++ Itoa b

/-- Lines 258-277: the Range header after a failure for a response that is too
large.  The sum `start+fetchMaxSize` and the difference `end-start` are those
of the 64-bit `int`. -/
def rewriteRange (lib : Lib) (h : Header) (fetchMaxSize : Int) : Header :=
  if Header.Get lib h "Range" ≠ "" then
    match Split (Header.Get lib h "Range") '=' with
    | [_, p1] =>
      match Split p1 '-' with
      | [a, b] =>
        match Atoi a with
        | some start =>
          match Atoi b with
          | none =>
            Header.Set lib h "Range" (rangeText start (wrapInt64 (start + fetchMaxSize)))
          | some end_ =>
            if wrapInt64 (end_ - start) > fetchMaxSize then
              Header.Set lib h "Range" (rangeText start (wrapInt64 (start + fetchMaxSize)))
            else Header.Set lib h "Range" (rangeText start end_)
        | none => h
      | _ => h
    | _ => h
  else Header.Set lib h "Range" ("bytes=0-" ++ Itoa fetchMaxSize)

/-- Lines 240-248: one call of the fetch facility; a truncated body turns the
result into the error of a response that is too large. -/
def fetchOnce (fetch : Fetch) (i : Nat) (req : Request) (deadline : Duration)
    (sslVerify : Bool) : Except GoError Response :=
  match fetch i req deadline (!sslVerify) with
  | Except.ok resp =>
    if resp.truncated then Except.error (Errorf "URLFetchServiceError_RESPONSE_TOO_LARGE")
    else Except.ok resp
  | Except.error err => Except.error err

/-- Lines 233-288: the loop `for i := 0; i < 2; i++`, in the pass of index `i`
with `k` passes left after it.  The result is the last value of `resp, err`,
with the request as the loop leaves it and the log. -/
def fetchFrom (lib : Lib) (fetch : Fetch) (deadline : Duration) (sslVerify : Bool)
    (fetchMaxSize : Int) :
    Nat → Nat → Request → List Event → Except GoError Response × Request × List Event
  | k, i, req, log =>
    let log1 := log ++ [Event.Fetch i req deadline (!sslVerify)]
    match fetchOnce fetch i req deadline sslVerify with
    | Except.ok resp => (Except.ok resp, req, log1)
    | Except.error err =>
      if Contains err.Error "RESPONSE_TOO_LARGE" then
        let req1 := { req with Header := rewriteRange lib req.Header fetchMaxSize }
        match k with
        | 0 => (Except.error err, req1, log1)
        | k1 + 1 => fetchFrom lib fetch deadline sslVerify fetchMaxSize k1 (i + 1) req1 log1
      else if Contains err.Error "Over quota" then
        let log2 := log1 ++ [Event.Sleep DefaultOverquotaDelay]
        match k with
        | 0 => (Except.error err, req, log2)
        | k1 + 1 => fetchFrom lib fetch deadline sslVerify fetchMaxSize k1 (i + 1) req log2
      else if Contains err.Error "urlfetch: CLOSED" then
        let log2 := log1 ++ [Event.Sleep DefaultURLFetchClosedDelay]
        match k with
        | 0 => (Except.error err, req, log2)
        | k1 + 1 => fetchFrom lib fetch deadline sslVerify fetchMaxSize k1 (i + 1) req log2
      else (Except.error err, req, log1)

/-- Line 199: the flag `debug`, which only turns on two log lines. -/
def debugOf (params : Params) : Bool := (params.get? "debug").isSome

/-- Line 230: the flag `sslVerify`. -/
def sslVerifyOf (params : Params) : Bool := (params.get? "sslverify").isSome

/-- Lines 295-302: the header of the fetched response, revised. -/
def reviseHeader (lib : Lib) (resp : Response) : Header :=
  let h1 := Header.Del lib resp.Header "Transfer-Encoding"
  let h2 := if ToLower (Header.Get lib h1 "Vary") = "accept-encoding" then Header.Del lib h1 "Vary"
    else h1
  if resp.ContentLength > 0 then Header.Set lib h2 "Content-Length" (Itoa resp.ContentLength)
  else h2

/-- The header, the content length and the body of the response as lines
304-353 leave them. -/
structure Encoded where
  Header : Header
  ContentLength : Int
  Body : Bytes
deriving DecidableEq, Repr

/-- Lines 326-333: the compressor and the encoding named by the
Accept-Encoding of the caller. -/
def chooseWriter (lib : Lib) (oAE : String) : Option ((Bytes → Bytes) × String) :=
  if Contains oAE "deflate" then some (lib.deflate, "deflate")
  else if Contains oAE "gzip" then some (lib.gzip, "gzip")
  else none

/-- Lines 304-353: the decision on the encoding of the content.  `oAE` is the
Accept-Encoding of the caller, `path` the path of the requested URL, `h` and
`contentLength` the revised header and the content length of the response. -/
def reencode (lib : Lib) (oAE path : String) (h : Header) (contentLength : Int)
    (content : Bytes) : Encoded :=
  let isTextContentType := IsTextContentType (Header.Get lib h "Content-Type")
  let h1 :=
    if Header.Get lib h "Content-Encoding" = "br" ∧ isTextContentType = true
        ∧ IsBinary content = false then
      Header.Del lib h "Content-Encoding"
    else h
  if Header.Get lib h1 "Content-Encoding" = "" ∧ isTextContentType = true then
    if IsBinary content = true then
      if lib.Ext path ≠ "" ∧ IsTextContentType (lib.TypeByExtension (lib.Ext path)) = false then
        ⟨h1, contentLength, content⟩
      else ⟨Header.Set lib h1 "Content-Encoding" "deflate", contentLength, content⟩
    else if content.length > 512 then
      match chooseWriter lib oAE with
      | some (w, ce) =>
        if ((w content).length : Int) < contentLength then
          ⟨Header.Set lib
              (Header.Set lib h1 "Content-Length" (Itoa ((w content).length : Int)))
              "Content-Encoding" ce,
            ((w content).length : Int), w content⟩
        else ⟨h1, contentLength, content⟩
      | none => ⟨h1, contentLength, content⟩
    else ⟨h1, contentLength, content⟩
  else ⟨h1, contentLength, content⟩

/-- Lines 361-366: the text written into the flate writer for a response. -/
def responseText (lib : Lib) (status : String) (h : Header) : String :=
  "HTTP/1.1 " ++ status ++ "\r\n" ++ lib.HeaderWrite h ++ "\r\n"

/-- Lines 295-376: the fetched response is revised, encoded, wrapped and
written. -/
def writeResponse (lib : Lib) (oAE : String) (req : Request) (resp : Response) : Written :=
  let e := reencode lib oAE req.URL.Path (reviseHeader lib resp) resp.ContentLength resp.content
  let b := lib.deflate (bytesOf (responseText lib resp.Status e.Header))
  { ContentType := "image/gif",
    ContentLength := Itoa (((PutUint16 (uint16 b.length)).length + b.length : Nat) + e.ContentLength),
    StatusCode := 200,
    Body := wrapEnvelope lib.deflate (bytesOf (responseText lib resp.Status e.Header)) e.Body }

/-- Lines 216-376: the fetch and the answer, for a request that has passed the
password check. -/
def serve (rt : Runtime) (lib : Lib) (fetch : Fetch) (params : Params) (oAE : String)
    (req : Request) : Reply × List Event :=
  match fetchFrom lib fetch (deadlineOf params) (sslVerifyOf params) (fetchMaxSizeOf params)
      1 0 req [] with
  | (Except.error err, _, log) => (Reply.wrote (handlerError rt lib err 502), log)
  | (Except.ok resp, req1, log) => (Reply.wrote (writeResponse lib oAE req1 resp), log)

/-- Lines 174-376: the handling of a request that `ReadRequest` has returned;
`body` is what is left of the carrier body. -/
def handleRequest (cfg : Config) (rt : Runtime) (lib : Lib) (fetch : Fetch)
    (remoteAddr : String) (body : Bytes) (req0 : Request) : Reply × List Event :=
  let params := (takeOptions lib req0.Header).1
  let h1 := (takeOptions lib req0.Header).2
  let oAE := Header.Get lib h1 "Accept-Encoding"
  let req : Request :=
    { req0 with RemoteAddr := remoteAddr, Body := body,
                Header := normalizeAcceptEncoding lib h1 }
  if cfg.Password ≠ "" then
    match params.get? "password" with
    | none =>
      (Reply.wrote (handlerError rt lib (Errorf "urlfetch password required") 403), [])
    | some password =>
      if password ≠ cfg.Password then
        (Reply.wrote (handlerError rt lib (Errorf "urlfetch password is wrong") 403), [])
      else serve rt lib fetch params oAE req
  else serve rt lib fetch params oAE req

/-- Lines 156-376: `handler`.  The flate reader is taken to use up the whole
section of the carrier body marked by the length. -/
def handler (cfg : Config) (rt : Runtime) (lib : Lib) (fetch : Fetch)
    (r : CarrierRequest) : Reply × List Event :=
  match unwrapEnvelope lib.inflate r.Body with
  | Except.error err => (Reply.wrote (handlerError rt lib err 400), [])
  | Except.ok (stream, body) =>
    match ReadRequest lib stream with
    | Result.fault => (Reply.fault, [])
    | Result.error err => (Reply.wrote (handlerError rt lib err 400), [])
    | Result.ok req0 => handleRequest cfg rt lib fetch r.RemoteAddr body req0

/-- The number of calls of the fetch facility recorded in a log. -/
def fetchCalls (log : List Event) : Nat :=
  log.countP (fun e => match e with
    | Event.Fetch _ _ _ _ => true
    | _ => false)

/-! ## The options value, as the specification reads it -/

/-- The reading of an options value stated in the specification: the value is
split on commas, each item on its first `=`, and the spaces around key and
value are trimmed; an item without `=` is a key with the empty value. -/
def optionPairs (v : String) : List (String × String) :=
  (Split v ',').map (fun pair =>
    match SplitN2 pair '=' with
    | (_, none) => (TrimSpace pair, "")
    | (a, some b) => (TrimSpace a, TrimSpace b))

/-- The value a key carries in a list of pairs: that of its last occurrence. -/
def lastValue (pairs : List (String × String)) (k : String) : Option String :=
  (pairs.reverse.find? (fun p => p.1 = k)).map (fun p => p.2)

end Relay

/-! ## Concrete values used to run the code -/

/-- The request of a caller. -/
def sampleReq : Request := ⟨"GET", "http://example.com/", "example.com"⟩

/-- The carrier request built by the pool for `sampleReq`. -/
def sampleReq1 : Request := ⟨"POST", "https://relay.appspot.com/_gh/", "relay.appspot.com"⟩

/-- The relay endpoint picked by the pool. -/
def sampleServer : Server := ⟨"relay.appspot.com"⟩

/-- The error of a dial whose name lookup timed out: an `*net.OpError` with
`Op = "dial"`, a nil `Addr`, and `Timeout()` true. -/
def lookupTimeout : GoError :=
  ⟨"dial tcp: lookup relay.appspot.com: i/o timeout", true, some ⟨"dial", none⟩⟩

/-- A rendering of a request that stands for its text under `%#v`. -/
def sampleGoString (r : Request) : String :=
  "&http.Request\x7bMethod:\"" ++ r.Method ++ "\", Host:\"" ++ r.Host ++ "\"\x7d"

/-- Collaborators whose carrier gives the same answer on every attempt, and
whose codec gives the same answer for every response. -/
def constCollaborators (carrier : Except GoError Response)
    (decoded : Except GoError (Option Response)) : Collaborators where
  PickFetchServer := fun _ _ => sampleServer
  EncodeRequest := fun _ _ _ _ => Except.ok sampleReq1
  RoundTrip := fun _ _ => carrier
  DecodeResponse := fun _ _ => decoded
  ReflectRemoteAddrFromResponse := fun _ _ => Except.error (Errorf "no remote address")
  SplitHostPort := fun _ => none
  Now := fun _ => 0
  GoString := sampleGoString

/-- Collaborators whose carrier answers by attempt index. -/
def scriptCollaborators (carrier : Nat → Except GoError Response)
    (decoded : Nat → Except GoError (Option Response)) : Collaborators where
  PickFetchServer := fun _ _ => sampleServer
  EncodeRequest := fun _ _ _ _ => Except.ok sampleReq1
  RoundTrip := fun i _ => carrier i
  DecodeResponse := fun i _ => decoded i
  ReflectRemoteAddrFromResponse := fun _ _ => Except.ok "203.0.113.7:443"
  SplitHostPort := fun a => if a = "203.0.113.7:443" then some ("203.0.113.7", "443") else none
  Now := fun _ => 0
  GoString := sampleGoString

/-- A carrier response of status 200 holding an envelope. -/
def carrier200 : Response := ⟨200, ⟨[0, 2, 75, 76, 104, 105], none⟩, none⟩

/-- A decoded tunnel response of inner status 404. -/
def decoded404 : Response := ⟨404, ⟨[110, 111], none⟩, none⟩

/-- A carrier response of status 503. -/
def carrier503 : Response := ⟨503, ⟨[], none⟩, none⟩

/-- The error of a codec that cannot read the envelope. -/
def badEnvelope : GoError := Errorf "unexpected EOF in envelope"

/-- A carrier response of status 404, as a foreign front end answers. -/
def carrier404 : Response := ⟨404, ⟨[], none⟩, none⟩

/-- A carrier response of status 500. -/
def carrier500 : Response := ⟨500, ⟨[], none⟩, none⟩

/-- A decoded response of inner status 502 whose body names the deadline. -/
def deadline502 : Response := ⟨502, ⟨bytesOf "DEADLINE_EXCEEDED", none⟩, none⟩

/-- A decoded response of inner status 502 from the origin itself. -/
def origin502 : Response := ⟨502, ⟨bytesOf "bad gateway", none⟩, none⟩

/-- The error of a pool that cannot encode the request. -/
def encodeFailure : GoError := Errorf "request too large"

/-- Collaborators whose pool fails to encode every request. -/
def failingEncoder : Collaborators where
  PickFetchServer := fun _ _ => sampleServer
  EncodeRequest := fun _ _ _ _ => Except.error encodeFailure
  RoundTrip := fun _ _ => Except.ok carrier200
  DecodeResponse := fun _ _ => Except.ok none
  ReflectRemoteAddrFromResponse := fun _ _ => Except.error (Errorf "no remote address")
  SplitHostPort := fun _ => none
  Now := fun _ => 0
  GoString := sampleGoString

/-- The error `io.ErrUnexpectedEOF`. -/
def unexpectedEOF : GoError := Errorf "unexpected EOF"

/-- A connection reset reported by the carrier. -/
def connectionReset : GoError :=
  ⟨"write tcp 203.0.113.7:443: connection reset by peer", false,
    some ⟨"write", some "203.0.113.7:443"⟩⟩

namespace Relay

/-- The letters of a header key in canonical case: upper case at the start and
after a hyphen, lower case elsewhere. -/
def canonicalFrom : Bool → List Char → List Char
  | _, [] => []
  | upper, c :: cs =>
    (if upper then c.toUpper else c.toLower) :: canonicalFrom (c = '-') cs

/-- A canonical form of header keys: a key with a space is left as it is. -/
def sampleCanonical (s : String) : String :=
  if s.data.any (fun c => c = ' ') then s else String.mk (canonicalFrom true s.data)

/-- A parser of the URLs used below: absolute http URLs, and paths. -/
def sampleParse (s : String) : Except GoError URL :=
  if HasPrefix s "http://" then
    Except.ok ⟨String.mk ((s.data.drop 7).takeWhile (fun c => c ≠ '/')),
      String.mk ((s.data.drop 7).dropWhile (fun c => c ≠ '/')), s⟩
  else if s.data.any (fun c => c = '%') then
    Except.error (Errorf ("parse " ++ s ++ ": invalid URL escape"))
  else Except.ok ⟨"", s, s⟩

/-- The runs of a byte list, as pairs of a count (at most 255) and a byte. -/
def runsFrom (cur cnt : Nat) : Bytes → Bytes
  | [] => [cnt, cur]
  | c :: cs =>
    if c = cur ∧ cnt < 255 then runsFrom cur (cnt + 1) cs
    else cnt :: cur :: runsFrom c 1 cs

/-- A small compressor standing for deflate: the runs of the input, closed by
an end mark. -/
def sampleDeflate (b : Bytes) : Bytes :=
  (match b with
   | [] => []
   | c :: cs => runsFrom c 1 cs) ++ [0]

/-- The reader for `sampleDeflate`: it delivers the runs it can read, and ends
with "unexpected EOF" when the input stops before the end mark. -/
def sampleInflate : Bytes → ReadCloser
  | [] => ⟨[], some (Errorf "unexpected EOF")⟩
  | 0 :: _ => ⟨[], none⟩
  | [_] => ⟨[], some (Errorf "unexpected EOF")⟩
  | (n + 1) :: c :: rest =>
    ⟨List.replicate (n + 1) c ++ (sampleInflate rest).data, (sampleInflate rest).err⟩

/-- The lines `Key: value` of a header, in the order of the list. -/
def sampleHeaderWrite (h : Header) : String :=
  String.join (h.map (fun p => String.join (p.2.map (fun v => p.1 ++ ": " ++ v ++ "\r\n"))))

/-- The extension of a path: the text from its last dot on. -/
def sampleExt (path : String) : String :=
  if path.data.any (fun c => c = '.') then
    String.mk ('.' :: ((path.data.reverse.takeWhile (fun c => c ≠ '.')).reverse))
  else ""

/-- A small table of MIME types. -/
def sampleTypeByExtension (ext : String) : String :=
  if ext = ".html" then "text/html; charset=utf-8"
  else if ext = ".png" then "image/png"
  else ""

/-- A library with small stand-ins for the functions left open. -/
def sampleLib : Lib where
  CanonicalMIMEHeaderKey := sampleCanonical
  Parse := sampleParse
  Quote := fun s => "\"" ++ s ++ "\""
  deflate := sampleDeflate
  inflate := sampleInflate
  gzip := fun b => [31, 139] ++ sampleDeflate b
  HeaderWrite := sampleHeaderWrite
  Ext := sampleExt
  TypeByExtension := sampleTypeByExtension

/-- A runtime description. -/
def sampleRuntime : Runtime := ⟨"go1.6", "linux", "amd64", "relay.appspot.com", "Google App Engine/1.9"⟩

/-- The header text of a request with a Content-Length line. -/
def headerText : Bytes :=
  bytesOf "GET http://example.com/ HTTP/1.1\r\nContent-Length: 0\r\nHost: example.com\r\n"

/-- A carrier body whose length bytes declare the 139 bytes of the compressed
`headerText` and which supplies the first 120 of them. -/
def truncatedBody : Bytes := PutUint16 139 ++ (sampleDeflate headerText).take 120

/-- The header text of a request without a Content-Length line. -/
def plainHeaderText : Bytes :=
  bytesOf "GET http://example.com/ HTTP/1.1\r\nHost: example.com\r\n"

/-- A carrier body that declares the 101 bytes of the compressed
`plainHeaderText` and supplies the first 90 of them. -/
def truncatedPlainBody : Bytes := PutUint16 101 ++ (sampleDeflate plainHeaderText).take 90

/-- A fetched response of two bytes of plain text. -/
def sampleResponse : Response :=
  ⟨"200 OK", 200, [("Content-Type", ["text/plain"])], 2, [104, 105], false⟩

/-- A fetch facility that answers every call with `sampleResponse`. -/
def sampleFetch : Fetch := fun _ _ _ _ => Except.ok sampleResponse

/-- The request read from a header block whose options line has an empty
value. -/
def emptyOptionsRequest : Request :=
  { Method := "GET", RequestURI := "http://example.com/", Proto := "HTTP/1.1",
    ProtoMajor := 1, ProtoMinor := 1, URL := ⟨"example.com", "/", "http://example.com/"⟩,
    Host := "example.com", Header := [("X-Urlfetch-Options", [""])],
    ContentLength := 0, RemoteAddr := "", Body := [] }

/-- A header with the options value of the specification's scenario. -/
def scenarioHeader : Header :=
  [("X-Urlfetch-Options", ["debug,deadline=5,maxsize=2048"]), ("Accept", ["*/*"])]

/-- A header of a browser request that accepts gzip and deflate. -/
def browserHeader : Header :=
  [("Accept-Encoding", ["gzip, deflate"]), ("Accept", ["*/*"])]

/-- A header of a scripted request that accepts gzip. -/
def scriptedHeader : Header :=
  [("Accept-Encoding", ["gzip"]), ("X-Requested-With", ["XMLHttpRequest"])]

/-- The error of a fetch whose target refuses the connection. -/
def fetchRefused : GoError := Errorf "urlfetch: FETCH_ERROR: connection refused"

/-- A fetch facility that fails every call with `fetchRefused`. -/
def refusedFetch : Fetch := fun _ _ _ _ => Except.error fetchRefused

/-- The header of a fetched page that is labelled with the encoding "br". -/
def brHeader : Header :=
  [("Content-Type", ["text/html"]), ("Content-Encoding", ["br"])]

/-- A page of 600 bytes of plain text. -/
def longText : Bytes := List.replicate 600 97

end Relay

/-! ## Measures of the effects, and further values -/

/-- The number of blacklist writes and connection teardowns recorded in a
log. -/
def teardowns (log : List Event) : Nat :=
  log.countP (fun e => match e with
    | Event.CloseConnections => true
    | Event.CloseConnectionByRemoteHost _ => true
    | Event.IPBlackListSet _ _ => true
    | _ => false)

/-- A transport with three attempts and negative durations. -/
def negativeTransport : Transport := ⟨false, -1 * Second, -1 * Second, 3⟩

/-- A transport with no attempt configured. -/
def idleTransport : Transport := ⟨false, 20 * Second, 1 * Second, 0⟩

/-- A transport with two attempts. -/
def twoAttempts : Transport := ⟨true, 20 * Second, 2 * Second, 2⟩

namespace Relay

/-- Lines 311-353: the step that relabels or recompresses the content, on the
header and the content length it finds; `isTextContentType` is the flag of
line 305. -/
def recompress (lib : Lib) (oAE path : String) (isTextContentType : Bool) (h : Header)
    (contentLength : Int) (content : Bytes) : Encoded :=
  if Header.Get lib h "Content-Encoding" = "" ∧ isTextContentType = true then
    if IsBinary content = true then
      if lib.Ext path ≠ "" ∧ IsTextContentType (lib.TypeByExtension (lib.Ext path)) = false then
        ⟨h, contentLength, content⟩
      else ⟨Header.Set lib h "Content-Encoding" "deflate", contentLength, content⟩
    else if content.length > 512 then
      match chooseWriter lib oAE with
      | some (w, ce) =>
        if ((w content).length : Int) < contentLength then
          ⟨Header.Set lib
              (Header.Set lib h "Content-Length" (Itoa ((w content).length : Int)))
              "Content-Encoding" ce,
            ((w content).length : Int), w content⟩
        else ⟨h, contentLength, content⟩
      | none => ⟨h, contentLength, content⟩
    else ⟨h, contentLength, content⟩
  else ⟨h, contentLength, content⟩

/-- The durations slept in a log of the handler, in order. -/
def sleepsOf (log : List Event) : List Duration :=
  log.filterMap (fun e => match e with
    | Event.Sleep d => some d
    | _ => none)

/-- Lines 249-287: the sleep the loop makes after one fetch, by the class of
its failure. -/
def delays (r : Except GoError Response) : List Duration :=
  match r with
  | Except.ok _ => []
  | Except.error err =>
    if Contains err.Error "RESPONSE_TOO_LARGE" then []
    else if Contains err.Error "Over quota" then [DefaultOverquotaDelay]
    else if Contains err.Error "urlfetch: CLOSED" then [DefaultURLFetchClosedDelay]
    else []

/-- Lines 249-287: whether the loop goes on to the next pass after one fetch. -/
def retried (r : Except GoError Response) : Bool :=
  match r with
  | Except.ok _ => false
  | Except.error err =>
    Contains err.Error "RESPONSE_TOO_LARGE" || Contains err.Error "Over quota" ||
      Contains err.Error "urlfetch: CLOSED"

/-- Lines 258-277: the request of the pass after a fetch, with the Range
rewritten when the response was too large. -/
def nextRequest (lib : Lib) (fetchMaxSize : Int) (req : Request)
    (r : Except GoError Response) : Request :=
  match r with
  | Except.ok _ => req
  | Except.error err =>
    if Contains err.Error "RESPONSE_TOO_LARGE" then
      { req with Header := rewriteRange lib req.Header fetchMaxSize }
    else req

/-- The error of a fetch made over quota. -/
def overQuota : GoError :=
  Errorf "API error 4 (urlfetch: OVER_QUOTA): Over quota: urlfetch"

/-- A fetch facility that fails every call with `overQuota`. -/
def overQuotaFetch : Fetch := fun _ _ _ _ => Except.error overQuota

/-- The error of a fetch whose channel is closed. -/
def channelClosed : GoError := Errorf "urlfetch: CLOSED"

/-- A fetch facility that fails every call with `channelClosed`. -/
def closedFetch : Fetch := fun _ _ _ _ => Except.error channelClosed

/-- The error of a fetch whose response is too large. -/
def tooLarge : GoError := Errorf "API error 8 (urlfetch: RESPONSE_TOO_LARGE)"

/-- A fetch facility that fails every call with `tooLarge`. -/
def tooLargeFetch : Fetch := fun _ _ _ _ => Except.error tooLarge

/-- A header of a textual response without a Content-Encoding. -/
def textHeader : Header := [("Content-Type", ["text/html"])]

/-- A body whose first byte has the high bit set. -/
def binaryBody : Bytes := [0x89, 80, 78, 71]

/-- The response to a HEAD request: the content length of the resource is
declared and no byte of content comes with it. -/
def headResponse : Response :=
  ⟨"200 OK", 200, [("Content-Type", ["image/png"])], 1234, [], false⟩

/-- A fetch facility that answers every call with `headResponse`. -/
def headFetch : Fetch := fun _ _ _ _ => Except.ok headResponse

/-- A HEAD request. -/
def headRequest : Request :=
  { Method := "HEAD", RequestURI := "http://example.com/logo.png", Proto := "HTTP/1.1",
    ProtoMajor := 1, ProtoMinor := 1,
    URL := ⟨"example.com", "/logo.png", "http://example.com/logo.png"⟩,
    Host := "example.com", Header := [], ContentLength := 0, RemoteAddr := "", Body := [] }

/-- Thirty-two letters followed by a byte with the high bit set. -/
def highAt32 : Bytes := List.replicate 32 97 ++ [0x80]

/-- Four letters, a newline at index 4, then a byte with the high bit set. -/
def newlineAt4 : Bytes := [97, 97, 97, 97, 10, 0x80]

/-- A line of 65536 letters. -/
def longLine : Bytes := List.replicate 65536 71

/-- A library whose flate reader delivers `longLine` and ends cleanly. -/
def longLineLib : Lib := { sampleLib with inflate := fun _ => ⟨longLine, none⟩ }

/-- A stream that delivers a request line and part of a Host line, then fails. -/
def brokenStream : ReadCloser :=
  ⟨bytesOf "GET http://example.com/ HTTP/1.1\r\nHost: exam", some (Errorf "unexpected EOF")⟩

/-- A stream that delivers a request line and a Content-Length line, then
fails. -/
def brokenStreamWithLength : ReadCloser :=
  ⟨bytesOf "GET http://example.com/ HTTP/1.1\r\nContent-Length: 0\r\nHost: exam",
    some (Errorf "unexpected EOF")⟩

end Relay

/-! ## Basic facts about one attempt -/

theorem carrierCalls_append (l₁ l₂ : List Event) :
    carrierCalls (l₁ ++ l₂) = carrierCalls l₁ + carrierCalls l₂ := by
  simp [carrierCalls, List.countP_append]

theorem attempt_of_encode_error (c : Collaborators) (t : Transport) (req : Request)
    (i : Nat) (log : List Event) (err : GoError)
    (h : c.EncodeRequest i req (c.PickFetchServer req i) t.Deadline = Except.error err) :
    attempt c t req i log =
      Step.done (Outcome.ret none (some (Errorf ("GAE EncodeRequest: " ++ err.Error))))
        (log ++ [Event.PickFetchServer i (c.PickFetchServer req i), Event.EncodeRequest i]) := by
  simp only [attempt, h]

theorem attempt_of_carrier_error (c : Collaborators) (t : Transport) (req : Request)
    (i : Nat) (log : List Event) (req1 : Request) (err : GoError)
    (henc : c.EncodeRequest i req (c.PickFetchServer req i) t.Deadline = Except.ok req1)
    (hrt : c.RoundTrip i req1 = Except.error err) :
    attempt c t req i log =
      onCarrierError c t i err
        (log ++ [Event.PickFetchServer i (c.PickFetchServer req i), Event.EncodeRequest i]
          ++ [Event.RoundTrip i req1]) := by
  simp only [attempt, henc, hrt]

theorem attempt_of_not_ok (c : Collaborators) (t : Transport) (req : Request)
    (i : Nat) (log : List Event) (req1 : Request) (resp : Response)
    (henc : c.EncodeRequest i req (c.PickFetchServer req i) t.Deadline = Except.ok req1)
    (hrt : c.RoundTrip i req1 = Except.ok resp) (hs : resp.StatusCode ≠ 200) :
    attempt c t req i log =
      onNotOK c t i (c.PickFetchServer req i) resp
        (log ++ [Event.PickFetchServer i (c.PickFetchServer req i), Event.EncodeRequest i]
          ++ [Event.RoundTrip i req1]) := by
  simp only [attempt, henc, hrt, hs, ne_eq, not_false_eq_true, if_true]

theorem attempt_of_ok (c : Collaborators) (t : Transport) (req : Request)
    (i : Nat) (log : List Event) (req1 : Request) (resp : Response)
    (henc : c.EncodeRequest i req (c.PickFetchServer req i) t.Deadline = Except.ok req1)
    (hrt : c.RoundTrip i req1 = Except.ok resp) (hs : resp.StatusCode = 200) :
    attempt c t req i log =
      onOK c t req i (c.PickFetchServer req i) resp
        (log ++ [Event.PickFetchServer i (c.PickFetchServer req i), Event.EncodeRequest i]
          ++ [Event.RoundTrip i req1]) := by
  simp only [attempt, henc, hrt, hs, ne_eq, not_true_eq_false, if_false]

theorem attemptsFrom_of_done (c : Collaborators) (t : Transport) (req : Request)
    (n i : Nat) (log log1 : List Event) (o : Outcome)
    (h : attempt c t req i log = Step.done o log1) :
    attemptsFrom c t req (n + 1) i log = (o, log1) := by
  simp only [attemptsFrom, h]

theorem attemptsFrom_of_next (c : Collaborators) (t : Transport) (req : Request)
    (n i : Nat) (log log1 : List Event)
    (h : attempt c t req i log = Step.next log1) :
    attemptsFrom c t req (n + 1) i log = attemptsFrom c t req n (i + 1) log1 := by
  simp only [attemptsFrom, h]

/-- One attempt adds at most one carrier call to the log. -/
theorem carrierCalls_attempt_le (c : Collaborators) (t : Transport) (req : Request)
    (i : Nat) (log : List Event) :
    carrierCalls (attempt c t req i log).log ≤ carrierCalls log + 1 := by
  unfold attempt onCarrierError onNotOK onOK onDecoded blacklistPeer ReadAll
  simp only []
  repeat' split
  all_goals simp [Step.log, carrierCalls_append, carrierCalls]

/-- The loop with `n` passes left adds at most `n` carrier calls. -/
theorem carrierCalls_attemptsFrom_le (c : Collaborators) (t : Transport) (req : Request)
    (n : Nat) : ∀ (i : Nat) (log : List Event),
    carrierCalls (attemptsFrom c t req n i log).2 ≤ carrierCalls log + n := by
  induction n with
  | zero => intro i log; simp [attemptsFrom]
  | succ n ih =>
    intro i log
    have h1 := carrierCalls_attempt_le c t req i log
    cases h : attempt c t req i log with
    | done o l =>
      rw [attemptsFrom_of_done c t req n i log l o h]
      rw [h] at h1
      simp only [Step.log] at h1
      show carrierCalls l ≤ _
      omega
    | next l =>
      rw [attemptsFrom_of_next c t req n i log l h]
      rw [h] at h1
      simp only [Step.log] at h1
      have h2 := ih (i + 1) l
      omega

/-- A call of `RoundTrip` makes at most `RetryTimes` carrier calls. -/
theorem carrierCalls_RoundTrip_le (c : Collaborators) (t : Transport) (req : Request) :
    carrierCalls (RoundTrip c t req).2 ≤ t.RetryTimes.toNat := by
  have h := carrierCalls_attemptsFrom_le c t req t.RetryTimes.toNat 0 []
  simpa [RoundTrip, carrierCalls] using h

/-! ## C1 - C3: the last attempt and the timeout path -/

/-- C1, run on a failing input: with `RetryTimes = 1` and a carrier whose only
call fails with a lookup timeout (an `*net.OpError` with a nil `Addr`),
`RoundTrip` makes its first and last carrier call and then ends in the nil
dereference of `ne.Addr.String()`: it does not return on that call's error. -/
theorem c1_last_call_fault :
    RoundTrip (constCollaborators (Except.error lookupTimeout) (Except.ok none))
        ⟨true, 20 * Second, Second, 1⟩ sampleReq =
      (Outcome.fault,
        [Event.PickFetchServer 0 sampleServer, Event.EncodeRequest 0,
         Event.RoundTrip 0 sampleReq1, Event.CloseConnections]) := by
  decide

/-- C2, run on a failing input: with `RetryTimes = 1`, a carrier response of
status 200 and a codec that decodes it to a response of inner status 404,
`RoundTrip` returns the carrier response itself, not the decoded response with
the request attached. -/
theorem c2_last_attempt_returns_carrier_response :
    (RoundTrip (constCollaborators (Except.ok carrier200) (Except.ok (some decoded404)))
        ⟨false, 20 * Second, Second, 1⟩ sampleReq).1 =
      Outcome.ret (some carrier200) none ∧
    (RoundTrip (constCollaborators (Except.ok carrier200) (Except.ok (some decoded404)))
        ⟨false, 20 * Second, Second, 1⟩ sampleReq).1 ≠
      Outcome.ret (some { decoded404 with Request := some sampleReq }) none := by
  decide

/-- C3, run on a failing input: with `RetryTimes = 5` and a first carrier call
that fails with a lookup timeout (`Timeout()` true, an `*net.OpError` with a
nil `Addr`), `RoundTrip` closes the connections and then ends in the nil
dereference of `ne.Addr.String()` instead of returning the error. -/
theorem c3_timeout_nil_addr_fault :
    RoundTrip (constCollaborators (Except.error lookupTimeout) (Except.ok none))
        ⟨true, 20 * Second, Second, 5⟩ sampleReq =
      (Outcome.fault,
        [Event.PickFetchServer 0 sampleServer, Event.EncodeRequest 0,
         Event.RoundTrip 0 sampleReq1, Event.CloseConnections]) := by
  decide

/-- On the last attempt, a carrier response of status 200 that the codec
decodes is itself the response returned, with a nil error: line 120 returns
`resp`, not the decoded `resp1`. -/
theorem attempt_last_of_decoded (c : Collaborators) (t : Transport) (req : Request)
    (i : Nat) (log : List Event) (req1 : Request) (resp : Response) (r : Option Response)
    (hi : (i : Int) = t.RetryTimes - 1)
    (henc : c.EncodeRequest i req (c.PickFetchServer req i) t.Deadline = Except.ok req1)
    (hrt : c.RoundTrip i req1 = Except.ok resp) (hs : resp.StatusCode = 200)
    (hdec : c.DecodeResponse i resp = Except.ok r) :
    attempt c t req i log =
      Step.done (Outcome.ret (some resp) none)
        (log ++ [Event.PickFetchServer i (c.PickFetchServer req i), Event.EncodeRequest i,
          Event.RoundTrip i req1, Event.DecodeResponse i]) := by
  rw [attempt_of_ok c t req i log req1 resp henc hrt hs]
  simp [onOK, hdec, hi]

/-- The timeout path for an error that carries its address: the connections
are closed, at most one blacklist entry is written (one exactly, expiring five
minutes after now, when the address splits and a dialer is configured), and
the error is returned. -/
theorem onCarrierError_timeout (c : Collaborators) (t : Transport) (i : Nat)
    (err : GoError) (log : List Event) (ht : isTimeoutError err = true)
    (ha : ∀ ne, err.opError = some ne → ne.Addr ≠ none) :
    onCarrierError c t i err log =
      Step.done (Outcome.ret none (some err))
        (log ++ Event.CloseConnections ::
          (match err.opError with
           | some ne =>
             match ne.Addr.bind c.SplitHostPort with
             | some (ip, _) =>
               if t.MultiDialer then [Event.IPBlackListSet ip (c.Now i + 5 * Minute)] else []
             | none => []
           | none => [])) := by
  unfold onCarrierError
  rw [if_pos ht]
  cases hop : err.opError with
  | none => simp
  | some ne =>
    cases had : ne.Addr with
    | none => exact absurd had (ha ne hop)
    | some addr =>
      cases hsp : c.SplitHostPort addr with
      | none => simp [had, hsp]
      | some p =>
        obtain ⟨ip, port⟩ := p
        cases hm : t.MultiDialer <;> simp [had, hsp]

/-! ## C4 - C5: carrier responses with a status other than 200 -/

/-- C4, counterexample: with `RetryTimes = 3`, status 503 on the first two
attempts and a third carrier response of status 200 that the codec fails to
decode, `RoundTrip` returns `(nil, err)` with the decoding error, not the third
response with a nil error. -/
theorem c4_third_status_200_decode_error :
    (RoundTrip
        (scriptCollaborators
          (fun i => if i < 2 then Except.ok carrier503 else Except.ok carrier200)
          (fun _ => Except.error badEnvelope))
        ⟨false, 20 * Second, Second, 3⟩ sampleReq).1 =
      Outcome.ret none (some badEnvelope) ∧
    (RoundTrip
        (scriptCollaborators
          (fun i => if i < 2 then Except.ok carrier503 else Except.ok carrier200)
          (fun _ => Except.error badEnvelope))
        ⟨false, 20 * Second, Second, 3⟩ sampleReq).1 ≠
      Outcome.ret (some carrier200) none := by
  decide

/-- C4, amended.  On an attempt that is not the last one, a carrier response of
status 503 makes `RoundTrip` call `ToggleBadServer` once on the server picked
for that attempt, sleep `RetryDelay`, and go on to the next attempt.  With
`RetryTimes = 3`, status 503 on the first two attempts and a third carrier
response whose status is not 200, the call marks a server bad twice, sleeps
`RetryDelay` twice, makes exactly three carrier calls and returns the third
response with a nil error. -/
theorem c4_service_unavailable :
    (∀ (c : Collaborators) (t : Transport) (req : Request) (n i : Nat)
        (log : List Event) (req1 : Request) (resp : Response),
      (i : Int) ≠ t.RetryTimes - 1 →
      c.EncodeRequest i req (c.PickFetchServer req i) t.Deadline = Except.ok req1 →
      c.RoundTrip i req1 = Except.ok resp →
      resp.StatusCode = 503 →
      attemptsFrom c t req (n + 1) i log =
        attemptsFrom c t req n (i + 1)
          (log ++ [Event.PickFetchServer i (c.PickFetchServer req i), Event.EncodeRequest i,
            Event.RoundTrip i req1, Event.ToggleBadServer (c.PickFetchServer req i),
            Event.Sleep t.RetryDelay])) ∧
    (∀ (c : Collaborators) (t : Transport) (req : Request) (r0 r1 r2 : Request)
        (p0 p1 p2 : Response),
      t.RetryTimes = 3 →
      c.EncodeRequest 0 req (c.PickFetchServer req 0) t.Deadline = Except.ok r0 →
      c.EncodeRequest 1 req (c.PickFetchServer req 1) t.Deadline = Except.ok r1 →
      c.EncodeRequest 2 req (c.PickFetchServer req 2) t.Deadline = Except.ok r2 →
      c.RoundTrip 0 r0 = Except.ok p0 →
      c.RoundTrip 1 r1 = Except.ok p1 →
      c.RoundTrip 2 r2 = Except.ok p2 →
      p0.StatusCode = 503 → p1.StatusCode = 503 → p2.StatusCode ≠ 200 →
      RoundTrip c t req =
        (Outcome.ret (some p2) none,
          [Event.PickFetchServer 0 (c.PickFetchServer req 0), Event.EncodeRequest 0,
           Event.RoundTrip 0 r0, Event.ToggleBadServer (c.PickFetchServer req 0),
           Event.Sleep t.RetryDelay,
           Event.PickFetchServer 1 (c.PickFetchServer req 1), Event.EncodeRequest 1,
           Event.RoundTrip 1 r1, Event.ToggleBadServer (c.PickFetchServer req 1),
           Event.Sleep t.RetryDelay,
           Event.PickFetchServer 2 (c.PickFetchServer req 2), Event.EncodeRequest 2,
           Event.RoundTrip 2 r2])) := by
  have key : ∀ (c : Collaborators) (t : Transport) (req : Request) (i : Nat)
      (log : List Event) (req1 : Request) (resp : Response),
      (i : Int) ≠ t.RetryTimes - 1 →
      c.EncodeRequest i req (c.PickFetchServer req i) t.Deadline = Except.ok req1 →
      c.RoundTrip i req1 = Except.ok resp →
      resp.StatusCode = 503 →
      attempt c t req i log =
        Step.next
          (log ++ [Event.PickFetchServer i (c.PickFetchServer req i), Event.EncodeRequest i,
            Event.RoundTrip i req1, Event.ToggleBadServer (c.PickFetchServer req i),
            Event.Sleep t.RetryDelay]) := by
    intro c t req i log req1 resp hi henc hrt hs
    rw [attempt_of_not_ok c t req i log req1 resp henc hrt (by rw [hs]; decide)]
    simp [onNotOK, hi, hs]
  refine ⟨?_, ?_⟩
  · intro c t req n i log req1 resp hi henc hrt hs
    exact attemptsFrom_of_next c t req n i log _ (key c t req i log req1 resp hi henc hrt hs)
  · intro c t req r0 r1 r2 p0 p1 p2 hR e0 e1 e2 c0 c1 c2 s0 s1 s2
    have a0 := fun log => key c t req 0 log r0 p0 (by rw [hR]; decide) e0 c0 s0
    have a1 := fun log => key c t req 1 log r1 p1 (by rw [hR]; decide) e1 c1 s1
    have a2 := fun log => attempt_of_not_ok c t req 2 log r2 p2 e2 c2 s2
    simp only [RoundTrip, hR]
    show attemptsFrom c t req 3 0 [] = _
    rw [attemptsFrom_of_next c t req 2 0 [] _ (a0 _),
      attemptsFrom_of_next c t req 1 1 _ _ (a1 _), attemptsFrom, a2]
    simp [onNotOK, hR]

/-- C4, run at a concrete input: status 503 twice, then a response of status
404, with `RetryTimes = 3`. -/
theorem c4_service_unavailable_witness :
    attemptsFrom
        (scriptCollaborators
          (fun i => if i < 2 then Except.ok carrier503 else Except.ok decoded404)
          (fun _ => Except.ok none))
        ⟨false, 20 * Second, Second, 3⟩ sampleReq 3 0 [] =
      attemptsFrom
        (scriptCollaborators
          (fun i => if i < 2 then Except.ok carrier503 else Except.ok decoded404)
          (fun _ => Except.ok none))
        ⟨false, 20 * Second, Second, 3⟩ sampleReq 2 1
        ([] ++ [Event.PickFetchServer 0 sampleServer, Event.EncodeRequest 0,
          Event.RoundTrip 0 sampleReq1, Event.ToggleBadServer sampleServer,
          Event.Sleep Second]) ∧
    RoundTrip
        (scriptCollaborators
          (fun i => if i < 2 then Except.ok carrier503 else Except.ok decoded404)
          (fun _ => Except.ok none))
        ⟨false, 20 * Second, Second, 3⟩ sampleReq =
      (Outcome.ret (some decoded404) none,
        [Event.PickFetchServer 0 sampleServer, Event.EncodeRequest 0,
         Event.RoundTrip 0 sampleReq1, Event.ToggleBadServer sampleServer,
         Event.Sleep Second,
         Event.PickFetchServer 1 sampleServer, Event.EncodeRequest 1,
         Event.RoundTrip 1 sampleReq1, Event.ToggleBadServer sampleServer,
         Event.Sleep Second,
         Event.PickFetchServer 2 sampleServer, Event.EncodeRequest 2,
         Event.RoundTrip 2 sampleReq1]) :=
  ⟨c4_service_unavailable.1 _ ⟨false, 20 * Second, Second, 3⟩ sampleReq 2 0 []
      sampleReq1 carrier503 (by decide) rfl rfl rfl,
   c4_service_unavailable.2 _ ⟨false, 20 * Second, Second, 3⟩ sampleReq
      sampleReq1 sampleReq1 sampleReq1 carrier503 carrier503 decoded404
      rfl rfl rfl rfl rfl rfl rfl rfl rfl (by decide)⟩

/-- C5.  On an attempt that is not the last one, a carrier response of status
302, 502, 404 or 405 sends `RoundTrip` on to the next attempt: nothing is
slept, no server is marked bad, and a blacklist entry (expiring eight hours
after now) is written exactly when a dialer is configured and the peer address
of the response is found and splits into host and port.  On any attempt, a
carrier response whose status is none of 200, 503, 302, 502, 404, 405 is
returned as it is with a nil error, and no further call is made. -/
theorem c5_other_status :
    (∀ (c : Collaborators) (t : Transport) (req : Request) (n i : Nat)
        (log : List Event) (req1 : Request) (resp : Response),
      (i : Int) ≠ t.RetryTimes - 1 →
      c.EncodeRequest i req (c.PickFetchServer req i) t.Deadline = Except.ok req1 →
      c.RoundTrip i req1 = Except.ok resp →
      (resp.StatusCode = 302 ∨ resp.StatusCode = 502 ∨ resp.StatusCode = 404
        ∨ resp.StatusCode = 405) →
      attemptsFrom c t req (n + 1) i log =
        attemptsFrom c t req n (i + 1)
          (log ++ [Event.PickFetchServer i (c.PickFetchServer req i), Event.EncodeRequest i,
              Event.RoundTrip i req1] ++
            (if t.MultiDialer then
              match c.ReflectRemoteAddrFromResponse i resp with
              | Except.ok addr =>
                match c.SplitHostPort addr with
                | some (ip, _) =>
                  [Event.IPBlackListSet ip (c.Now i + 8 * Hour),
                   Event.CloseConnectionByRemoteHost ip]
                | none => []
              | Except.error _ => []
            else []))) ∧
    (∀ (c : Collaborators) (t : Transport) (req : Request) (n i : Nat)
        (log : List Event) (req1 : Request) (resp : Response),
      c.EncodeRequest i req (c.PickFetchServer req i) t.Deadline = Except.ok req1 →
      c.RoundTrip i req1 = Except.ok resp →
      resp.StatusCode ≠ 200 → resp.StatusCode ≠ 503 → resp.StatusCode ≠ 302 →
      resp.StatusCode ≠ 502 → resp.StatusCode ≠ 404 → resp.StatusCode ≠ 405 →
      attemptsFrom c t req (n + 1) i log =
        (Outcome.ret (some resp) none,
          log ++ [Event.PickFetchServer i (c.PickFetchServer req i), Event.EncodeRequest i,
            Event.RoundTrip i req1])) := by
  refine ⟨?_, ?_⟩
  · intro c t req n i log req1 resp hi henc hrt hs
    have h200 : resp.StatusCode ≠ 200 := by
      rcases hs with h | h | h | h <;> rw [h] <;> decide
    have h503 : resp.StatusCode ≠ 503 := by
      rcases hs with h | h | h | h <;> rw [h] <;> decide
    apply attemptsFrom_of_next
    rw [attempt_of_not_ok c t req i log req1 resp henc hrt h200]
    simp only [onNotOK, if_neg hi, if_neg h503, if_pos hs, blacklistPeer]
    congr 1
    cases hm : t.MultiDialer with
    | false => simp
    | true =>
      cases hr : c.ReflectRemoteAddrFromResponse i resp with
      | error e => simp
      | ok addr =>
        cases hsp : c.SplitHostPort addr with
        | none => simp [hsp]
        | some q => simp [hsp]
  · intro c t req n i log req1 resp henc hrt h200 h503 h302 h502 h404 h405
    apply attemptsFrom_of_done
    rw [attempt_of_not_ok c t req i log req1 resp henc hrt h200]
    by_cases hi : (i : Int) = t.RetryTimes - 1
    · simp [onNotOK, hi]
    · simp [onNotOK, hi, h503, h302, h502, h404, h405]

/-- C5, run at a concrete input: status 404 on the first of two attempts with
a dialer configured, and status 500 on the first of two attempts. -/
theorem c5_other_status_witness :
    attemptsFrom (scriptCollaborators (fun _ => Except.ok carrier404) (fun _ => Except.ok none))
        ⟨true, 20 * Second, Second, 2⟩ sampleReq 2 0 [] =
      attemptsFrom (scriptCollaborators (fun _ => Except.ok carrier404) (fun _ => Except.ok none))
        ⟨true, 20 * Second, Second, 2⟩ sampleReq 1 1
        [Event.PickFetchServer 0 sampleServer, Event.EncodeRequest 0,
         Event.RoundTrip 0 sampleReq1,
         Event.IPBlackListSet "203.0.113.7" (0 + 8 * Hour),
         Event.CloseConnectionByRemoteHost "203.0.113.7"] ∧
    attemptsFrom (scriptCollaborators (fun _ => Except.ok carrier500) (fun _ => Except.ok none))
        ⟨true, 20 * Second, Second, 2⟩ sampleReq 2 0 [] =
      (Outcome.ret (some carrier500) none,
        [Event.PickFetchServer 0 sampleServer, Event.EncodeRequest 0,
         Event.RoundTrip 0 sampleReq1]) :=
  ⟨c5_other_status.1 _ ⟨true, 20 * Second, Second, 2⟩ sampleReq 1 0 []
      sampleReq1 carrier404 (by decide) rfl rfl (by decide),
   c5_other_status.2 _ ⟨true, 20 * Second, Second, 2⟩ sampleReq 1 0 []
      sampleReq1 carrier500 rfl rfl (by decide) (by decide) (by decide) (by decide)
      (by decide) (by decide)⟩

/-! ## C6 - C7: the decoded response on an attempt that is not the last -/

/-- The last attempt, once its request is encoded, ends the call after exactly
one more carrier call, without sleeping and without marking a server bad. -/
theorem attempt_last (c : Collaborators) (t : Transport) (req : Request) (i : Nat)
    (log : List Event) (req1 : Request) (hi : (i : Int) = t.RetryTimes - 1)
    (henc : c.EncodeRequest i req (c.PickFetchServer req i) t.Deadline = Except.ok req1) :
    ∃ o l, attempt c t req i log = Step.done o l ∧ sleeps l = sleeps log ∧
      toggles l = toggles log ∧ carrierCalls l = carrierCalls log + 1 := by
  cases hrt : c.RoundTrip i req1 with
  | error err =>
    rw [attempt_of_carrier_error c t req i log req1 err henc hrt]
    unfold onCarrierError
    simp only [if_pos hi]
    repeat' split
    all_goals
      refine ⟨_, _, rfl, ?_, ?_, ?_⟩ <;>
        simp [sleeps, toggles, carrierCalls, List.filterMap_append, List.countP_append]
  | ok resp =>
    by_cases hs : resp.StatusCode = 200
    · rw [attempt_of_ok c t req i log req1 resp henc hrt hs]
      unfold onOK
      simp only [if_pos hi]
      repeat' split
      all_goals
        refine ⟨_, _, rfl, ?_, ?_, ?_⟩ <;>
          simp [sleeps, toggles, carrierCalls, List.filterMap_append, List.countP_append]
    · rw [attempt_of_not_ok c t req i log req1 resp henc hrt hs]
      unfold onNotOK
      simp only [if_pos hi]
      refine ⟨_, _, rfl, ?_, ?_, ?_⟩ <;>
        simp [sleeps, toggles, carrierCalls, List.filterMap_append, List.countP_append]

/-- An attempt that is not the last, with carrier status 200 and a decoded
response that is not nil, continues in the switch on the decoded status. -/
theorem attempt_of_decoded (c : Collaborators) (t : Transport) (req : Request)
    (i : Nat) (log : List Event) (req1 : Request) (resp r : Response)
    (hi : (i : Int) ≠ t.RetryTimes - 1)
    (henc : c.EncodeRequest i req (c.PickFetchServer req i) t.Deadline = Except.ok req1)
    (hrt : c.RoundTrip i req1 = Except.ok resp) (hs : resp.StatusCode = 200)
    (hdec : c.DecodeResponse i resp = Except.ok (some r)) :
    attempt c t req i log =
      onDecoded t (c.PickFetchServer req i) { r with Request := some req }
        (log ++ [Event.PickFetchServer i (c.PickFetchServer req i), Event.EncodeRequest i,
          Event.RoundTrip i req1, Event.DecodeResponse i]) := by
  rw [attempt_of_ok c t req i log req1 resp henc hrt hs]
  simp [onOK, hdec, hi]

/-- C6.  On an attempt that is not the last one, with carrier status 200 and a
decoded response of inner status 502 whose fully read body contains
"DEADLINE_EXCEEDED", `RoundTrip` sleeps `Deadline` (not `RetryDelay`), marks no
server bad and goes on to the next attempt.  With `RetryTimes = 2` and this on
the first attempt, a call whose second attempt reaches its carrier call ends
with the outcome of that second attempt, having slept `Deadline` once, marked
no server bad and made exactly two carrier calls. -/
theorem c6_deadline_exceeded :
    (∀ (c : Collaborators) (t : Transport) (req : Request) (n i : Nat)
        (log : List Event) (req1 : Request) (resp r : Response) (body : Bytes),
      (i : Int) ≠ t.RetryTimes - 1 →
      c.EncodeRequest i req (c.PickFetchServer req i) t.Deadline = Except.ok req1 →
      c.RoundTrip i req1 = Except.ok resp →
      resp.StatusCode = 200 →
      c.DecodeResponse i resp = Except.ok (some r) →
      r.StatusCode = 502 →
      ReadAll r.Body = (body, none) →
      bytesContains body (bytesOf "DEADLINE_EXCEEDED") = true →
      attemptsFrom c t req (n + 1) i log =
        attemptsFrom c t req n (i + 1)
          (log ++ [Event.PickFetchServer i (c.PickFetchServer req i), Event.EncodeRequest i,
            Event.RoundTrip i req1, Event.DecodeResponse i, Event.Sleep t.Deadline])) ∧
    (∀ (c : Collaborators) (t : Transport) (req : Request) (r0 r1 : Request)
        (p0 d0 : Response) (body : Bytes),
      t.RetryTimes = 2 →
      c.EncodeRequest 0 req (c.PickFetchServer req 0) t.Deadline = Except.ok r0 →
      c.RoundTrip 0 r0 = Except.ok p0 →
      p0.StatusCode = 200 →
      c.DecodeResponse 0 p0 = Except.ok (some d0) →
      d0.StatusCode = 502 →
      ReadAll d0.Body = (body, none) →
      bytesContains body (bytesOf "DEADLINE_EXCEEDED") = true →
      c.EncodeRequest 1 req (c.PickFetchServer req 1) t.Deadline = Except.ok r1 →
      ∃ o l,
        attempt c t req 1
            [Event.PickFetchServer 0 (c.PickFetchServer req 0), Event.EncodeRequest 0,
             Event.RoundTrip 0 r0, Event.DecodeResponse 0, Event.Sleep t.Deadline] =
          Step.done o l ∧
        RoundTrip c t req = (o, l) ∧
        sleeps l = [t.Deadline] ∧ toggles l = [] ∧ carrierCalls l = 2) := by
  have key : ∀ (c : Collaborators) (t : Transport) (req : Request) (i : Nat)
      (log : List Event) (req1 : Request) (resp r : Response) (body : Bytes),
      (i : Int) ≠ t.RetryTimes - 1 →
      c.EncodeRequest i req (c.PickFetchServer req i) t.Deadline = Except.ok req1 →
      c.RoundTrip i req1 = Except.ok resp →
      resp.StatusCode = 200 →
      c.DecodeResponse i resp = Except.ok (some r) →
      r.StatusCode = 502 →
      ReadAll r.Body = (body, none) →
      bytesContains body (bytesOf "DEADLINE_EXCEEDED") = true →
      attempt c t req i log =
        Step.next
          (log ++ [Event.PickFetchServer i (c.PickFetchServer req i), Event.EncodeRequest i,
            Event.RoundTrip i req1, Event.DecodeResponse i, Event.Sleep t.Deadline]) := by
    intro c t req i log req1 resp r body hi henc hrt hs hdec h502 hra hb
    rw [attempt_of_decoded c t req i log req1 resp r hi henc hrt hs hdec]
    simp [onDecoded, h502, hra, hb]
  refine ⟨?_, ?_⟩
  · intro c t req n i log req1 resp r body hi henc hrt hs hdec h502 hra hb
    exact attemptsFrom_of_next c t req n i log _
      (key c t req i log req1 resp r body hi henc hrt hs hdec h502 hra hb)
  · intro c t req r0 r1 p0 d0 body hR e0 c0 s0 dec0 h502 hra hb e1
    have a0 := key c t req 0 [] r0 p0 d0 body (by rw [hR]; decide) e0 c0 s0 dec0 h502 hra hb
    obtain ⟨o, l, hl, hsl, htg, hcc⟩ :=
      attempt_last c t req 1
        [Event.PickFetchServer 0 (c.PickFetchServer req 0), Event.EncodeRequest 0,
         Event.RoundTrip 0 r0, Event.DecodeResponse 0, Event.Sleep t.Deadline]
        r1 (by rw [hR]; decide) e1
    refine ⟨o, l, hl, ?_, ?_, ?_, ?_⟩
    · simp only [RoundTrip, hR]
      show attemptsFrom c t req 2 0 [] = _
      rw [attemptsFrom_of_next c t req 1 0 [] _ a0]
      exact attemptsFrom_of_done c t req 0 1 _ l o hl
    · rw [hsl]; simp [sleeps]
    · rw [htg]; simp [toggles]
    · rw [hcc]; simp [carrierCalls]

/-- C6, run at a concrete input: two attempts, the first decoded to a 502 that
names the deadline, the second decoded to a 404. -/
theorem c6_deadline_exceeded_witness :
    attemptsFrom
        (scriptCollaborators (fun _ => Except.ok carrier200)
          (fun i => if i = 0 then Except.ok (some deadline502) else Except.ok (some decoded404)))
        ⟨false, 20 * Second, Second, 2⟩ sampleReq 2 0 [] =
      attemptsFrom
        (scriptCollaborators (fun _ => Except.ok carrier200)
          (fun i => if i = 0 then Except.ok (some deadline502) else Except.ok (some decoded404)))
        ⟨false, 20 * Second, Second, 2⟩ sampleReq 1 1
        ([] ++ [Event.PickFetchServer 0 sampleServer, Event.EncodeRequest 0,
          Event.RoundTrip 0 sampleReq1, Event.DecodeResponse 0, Event.Sleep (20 * Second)]) ∧
    ∃ o l,
      attempt
          (scriptCollaborators (fun _ => Except.ok carrier200)
            (fun i => if i = 0 then Except.ok (some deadline502) else Except.ok (some decoded404)))
          ⟨false, 20 * Second, Second, 2⟩ sampleReq 1
          [Event.PickFetchServer 0 sampleServer, Event.EncodeRequest 0,
           Event.RoundTrip 0 sampleReq1, Event.DecodeResponse 0, Event.Sleep (20 * Second)] =
        Step.done o l ∧
      RoundTrip
          (scriptCollaborators (fun _ => Except.ok carrier200)
            (fun i => if i = 0 then Except.ok (some deadline502) else Except.ok (some decoded404)))
          ⟨false, 20 * Second, Second, 2⟩ sampleReq = (o, l) ∧
      sleeps l = [20 * Second] ∧ toggles l = [] ∧ carrierCalls l = 2 :=
  ⟨c6_deadline_exceeded.1 _ ⟨false, 20 * Second, Second, 2⟩ sampleReq 1 0 []
      sampleReq1 carrier200 deadline502 (bytesOf "DEADLINE_EXCEEDED")
      (by decide) rfl rfl rfl rfl rfl rfl (by decide),
   c6_deadline_exceeded.2 _ ⟨false, 20 * Second, Second, 2⟩ sampleReq
      sampleReq1 sampleReq1 carrier200 deadline502 (bytesOf "DEADLINE_EXCEEDED")
      rfl rfl rfl rfl rfl rfl rfl (by decide) rfl⟩

/-- C7.  On an attempt that is not the last one, with carrier status 200: a
decoded response of inner status 502 whose fully read body contains none of
"DEADLINE_EXCEEDED", "ver quota", "urlfetch: CLOSED" is returned with a nil
error, the request attached and a body that reads back exactly the bytes
already read, with no sleep and no further carrier call; a decoded response of
any inner status other than 502 is returned at once, the request attached,
with a nil error. -/
theorem c7_decoded_returned :
    (∀ (c : Collaborators) (t : Transport) (req : Request) (n i : Nat)
        (log : List Event) (req1 : Request) (resp r : Response) (body : Bytes),
      (i : Int) ≠ t.RetryTimes - 1 →
      c.EncodeRequest i req (c.PickFetchServer req i) t.Deadline = Except.ok req1 →
      c.RoundTrip i req1 = Except.ok resp →
      resp.StatusCode = 200 →
      c.DecodeResponse i resp = Except.ok (some r) →
      r.StatusCode = 502 →
      ReadAll r.Body = (body, none) →
      bytesContains body (bytesOf "DEADLINE_EXCEEDED") = false →
      bytesContains body (bytesOf "ver quota") = false →
      bytesContains body (bytesOf "urlfetch: CLOSED") = false →
      attemptsFrom c t req (n + 1) i log =
          (Outcome.ret (some { r with Request := some req, Body := NopCloser body }) none,
            log ++ [Event.PickFetchServer i (c.PickFetchServer req i), Event.EncodeRequest i,
              Event.RoundTrip i req1, Event.DecodeResponse i]) ∧
        ReadAll (NopCloser body) = (body, none)) ∧
    (∀ (c : Collaborators) (t : Transport) (req : Request) (n i : Nat)
        (log : List Event) (req1 : Request) (resp r : Response),
      (i : Int) ≠ t.RetryTimes - 1 →
      c.EncodeRequest i req (c.PickFetchServer req i) t.Deadline = Except.ok req1 →
      c.RoundTrip i req1 = Except.ok resp →
      resp.StatusCode = 200 →
      c.DecodeResponse i resp = Except.ok (some r) →
      r.StatusCode ≠ 502 →
      attemptsFrom c t req (n + 1) i log =
        (Outcome.ret (some { r with Request := some req }) none,
          log ++ [Event.PickFetchServer i (c.PickFetchServer req i), Event.EncodeRequest i,
            Event.RoundTrip i req1, Event.DecodeResponse i])) := by
  refine ⟨?_, ?_⟩
  · intro c t req n i log req1 resp r body hi henc hrt hs hdec h502 hra h1 h2 h3
    refine ⟨?_, rfl⟩
    apply attemptsFrom_of_done
    rw [attempt_of_decoded c t req i log req1 resp r hi henc hrt hs hdec]
    simp [onDecoded, h502, hra, h1, h2, h3]
  · intro c t req n i log req1 resp r hi henc hrt hs hdec h502
    apply attemptsFrom_of_done
    rw [attempt_of_decoded c t req i log req1 resp r hi henc hrt hs hdec]
    simp [onDecoded, h502]

/-- C7, run at a concrete input: the first of two attempts, decoded to a 502 of
the origin, and decoded to a 404. -/
theorem c7_decoded_returned_witness :
    (attemptsFrom
        (constCollaborators (Except.ok carrier200) (Except.ok (some origin502)))
        ⟨false, 20 * Second, Second, 2⟩ sampleReq 2 0 [] =
      (Outcome.ret
          (some { origin502 with
            Request := some sampleReq, Body := NopCloser (bytesOf "bad gateway") }) none,
        [] ++ [Event.PickFetchServer 0 sampleServer, Event.EncodeRequest 0,
          Event.RoundTrip 0 sampleReq1, Event.DecodeResponse 0]) ∧
      ReadAll (NopCloser (bytesOf "bad gateway")) = (bytesOf "bad gateway", none)) ∧
    attemptsFrom
        (constCollaborators (Except.ok carrier200) (Except.ok (some decoded404)))
        ⟨false, 20 * Second, Second, 2⟩ sampleReq 2 0 [] =
      (Outcome.ret (some { decoded404 with Request := some sampleReq }) none,
        [] ++ [Event.PickFetchServer 0 sampleServer, Event.EncodeRequest 0,
          Event.RoundTrip 0 sampleReq1, Event.DecodeResponse 0]) :=
  ⟨c7_decoded_returned.1 _ ⟨false, 20 * Second, Second, 2⟩ sampleReq 1 0 []
      sampleReq1 carrier200 origin502 (bytesOf "bad gateway")
      (by decide) rfl rfl rfl rfl rfl rfl (by decide) (by decide) (by decide),
   c7_decoded_returned.2 _ ⟨false, 20 * Second, Second, 2⟩ sampleReq 1 0 []
      sampleReq1 carrier200 decoded404 (by decide) rfl rfl rfl rfl (by decide)⟩

/-! ## C8 - C9: codec failures and carrier errors that are not timeouts -/

/-- C8.  On any attempt, a failure of `EncodeRequest` ends the call before the
carrier call of that attempt, with an error whose text is
"GAE EncodeRequest: " followed by the text of the failure; a failure of
`DecodeResponse` on a carrier response of status 200 ends the call with
`(nil, err)` for that same error.  In both cases no later attempt is made,
whatever number of attempts remains. -/
theorem c8_codec_failure :
    (∀ (c : Collaborators) (t : Transport) (req : Request) (n i : Nat)
        (log : List Event) (err : GoError),
      c.EncodeRequest i req (c.PickFetchServer req i) t.Deadline = Except.error err →
      attemptsFrom c t req (n + 1) i log =
        (Outcome.ret none (some (Errorf ("GAE EncodeRequest: " ++ err.Error))),
          log ++ [Event.PickFetchServer i (c.PickFetchServer req i),
            Event.EncodeRequest i])) ∧
    (∀ (c : Collaborators) (t : Transport) (req : Request) (n i : Nat)
        (log : List Event) (req1 : Request) (resp : Response) (err : GoError),
      c.EncodeRequest i req (c.PickFetchServer req i) t.Deadline = Except.ok req1 →
      c.RoundTrip i req1 = Except.ok resp →
      resp.StatusCode = 200 →
      c.DecodeResponse i resp = Except.error err →
      attemptsFrom c t req (n + 1) i log =
        (Outcome.ret none (some err),
          log ++ [Event.PickFetchServer i (c.PickFetchServer req i), Event.EncodeRequest i,
            Event.RoundTrip i req1, Event.DecodeResponse i])) := by
  refine ⟨?_, ?_⟩
  · intro c t req n i log err henc
    exact attemptsFrom_of_done c t req n i log _ _
      (attempt_of_encode_error c t req i log err henc)
  · intro c t req n i log req1 resp err henc hrt hs hdec
    apply attemptsFrom_of_done
    rw [attempt_of_ok c t req i log req1 resp henc hrt hs]
    simp [onOK, hdec]

/-- C8, run at a concrete input: the first of five attempts, with a failing
encoder and with a failing decoder. -/
theorem c8_codec_failure_witness :
    attemptsFrom failingEncoder ⟨false, 20 * Second, Second, 5⟩ sampleReq 5 0 [] =
      (Outcome.ret none (some (Errorf ("GAE EncodeRequest: " ++ encodeFailure.Error))),
        [] ++ [Event.PickFetchServer 0 sampleServer, Event.EncodeRequest 0]) ∧
    attemptsFrom (constCollaborators (Except.ok carrier200) (Except.error badEnvelope))
        ⟨false, 20 * Second, Second, 5⟩ sampleReq 5 0 [] =
      (Outcome.ret none (some badEnvelope),
        [] ++ [Event.PickFetchServer 0 sampleServer, Event.EncodeRequest 0,
          Event.RoundTrip 0 sampleReq1, Event.DecodeResponse 0]) :=
  ⟨c8_codec_failure.1 failingEncoder ⟨false, 20 * Second, Second, 5⟩ sampleReq 4 0 []
      encodeFailure rfl,
   c8_codec_failure.2 _ ⟨false, 20 * Second, Second, 5⟩ sampleReq 4 0 []
      sampleReq1 carrier200 badEnvelope rfl rfl rfl rfl⟩

/-- C9.  On an attempt that is not the last one, a carrier error that is not
classified as a timeout and whose text is exactly "unexpected EOF" makes
`RoundTrip` close all connections and return `(nil, err)` with no further
attempt; any other error that is not a timeout sends it on to the next
attempt, with no sleep and no connection teardown. -/
theorem c9_carrier_error :
    (∀ (c : Collaborators) (t : Transport) (req : Request) (n i : Nat)
        (log : List Event) (req1 : Request) (err : GoError),
      (i : Int) ≠ t.RetryTimes - 1 →
      c.EncodeRequest i req (c.PickFetchServer req i) t.Deadline = Except.ok req1 →
      c.RoundTrip i req1 = Except.error err →
      isTimeoutError err = false →
      err.Error = "unexpected EOF" →
      attemptsFrom c t req (n + 1) i log =
        (Outcome.ret none (some err),
          log ++ [Event.PickFetchServer i (c.PickFetchServer req i), Event.EncodeRequest i,
            Event.RoundTrip i req1, Event.CloseConnections])) ∧
    (∀ (c : Collaborators) (t : Transport) (req : Request) (n i : Nat)
        (log : List Event) (req1 : Request) (err : GoError),
      (i : Int) ≠ t.RetryTimes - 1 →
      c.EncodeRequest i req (c.PickFetchServer req i) t.Deadline = Except.ok req1 →
      c.RoundTrip i req1 = Except.error err →
      isTimeoutError err = false →
      err.Error ≠ "unexpected EOF" →
      attemptsFrom c t req (n + 1) i log =
        attemptsFrom c t req n (i + 1)
          (log ++ [Event.PickFetchServer i (c.PickFetchServer req i), Event.EncodeRequest i,
            Event.RoundTrip i req1])) := by
  refine ⟨?_, ?_⟩
  · intro c t req n i log req1 err hi henc hrt ht he
    apply attemptsFrom_of_done
    rw [attempt_of_carrier_error c t req i log req1 err henc hrt]
    simp [onCarrierError, ht, hi, he]
  · intro c t req n i log req1 err hi henc hrt ht he
    apply attemptsFrom_of_next
    rw [attempt_of_carrier_error c t req i log req1 err henc hrt]
    simp [onCarrierError, ht, hi, he]

/-- C9, run at a concrete input: the first of two attempts, failing with
"unexpected EOF" and failing with a connection reset. -/
theorem c9_carrier_error_witness :
    attemptsFrom (constCollaborators (Except.error unexpectedEOF) (Except.ok none))
        ⟨false, 20 * Second, Second, 2⟩ sampleReq 2 0 [] =
      (Outcome.ret none (some unexpectedEOF),
        [] ++ [Event.PickFetchServer 0 sampleServer, Event.EncodeRequest 0,
          Event.RoundTrip 0 sampleReq1, Event.CloseConnections]) ∧
    attemptsFrom (constCollaborators (Except.error connectionReset) (Except.ok none))
        ⟨false, 20 * Second, Second, 2⟩ sampleReq 2 0 [] =
      attemptsFrom (constCollaborators (Except.error connectionReset) (Except.ok none))
        ⟨false, 20 * Second, Second, 2⟩ sampleReq 1 1
        ([] ++ [Event.PickFetchServer 0 sampleServer, Event.EncodeRequest 0,
          Event.RoundTrip 0 sampleReq1]) :=
  ⟨c9_carrier_error.1 _ ⟨false, 20 * Second, Second, 2⟩ sampleReq 1 0 []
      sampleReq1 unexpectedEOF (by decide) rfl rfl (by decide) rfl,
   c9_carrier_error.2 _ ⟨false, 20 * Second, Second, 2⟩ sampleReq 1 0 []
      sampleReq1 connectionReset (by decide) rfl rfl (by decide) (by decide)⟩

/-! ## C10: the envelope -/

/-- C10.  Envelope round trip: when decompression inverts compression and the
compressed form of a header text has at most 65535 bytes, unwrapping the
envelope written for that text and a body yields a header stream that delivers
exactly the text and ends cleanly, and leaves exactly the body as the rest of
the carrier body. -/
theorem c10_envelope_round_trip (deflate : Bytes → Bytes) (inflate : Bytes → ReadCloser)
    (hinv : ∀ x, inflate (deflate x) = ⟨x, none⟩) (header body : Bytes)
    (hlen : (deflate header).length ≤ 65535) :
    unwrapEnvelope inflate (wrapEnvelope deflate header body) =
      Except.ok (⟨header, none⟩, body) := by
  have h : (deflate header).length % 65536 / 256 % 256 * 256
      + (deflate header).length % 65536 % 256 = (deflate header).length := by omega
  simp [unwrapEnvelope, wrapEnvelope, PutUint16, uint16, binaryReadUint16, h, hinv]

/-- C10, run at a concrete input, with a codec that stores the text behind a
one-byte marker. -/
theorem c10_envelope_round_trip_witness :
    unwrapEnvelope (fun y => ⟨y.tail, none⟩)
        (wrapEnvelope (fun x => 1 :: x) [72, 84, 84, 80, 47, 49, 46, 49, 32, 50, 48, 48]
          [104, 105]) =
      Except.ok (⟨[72, 84, 84, 80, 47, 49, 46, 49, 32, 50, 48, 48], none⟩, [104, 105]) :=
  c10_envelope_round_trip (fun x => 1 :: x) (fun y => ⟨y.tail, none⟩) (fun _ => rfl)
    [72, 84, 84, 80, 47, 49, 46, 49, 32, 50, 48, 48] [104, 105] (by decide)

/-! ## Basic facts about headers, options and splitting -/

namespace Relay

theorem Header.values_filter (h : Header) (k ck : String) :
    Header.values (h.filter (fun p => p.1 ≠ k)) ck = if ck = k then [] else Header.values h ck := by
  induction h with
  | nil => simp [Header.values]
  | cons p t ih =>
    by_cases hp : p.1 = k
    · have : (p :: t).filter (fun p => decide (p.1 ≠ k)) = t.filter (fun p => decide (p.1 ≠ k)) := by
        simp [List.filter_cons, hp]
      rw [this, ih]
      by_cases hck : ck = k
      · simp [hck]
      · have hne : ¬ p.1 = ck := fun e => hck (e ▸ hp)
        simp [hck, Header.values, List.find?_cons, hne]
    · have : (p :: t).filter (fun p => decide (p.1 ≠ k)) = p :: t.filter (fun p => decide (p.1 ≠ k)) := by
        simp [List.filter_cons, hp]
      rw [this]
      by_cases hpc : p.1 = ck
      · have hck : ¬ ck = k := fun e => hp (hpc.trans e)
        simp [Header.values, List.find?_cons, hpc, hck]
      · have ih' := ih
        simp only [Header.values] at ih' ⊢
        simp only [List.find?_cons, hpc, decide_False]
        exact ih'

theorem Header.values_Del (lib : Lib) (h : Header) (key ck : String) :
    Header.values (Header.Del lib h key) ck =
      if ck = lib.CanonicalMIMEHeaderKey key then [] else Header.values h ck := by
  simp only [Header.Del]
  exact Header.values_filter h _ ck

theorem Header.values_Set (lib : Lib) (h : Header) (key value ck : String) :
    Header.values (Header.Set lib h key value) ck =
      if ck = lib.CanonicalMIMEHeaderKey key then [value] else Header.values h ck := by
  by_cases hck : ck = lib.CanonicalMIMEHeaderKey key
  · simp [Header.Set, Header.values, hck]
  · have hne : ¬ lib.CanonicalMIMEHeaderKey key = ck := fun e => hck e.symm
    have := Header.values_filter h (lib.CanonicalMIMEHeaderKey key) ck
    simp only [hck, if_false] at this
    simp only [Header.Set, hck, if_false]
    simp only [Header.values] at this ⊢
    simp only [List.find?_cons, hne, decide_False]
    exact this

theorem Header.Get_Del_self (lib : Lib) (h : Header) (key : String) :
    Header.Get lib (Header.Del lib h key) key = "" := by
  simp [Header.Get, Header.values_Del]

theorem Params.get?_set (m : Params) (k v k1 : String) :
    (Params.set m k v).get? k1 = if k = k1 then some v else m.get? k1 := by
  by_cases hk : k = k1
  · simp [Params.set, Params.get?, hk]
  · have hfil : ∀ l : Params,
        (l.filter (fun p => decide (p.1 ≠ k))).find? (fun p => decide (p.1 = k1)) =
          l.find? (fun p => decide (p.1 = k1)) := by
      intro l
      induction l with
      | nil => rfl
      | cons p t ih =>
        by_cases hp : p.1 = k
        · have hp1 : ¬ p.1 = k1 := fun e => hk (hp.symm.trans e)
          have hA : decide (p.1 ≠ k) = false := by simp [hp]
          have hB : decide (p.1 = k1) = false := by simp [hp1]
          simp only [List.filter, List.find?, hA, hB]
          exact ih
        · have hA : decide (p.1 ≠ k) = true := by simp [hp]
          by_cases hp1 : p.1 = k1
          · have hB : decide (p.1 = k1) = true := by simp [hp1]
            simp only [List.filter, List.find?, hA, hB]
          · have hB : decide (p.1 = k1) = false := by simp [hp1]
            simp only [List.filter, List.find?, hA, hB]
            exact ih
    simp only [Params.set, Params.get?, List.find?_cons, hk, decide_False, if_false, hfil]

theorem get?_foldl_set (ps : List (String × String)) (k : String) :
    ∀ m : Params, (ps.foldl (fun m p => Params.set m p.1 p.2) m).get? k =
      match lastValue ps k with
      | some s => some s
      | none => m.get? k := by
  induction ps with
  | nil => intro m; simp [lastValue]
  | cons p t ih =>
    intro m
    simp only [List.foldl_cons]
    rw [ih (Params.set m p.1 p.2), Params.get?_set]
    simp only [lastValue, List.reverse_cons, List.find?_append]
    cases hf : List.find? (fun p => decide (p.1 = k)) t.reverse with
    | some q => simp
    | none =>
      by_cases hp : p.1 = k
      · simp [hp]
      · simp [hp]

theorem parseParams_eq (v : String) :
    parseParams v = (optionPairs v).foldl (fun m p => Params.set m p.1 p.2) [] := by
  simp only [parseParams, optionPairs, List.foldl_map]
  congr 1
  funext m pair
  cases h : SplitN2 pair '=' with
  | mk a b => cases b <;> simp

/-- The map built on lines 181-188 gives each key the value of its last
occurrence among the pairs of the options value. -/
theorem parseParams_get? (v k : String) :
    (parseParams v).get? k = lastValue (optionPairs v) k := by
  rw [parseParams_eq, get?_foldl_set]
  cases lastValue (optionPairs v) k <;> simp [Params.get?]

theorem lastValue_isSome (ps : List (String × String)) (k : String) :
    (lastValue ps k).isSome = true ↔ ∃ p ∈ ps, p.1 = k := by
  simp only [lastValue, Option.isSome_map', List.find?_isSome, List.mem_reverse,
    decide_eq_true_eq]

/-- The log of the fetch loop grows by the fetch of the current pass first. -/
theorem fetchFrom_log (lib : Lib) (fetch : Fetch) (deadline : Duration) (sslVerify : Bool)
    (fetchMaxSize : Int) (k : Nat) :
    ∀ (i : Nat) (req : Request) (log : List Event),
      ∃ tail, (fetchFrom lib fetch deadline sslVerify fetchMaxSize k i req log).2.2 =
        log ++ Event.Fetch i req deadline (!sslVerify) :: tail ∧ fetchCalls tail ≤ k := by
  induction k with
  | zero =>
    intro i req log
    unfold fetchFrom
    simp only []
    split
    · refine ⟨[], ?_, ?_⟩ <;> simp [fetchCalls]
    · split
      · refine ⟨[], ?_, ?_⟩ <;> simp [fetchCalls]
      · split
        · refine ⟨[Event.Sleep DefaultOverquotaDelay], ?_, ?_⟩ <;> simp [fetchCalls]
        · split
          · refine ⟨[Event.Sleep DefaultURLFetchClosedDelay], ?_, ?_⟩ <;> simp [fetchCalls]
          · refine ⟨[], ?_, ?_⟩ <;> simp [fetchCalls]
  | succ k ih =>
    intro i req log
    unfold fetchFrom
    simp only []
    split
    · refine ⟨[], ?_, ?_⟩ <;> simp [fetchCalls]
    · split
      · obtain ⟨tail, ht, hc⟩ := ih (i + 1)
          { req with Header := rewriteRange lib req.Header fetchMaxSize }
          (log ++ [Event.Fetch i req deadline (!sslVerify)])
        refine ⟨Event.Fetch (i + 1)
          { req with Header := rewriteRange lib req.Header fetchMaxSize } deadline (!sslVerify)
            :: tail, ?_, ?_⟩
        · rw [ht]; simp
        · simp [fetchCalls] at hc ⊢
          omega
      · split
        · obtain ⟨tail, ht, hc⟩ := ih (i + 1) req
            (log ++ [Event.Fetch i req deadline (!sslVerify)] ++ [Event.Sleep DefaultOverquotaDelay])
          refine ⟨Event.Sleep DefaultOverquotaDelay ::
            Event.Fetch (i + 1) req deadline (!sslVerify) :: tail, ?_, ?_⟩
          · rw [ht]; simp
          · simp [fetchCalls] at hc ⊢
            omega
        · split
          · obtain ⟨tail, ht, hc⟩ := ih (i + 1) req
              (log ++ [Event.Fetch i req deadline (!sslVerify)] ++
                [Event.Sleep DefaultURLFetchClosedDelay])
            refine ⟨Event.Sleep DefaultURLFetchClosedDelay ::
              Event.Fetch (i + 1) req deadline (!sslVerify) :: tail, ?_, ?_⟩
            · rw [ht]; simp
            · simp [fetchCalls] at hc ⊢
              omega
          · refine ⟨[], ?_, ?_⟩ <;> simp [fetchCalls]

theorem serve_log (rt : Runtime) (lib : Lib) (fetch : Fetch) (params : Params) (oAE : String)
    (req : Request) :
    (serve rt lib fetch params oAE req).2 =
      (fetchFrom lib fetch (deadlineOf params) (sslVerifyOf params) (fetchMaxSizeOf params)
        1 0 req []).2.2 := by
  unfold serve
  split <;> simp [*]

/-! ## Basic facts about 64-bit integers, white space and the scanner -/

theorem wrapInt64_of_range (x : Int) (h1 : -2 ^ 63 ≤ x) (h2 : x < 2 ^ 63) :
    wrapInt64 x = x := by
  unfold wrapInt64
  omega

/-- A text accepted by `strconv.Atoi` is a value of the 64-bit `int`. -/
theorem Atoi_range (s : String) (n : Int) (h : Atoi s = some n) :
    -2 ^ 63 ≤ n ∧ n < 2 ^ 63 := by
  unfold Atoi at h
  split at h
  · cases h
  · split at h
    · split at h
      · cases h
      · simp only [Option.bind_eq_some] at h
        obtain ⟨m, _, hm⟩ := h
        split at hm
        · injection hm with hm
          omega
        · cases hm
    · split at h
      · split at h
        · cases h
        · simp only [Option.bind_eq_some] at h
          obtain ⟨m, _, hm⟩ := h
          split at hm
          · injection hm with hm
            omega
          · cases hm
      · simp only [Option.bind_eq_some] at h
        obtain ⟨m, _, hm⟩ := h
        split at hm
        · injection hm with hm
          omega
        · cases hm

/-- A text without a minus sign that `strconv.Atoi` accepts is not negative. -/
theorem Atoi_nonneg (s : String) (n : Int) (h : Atoi s = some n) (hs : '-' ∉ s.data) :
    0 ≤ n := by
  unfold Atoi at h
  split at h
  · cases h
  · rename_i c cs hd
    have hc : c ≠ '-' := by
      intro e
      apply hs
      rw [hd, e]
      exact List.mem_cons_self _ _
    simp only [hc, if_false] at h
    split at h
    · split at h
      · cases h
      · simp only [Option.bind_eq_some] at h
        obtain ⟨m, _, hm⟩ := h
        split at hm
        · injection hm with hm
          omega
        · cases hm
    · simp only [Option.bind_eq_some] at h
      obtain ⟨m, _, hm⟩ := h
      split at hm
      · injection hm with hm
        omega
      · cases hm

/-- White space is trimmed rune by rune: a lone byte 0xA0 or 0x85 is not the
encoding of a space and stays, the encodings C2 A0 and E2 80 83 are spaces and
go. -/
theorem TrimSpace_samples :
    TrimSpace " \t5 \r\n" = "5" ∧
    TrimSpace "s3cret\xA0" = "s3cret\xA0" ∧
    TrimSpace "\x85s3cret" = "\x85s3cret" ∧
    TrimSpace "s3cret\xC2\xA0" = "s3cret" ∧
    TrimSpace "\xE2\x80\x83s3cret\xC2\x85 " = "s3cret" ∧
    TrimSpace "a b" = "a b" := by
  refine ⟨?_, ?_, ?_, ?_, ?_, ?_⟩ <;> decide

/-- Lower case, as line 297 compares it with "accept-encoding". -/
theorem ToLower_samples :
    ToLower "Accept-Encoding" = "accept-encoding" ∧
    ToLower "ACCEPT-ENCOD\xC4\xB0NG" = "accept-encoding" ∧
    ToLower "\xE2\x84\xAAeep" = "keep" ∧
    ToLower "accept-encod\xC4ng" = "accept-encod\xC4ng" := by
  refine ⟨?_, ?_, ?_, ?_⟩ <;> decide

/-- The kind of error that `strconv.ParseInt` reports: the first character
that cannot be read decides. -/
theorem numError_samples :
    (numError sampleLib "--5").Error = "strconv.ParseInt: parsing \"--5\": invalid syntax" ∧
    (numError sampleLib "").Error = "strconv.ParseInt: parsing \"\": invalid syntax" ∧
    (numError sampleLib "5x").Error = "strconv.ParseInt: parsing \"5x\": invalid syntax" ∧
    (numError sampleLib "9223372036854775808").Error =
      "strconv.ParseInt: parsing \"9223372036854775808\": value out of range" ∧
    (numError sampleLib "99999999999999999999x").Error =
      "strconv.ParseInt: parsing \"99999999999999999999x\": value out of range" := by
  refine ⟨?_, ?_, ?_, ?_, ?_⟩ <;> decide

/-- The split function cuts no line exactly when the stream delivers no byte. -/
theorem scanTokens_eq_nil (data : Bytes) : scanTokens data = [] ↔ data = [] := by
  constructor
  · intro h
    cases data with
    | nil => rfl
    | cons c cs =>
      exfalso
      simp only [scanTokens] at h
      by_cases hc : c = 10
      · simp [splitList, hc] at h
        split at h <;> simp at h
      · simp [splitList, hc] at h
        split at h
        · rename_i hlast
          cases hcs : (splitList 10 cs).2 with
          | nil => simp [hcs] at hlast
          | cons a b => simp [hcs] at h
        · simp at h
  · intro h
    subst h
    rfl

/-- The first line cut from a stream that delivers a byte is the text before
its first newline. -/
theorem scanTokens_head (data : Bytes) (h : data ≠ []) :
    ∃ rest, scanTokens data = (splitList 10 data).1 :: rest := by
  have hne : scanTokens data ≠ [] := fun e => h ((scanTokens_eq_nil data).1 e)
  simp only [scanTokens] at hne ⊢
  split
  · rename_i hlast
    rw [if_pos hlast] at hne
    cases hcs : (splitList 10 data).2 with
    | nil =>
      rw [hcs] at hne
      simp at hne
    | cons a b => exact ⟨(a :: b).dropLast, by simp⟩
  · exact ⟨_, rfl⟩

/-- The first `Scan` hands out no line exactly when the stream delivers no
byte or its first line has `MaxScanTokenSize` bytes or more. -/
theorem scanLines_eq_nil (data : Bytes) :
    scanLines data = [] ↔ data = [] ∨ MaxScanTokenSize ≤ (splitList 10 data).1.length := by
  by_cases h : data = []
  · subst h
    simp [scanLines, scanTokens, splitList]
  · obtain ⟨rest, hrest⟩ := scanTokens_head data h
    simp only [scanLines, hrest, List.map_eq_nil_iff, h, false_or]
    by_cases hlt : (splitList 10 data).1.length < MaxScanTokenSize
    · have hn : ¬ MaxScanTokenSize ≤ (splitList 10 data).1.length := by omega
      simp [List.takeWhile_cons, hlt, hn]
    · have hn : MaxScanTokenSize ≤ (splitList 10 data).1.length := by omega
      simp [List.takeWhile_cons, hlt, hn]

/-- The first line handed out is the text before the first newline, without
its carriage return, when it has fewer than `MaxScanTokenSize` bytes. -/
theorem scanLines_first (data : Bytes) (h : data ≠ [])
    (hlt : (splitList 10 data).1.length < MaxScanTokenSize) :
    ∃ lines, scanLines data = stringOf (dropCR (splitList 10 data).1) :: lines := by
  obtain ⟨rest, hrest⟩ := scanTokens_head data h
  simp only [scanLines, hrest]
  exact ⟨(rest.takeWhile (fun l => l.length < MaxScanTokenSize)).map
    (fun l => stringOf (dropCR l)), by simp [List.takeWhile_cons, hlt]⟩

/-! ## C11: a header block that stops before its declared length -/

/-- C11, counterexample: a carrier body that declares 139 bytes of compressed
header and supplies 120.  The header stream delivers the start of the text
and ends with "unexpected EOF"; `ReadRequest` reads a Content-Length line
among the lines delivered and returns, with a nil error, a request built from
the truncated header data (its Host header is cut to "exam"). -/
theorem c11_truncated_header_accepted :
    binaryReadUint16 truncatedBody = Except.ok (139, (sampleDeflate headerText).take 120) ∧
    ((sampleDeflate headerText).take 120).length < 139 ∧
    unwrapEnvelope sampleLib.inflate truncatedBody =
      Except.ok (⟨headerText.take 63, some (Errorf "unexpected EOF")⟩, []) ∧
    ReadRequest sampleLib ⟨headerText.take 63, some (Errorf "unexpected EOF")⟩ =
      Result.ok
        { Method := "GET", RequestURI := "http://example.com/", Proto := "HTTP/1.1",
          ProtoMajor := 1, ProtoMinor := 1,
          URL := ⟨"example.com", "/", "http://example.com/"⟩, Host := "example.com",
          Header := [("Host", ["exam"]), ("Content-Length", ["0"])],
          ContentLength := 0, RemoteAddr := "", Body := [] } := by
  refine ⟨?_, ?_, ?_, ?_⟩
  · rfl
  · decide
  · set_option maxRecDepth 100000 in rfl
  · set_option maxRecDepth 100000 in decide

/-- C11, amended.  For a carrier body whose length bytes declare `n` and
which supplies fewer than `n` further bytes, so that the header stream ends
with a read error: the unwrap step hands the stream of the bytes supplied to
`ReadRequest` and does not fail on account of the truncation; when the first
line delivered is well formed, its target parses and the lines delivered hold
a Content-Length that parses as an integer, `ReadRequest` returns the request
built from the delivered lines with a nil error. -/
theorem c11_unwrap_truncated (lib : Lib) (body rest : Bytes) (n : Nat) (e : GoError)
    (hread : binaryReadUint16 body = Except.ok (n, rest))
    (hshort : rest.length < n)
    (herr : (lib.inflate rest).err = some e) :
    (∃ left, unwrapEnvelope lib.inflate body = Except.ok (lib.inflate rest, left)) ∧
    (∀ (line method uri proto : String) (lines : List String) (u : URL) (cl : Int),
      scanLines (lib.inflate rest).data = line :: lines →
      Split line ' ' = [method, uri, proto] →
      lib.Parse uri = Except.ok u →
      Atoi (Header.Get lib (readHeaderLines lib lines) "Content-Length") = some cl →
      ReadRequest lib (lib.inflate rest) =
        Result.ok
          { Method := method, RequestURI := uri, Proto := "HTTP/1.1", ProtoMajor := 1,
            ProtoMinor := 1, URL := u,
            Host := if u.Host = "" then Header.Get lib (readHeaderLines lib lines) "Host"
              else u.Host,
            Header := readHeaderLines lib lines, ContentLength := cl,
            RemoteAddr := "", Body := [] }) := by
  have _herr := herr
  have htake : rest.take n = rest := List.take_of_length_le (by omega)
  refine ⟨?_, ?_⟩
  · exact ⟨rest.drop n, by simp [unwrapEnvelope, hread, htake]⟩
  · intro line method uri proto lines u cl hl hsp hp hat
    have hne : Header.Get lib (readHeaderLines lib lines) "Content-Length" ≠ "" := by
      intro h0
      rw [h0] at hat
      simp [Atoi] at hat
    unfold ReadRequest
    simp only [hl, hsp, hp, hne, ne_eq, not_false_eq_true, if_true, hat]

/-- C11, run at a concrete input: the body that declares 139 bytes and
supplies 120, whose stream delivers a Content-Length line before it fails. -/
theorem c11_unwrap_truncated_witness :
    (∃ left, unwrapEnvelope sampleLib.inflate truncatedBody =
      Except.ok (sampleLib.inflate ((sampleDeflate headerText).take 120), left)) ∧
    ReadRequest sampleLib (sampleLib.inflate ((sampleDeflate headerText).take 120)) =
      Result.ok
        { Method := "GET", RequestURI := "http://example.com/", Proto := "HTTP/1.1",
          ProtoMajor := 1, ProtoMinor := 1, URL := ⟨"example.com", "/", "http://example.com/"⟩,
          Host := if (⟨"example.com", "/", "http://example.com/"⟩ : URL).Host = "" then
              Header.Get sampleLib
                (readHeaderLines sampleLib ["Content-Length: 0", "Host: exam"]) "Host"
            else (⟨"example.com", "/", "http://example.com/"⟩ : URL).Host,
          Header := readHeaderLines sampleLib ["Content-Length: 0", "Host: exam"],
          ContentLength := 0, RemoteAddr := "", Body := [] } :=
  ⟨(c11_unwrap_truncated sampleLib truncatedBody ((sampleDeflate headerText).take 120)
      139 (Errorf "unexpected EOF") rfl (by decide)
      (by set_option maxRecDepth 100000 in rfl)).1,
   (c11_unwrap_truncated sampleLib truncatedBody ((sampleDeflate headerText).take 120)
      139 (Errorf "unexpected EOF") rfl (by decide)
      (by set_option maxRecDepth 100000 in rfl)).2
      "GET http://example.com/ HTTP/1.1" "GET" "http://example.com/" "HTTP/1.1"
      ["Content-Length: 0", "Host: exam"] ⟨"example.com", "/", "http://example.com/"⟩ 0
      (by set_option maxRecDepth 100000 in decide) (by decide) rfl
      (by set_option maxRecDepth 100000 in decide)⟩

/-! ## C12 - C14: the length of the frame, and `IsBinary` -/

/-- C12, counterexample: for a compressed header block of 65536 bytes the
frame is written, without any failure, and its two length bytes are 0 and 0:
they do not give the length of the block that follows. -/
theorem c12_block_of_65536_bytes :
    ((fun (_ : Bytes) => List.replicate 65536 120) []).length = 65536 ∧
    binaryReadUint16 (wrapEnvelope (fun _ => List.replicate 65536 120) [] [104, 105]) =
      Except.ok (0, List.replicate 65536 120 ++ [104, 105]) := by
  have h : ∀ blk : Bytes, blk.length = 65536 →
      binaryReadUint16 (wrapEnvelope (fun _ => blk) [] [104, 105]) =
        Except.ok (0, blk ++ [104, 105]) := by
    intro blk hb
    simp [wrapEnvelope, PutUint16, uint16, binaryReadUint16, hb]
  exact ⟨List.length_replicate _ _, h _ (List.length_replicate _ _)⟩

/-- C12, amended.  For every response header text and every error the relay
frames, the two bytes written before the compressed block hold, big-endian,
the length of the block modulo 65536: the exact length whenever the block has
at most 65535 bytes.  No length makes the framing fail. -/
theorem c12_frame_length :
    (∀ (deflate : Bytes → Bytes) (header body : Bytes),
      binaryReadUint16 (wrapEnvelope deflate header body) =
        Except.ok ((deflate header).length % 65536, deflate header ++ body)) ∧
    (∀ (rt : Runtime) (lib : Lib) (err : GoError) (code : Int),
      binaryReadUint16 (handlerError rt lib err code).Body =
        Except.ok ((lib.deflate (bytesOf (errorText rt err code))).length % 65536,
          lib.deflate (bytesOf (errorText rt err code)))) ∧
    (∀ (lib : Lib) (oAE : String) (req : Request) (resp : Response),
      binaryReadUint16 (writeResponse lib oAE req resp).Body =
        Except.ok
          ((lib.deflate (bytesOf (responseText lib resp.Status
              (reencode lib oAE req.URL.Path (reviseHeader lib resp) resp.ContentLength
                resp.content).Header))).length % 65536,
            lib.deflate (bytesOf (responseText lib resp.Status
              (reencode lib oAE req.URL.Path (reviseHeader lib resp) resp.ContentLength
                resp.content).Header)) ++
            (reencode lib oAE req.URL.Path (reviseHeader lib resp) resp.ContentLength
              resp.content).Body)) ∧
    (∀ n : Nat, n ≤ 65535 → n % 65536 = n) := by
  have key : ∀ n : Nat, n % 65536 / 256 % 256 * 256 + n % 65536 % 256 = n % 65536 := by
    intro n; omega
  refine ⟨?_, ?_, ?_, ?_⟩
  · intro deflate header body
    simp [wrapEnvelope, PutUint16, uint16, binaryReadUint16, key]
  · intro rt lib err code
    simp [handlerError, PutUint16, uint16, binaryReadUint16, key]
  · intro lib oAE req resp
    simp only [writeResponse, wrapEnvelope, PutUint16, uint16, binaryReadUint16,
      List.cons_append, List.nil_append, List.append_assoc, key]
  · intro n hn; omega

/-- C12, run at a concrete input: a block of seven bytes. -/
theorem c12_frame_length_witness :
    binaryReadUint16 (wrapEnvelope sampleDeflate [97, 97, 97, 98, 98, 99] [104, 105]) =
      Except.ok ((sampleDeflate [97, 97, 97, 98, 98, 99]).length % 65536,
        sampleDeflate [97, 97, 97, 98, 98, 99] ++ [104, 105]) ∧
    (sampleDeflate [97, 97, 97, 98, 98, 99]).length % 65536 =
      (sampleDeflate [97, 97, 97, 98, 98, 99]).length :=
  ⟨c12_frame_length.1 sampleDeflate [97, 97, 97, 98, 98, 99] [104, 105],
   c12_frame_length.2.2.2 (sampleDeflate [97, 97, 97, 98, 98, 99]).length (by decide)⟩

/-- C13, run on a failing input: the three bytes of the byte-order mark alone
are classified as binary, because line 39 asks for more than three bytes. -/
theorem c13_bom_alone_is_binary : IsBinary [0xef, 0xbb, 0xbf] = true := by
  decide

/-- A byte slice that starts with the byte-order mark and holds at least one
more byte is not binary. -/
theorem IsBinary_of_bom (c : Nat) (rest : Bytes) :
    IsBinary (0xef :: 0xbb :: 0xbf :: c :: rest) = false := by
  simp [IsBinary]

/-- C14, counterexample: a slice of four bytes whose first byte is 0xef, and so
at least 0x80, is classified as not binary: it starts with the byte-order
mark. -/
theorem c14_bom_first_byte_high :
    ([0xef, 0xbb, 0xbf, 0x41] : Bytes).head? = some 0xef ∧ (0x80 : Nat) ≤ 0xef ∧
      IsBinary [0xef, 0xbb, 0xbf, 0x41] = false := by
  decide

/-- C14, amended.  For every non-empty byte slice whose first byte is at least
0x80 and which does not start with the byte-order mark EF BB BF, `IsBinary`
returns true. -/
theorem c14_first_byte_high (c : Nat) (rest : Bytes) (hc : 0x80 ≤ c)
    (hbom : ¬ [0xef, 0xbb, 0xbf] <+: c :: rest) : IsBinary (c :: rest) = true := by
  have hcond : ¬ ((c :: rest).length > 3 ∧ (c :: rest).getD 0 0 = 0xef ∧
      (c :: rest).getD 1 0 = 0xbb ∧ (c :: rest).getD 2 0 = 0xbf) := by
    rintro ⟨hlen, h0, h1, h2⟩
    apply hbom
    cases rest with
    | nil => simp at hlen
    | cons c1 r1 =>
      cases r1 with
      | nil => simp at hlen
      | cons c2 r2 =>
        simp at h0 h1 h2
        subst h0 h1 h2
        exact ⟨r2, rfl⟩
  have hgt : c > 0x7f := by omega
  simp only [IsBinary, if_neg hcond, IsBinaryFrom, if_pos hgt]

/-- C14, run at a concrete input: the bytes of a PNG signature. -/
theorem c14_first_byte_high_witness : IsBinary (0x89 :: [0x50, 0x4e, 0x47]) = true :=
  c14_first_byte_high 0x89 [0x50, 0x4e, 0x47] (by decide) (by decide)

/-! ## C15 - C17: options, password and Accept-Encoding -/

/-- C15, counterexample: a header block with the line `X-UrlFetch-Options:`
gives the options header an empty value; the guard of line 180 then skips the
deletion, and the request handed to the fetch still carries the header.  And
the options value "deadline=10000000000" carries an integer whose product
with `time.Second` leaves 64 bits: the deadline is -8446744073709551616
nanoseconds, not 10000000000 seconds. -/
theorem c15_empty_value_and_wrapped_deadline :
    ReadRequest sampleLib
        ⟨bytesOf "GET http://example.com/ HTTP/1.1\r\nX-UrlFetch-Options:\r\n", none⟩ =
      Result.ok emptyOptionsRequest ∧
    (handleRequest ⟨""⟩ sampleRuntime sampleLib sampleFetch "198.51.100.4:1234" []
        emptyOptionsRequest).2 =
      [Event.Fetch 0 { emptyOptionsRequest with RemoteAddr := "198.51.100.4:1234" }
        (20 * Second) true] ∧
    Header.values emptyOptionsRequest.Header
        (sampleLib.CanonicalMIMEHeaderKey "X-UrlFetch-Options") = [""] ∧
    Atoi "10000000000" = some 10000000000 ∧
    deadlineOf (takeOptions sampleLib
      [("X-Urlfetch-Options", ["deadline=10000000000"])]).1 = -8446744073709551616 ∧
    (10000000000 : Int) * Second = 10000000000000000000 := by
  refine ⟨?_, ?_, ?_, ?_, ?_, ?_⟩
  · set_option maxRecDepth 100000 in decide
  · set_option maxRecDepth 100000 in decide
  · decide
  · decide
  · set_option maxRecDepth 100000 in decide
  · decide

/-- C15, amended.  For every request whose X-UrlFetch-Options value `v` is not
empty, with `v` split on commas and on the first `=` and the spaces trimmed:
`debug` and `sslverify` are true exactly when their key is present; the
deadline is `n` seconds when the deadline key carries a value that parses as
an integer `n` from -9223372036 to 9223372036 (for every integer `n` it is
the 64-bit product of `n` and a second), and 20 seconds when the key carries
no value that parses as an integer; the size limit is `n` when the
maxsize key carries an integer `n`, and 4194304 otherwise; the first fetch is
made with that deadline and with the flag for invalid certificates set to the
negation of `sslverify`; and the options header is absent from the header
handed to the fetch. -/
theorem c15_options (lib : Lib) (h : Header)
    (hv : Header.Get lib h "X-UrlFetch-Options" ≠ "") :
    (debugOf (takeOptions lib h).1 = true ↔
      ∃ p ∈ optionPairs (Header.Get lib h "X-UrlFetch-Options"), p.1 = "debug") ∧
    (sslVerifyOf (takeOptions lib h).1 = true ↔
      ∃ p ∈ optionPairs (Header.Get lib h "X-UrlFetch-Options"), p.1 = "sslverify") ∧
    (∀ s n, lastValue (optionPairs (Header.Get lib h "X-UrlFetch-Options")) "deadline" = some s →
      Atoi s = some n →
      deadlineOf (takeOptions lib h).1 = (n * 1000000000 + 2 ^ 63) % 2 ^ 64 - 2 ^ 63 ∧
      (-9223372036 ≤ n → n ≤ 9223372036 →
        deadlineOf (takeOptions lib h).1 = n * Second)) ∧
    ((∀ s, lastValue (optionPairs (Header.Get lib h "X-UrlFetch-Options")) "deadline" = some s →
      Atoi s = none) → deadlineOf (takeOptions lib h).1 = 20 * Second) ∧
    (∀ s n, lastValue (optionPairs (Header.Get lib h "X-UrlFetch-Options")) "maxsize" = some s →
      Atoi s = some n → fetchMaxSizeOf (takeOptions lib h).1 = n) ∧
    ((∀ s, lastValue (optionPairs (Header.Get lib h "X-UrlFetch-Options")) "maxsize" = some s →
      Atoi s = none) → fetchMaxSizeOf (takeOptions lib h).1 = 4194304) ∧
    (∀ (rt : Runtime) (fetch : Fetch) (oAE : String) (req : Request),
      (serve rt lib fetch (takeOptions lib h).1 oAE req).2.head? =
        some (Event.Fetch 0 req (deadlineOf (takeOptions lib h).1)
          (!sslVerifyOf (takeOptions lib h).1))) ∧
    Header.values (takeOptions lib h).2 (lib.CanonicalMIMEHeaderKey "X-UrlFetch-Options") = [] ∧
    (lib.CanonicalMIMEHeaderKey "Accept-Encoding" ≠
        lib.CanonicalMIMEHeaderKey "X-UrlFetch-Options" →
      Header.values (normalizeAcceptEncoding lib (takeOptions lib h).2)
        (lib.CanonicalMIMEHeaderKey "X-UrlFetch-Options") = []) ∧
    (Header.Get lib h "X-UrlFetch-Options" = "debug,deadline=5,maxsize=2048" →
      debugOf (takeOptions lib h).1 = true ∧
      deadlineOf (takeOptions lib h).1 = 5 * Second ∧
      fetchMaxSizeOf (takeOptions lib h).1 = 2048 ∧
      sslVerifyOf (takeOptions lib h).1 = false ∧
      (takeOptions lib h).1.get? "password" = none) := by
  have hp : (takeOptions lib h).1 = parseParams (Header.Get lib h "X-UrlFetch-Options") := by
    simp [takeOptions, hv]
  have hh : (takeOptions lib h).2 = Header.Del lib h "X-UrlFetch-Options" := by
    simp [takeOptions, hv]
  have hA : ∀ s : String, (∃ n, Atoi s = some n) → s ≠ "" := by
    rintro s ⟨n, hn⟩ h0
    rw [h0] at hn
    simp [Atoi] at hn
  refine ⟨?_, ?_, ?_, ?_, ?_, ?_, ?_, ?_, ?_, ?_⟩
  · rw [hp, debugOf, parseParams_get?, lastValue_isSome]
  · rw [hp, sslVerifyOf, parseParams_get?, lastValue_isSome]
  · intro s n hs hn
    have hd : deadlineOf (takeOptions lib h).1 = wrapInt64 (n * Second) := by
      rw [hp, deadlineOf, parseParams_get?, hs]
      simp [hA s ⟨n, hn⟩, hn]
    refine ⟨by rw [hd]; rfl, fun h1 h2 => ?_⟩
    rw [hd]
    apply wrapInt64_of_range <;> (simp only [Second]; omega)
  · intro hall
    rw [hp, deadlineOf, parseParams_get?]
    cases hl : lastValue (optionPairs (Header.Get lib h "X-UrlFetch-Options")) "deadline" with
    | none => simp [DefaultDeadline]
    | some s => simp [hall s hl, DefaultDeadline]
  · intro s n hs hn
    rw [hp, fetchMaxSizeOf, parseParams_get?, hs]
    simp [hA s ⟨n, hn⟩, hn]
  · intro hall
    rw [hp, fetchMaxSizeOf, parseParams_get?]
    cases hl : lastValue (optionPairs (Header.Get lib h "X-UrlFetch-Options")) "maxsize" with
    | none => simp [DefaultFetchMaxSize]
    | some s => simp [hall s hl, DefaultFetchMaxSize]
  · intro rt fetch oAE req
    rw [serve_log]
    obtain ⟨tail, ht, _⟩ := fetchFrom_log lib fetch (deadlineOf (takeOptions lib h).1)
      (sslVerifyOf (takeOptions lib h).1) (fetchMaxSizeOf (takeOptions lib h).1) 1 0 req []
    rw [ht]
    simp
  · rw [hh, Header.values_Del]
    simp
  · intro hk
    rw [hh]
    unfold normalizeAcceptEncoding
    split
    · rw [Header.values_Set, Header.values_Del]
      simp [Ne.symm hk]
    · rw [Header.values_Del, Header.values_Del]
      simp
  · intro hex
    rw [hp, hex]
    decide

/-- C15, run at the options value of the scenario: debug is set, the deadline
is 5 seconds, the size limit 2048, sslverify is not set, no password is given,
and the options header is gone. -/
theorem c15_options_witness :
    debugOf (takeOptions sampleLib scenarioHeader).1 = true ∧
    deadlineOf (takeOptions sampleLib scenarioHeader).1 = 5 * Second ∧
    fetchMaxSizeOf (takeOptions sampleLib scenarioHeader).1 = 2048 ∧
    sslVerifyOf (takeOptions sampleLib scenarioHeader).1 = false ∧
    (takeOptions sampleLib scenarioHeader).1.get? "password" = none ∧
    Header.values (takeOptions sampleLib scenarioHeader).2
      (sampleLib.CanonicalMIMEHeaderKey "X-UrlFetch-Options") = [] :=
  ⟨(c15_options sampleLib scenarioHeader (by decide)).1.mpr ⟨("debug", ""), by decide, rfl⟩,
   ((c15_options sampleLib scenarioHeader (by decide)).2.2.1 "5" 5 (by decide) (by decide)).2
     (by decide) (by decide),
   (c15_options sampleLib scenarioHeader (by decide)).2.2.2.2.1 "2048" 2048 (by decide)
     (by decide),
   ((c15_options sampleLib scenarioHeader (by decide)).2.2.2.2.2.2.2.2.2 (by decide)).2.2.2.1,
   ((c15_options sampleLib scenarioHeader (by decide)).2.2.2.2.2.2.2.2.2 (by decide)).2.2.2.2,
   (c15_options sampleLib scenarioHeader (by decide)).2.2.2.2.2.2.2.1⟩

/-- The value a request's options give to a key: none when the options value
is empty. -/
theorem takeOptions_get? (lib : Lib) (h : Header) (k : String) :
    (takeOptions lib h).1.get? k =
      if Header.Get lib h "X-UrlFetch-Options" = "" then none
      else lastValue (optionPairs (Header.Get lib h "X-UrlFetch-Options")) k := by
  by_cases hv : Header.Get lib h "X-UrlFetch-Options" = ""
  · simp [takeOptions, hv, Params.get?]
  · simp [takeOptions, hv, parseParams_get?]

/-- C16.  With a non-empty secret configured, a request whose options do not
give the password key a value equal to the secret (the key is absent, the
options are empty, or the value differs) is answered with an error envelope of
status 403 and no fetch is made; hence a fetch is made only for a request whose
options give the password key a value equal to the secret. -/
theorem c16_password (cfg : Config) (rt : Runtime) (lib : Lib) (fetch : Fetch)
    (remoteAddr : String) (body : Bytes) (req0 : Request) (hpw : cfg.Password ≠ "") :
    ((if Header.Get lib req0.Header "X-UrlFetch-Options" = "" then none
        else lastValue (optionPairs (Header.Get lib req0.Header "X-UrlFetch-Options"))
          "password") ≠ some cfg.Password →
      ∃ err, handleRequest cfg rt lib fetch remoteAddr body req0 =
        (Reply.wrote (handlerError rt lib err 403), [])) ∧
    (fetchCalls (handleRequest cfg rt lib fetch remoteAddr body req0).2 ≠ 0 →
      (if Header.Get lib req0.Header "X-UrlFetch-Options" = "" then none
        else lastValue (optionPairs (Header.Get lib req0.Header "X-UrlFetch-Options"))
          "password") = some cfg.Password) ∧
    (∀ err : GoError, ∃ rest, errorText rt err 403 = "HTTP/1.1 403\r\n" ++ rest) := by
  have key : (if Header.Get lib req0.Header "X-UrlFetch-Options" = "" then none
        else lastValue (optionPairs (Header.Get lib req0.Header "X-UrlFetch-Options"))
          "password") ≠ some cfg.Password →
      ∃ err, handleRequest cfg rt lib fetch remoteAddr body req0 =
        (Reply.wrote (handlerError rt lib err 403), []) := by
    intro hne
    rw [← takeOptions_get?] at hne
    unfold handleRequest
    simp only [hpw, ne_eq, not_false_eq_true, if_true]
    cases hg : (takeOptions lib req0.Header).1.get? "password" with
    | none => exact ⟨_, rfl⟩
    | some pw =>
      have hpne : pw ≠ cfg.Password := by
        intro e
        apply hne
        rw [hg, e]
      simp only [hpne, ne_eq, not_false_eq_true, if_true]
      exact ⟨_, rfl⟩
  refine ⟨key, ?_, ?_⟩
  · intro hf
    by_contra hne
    obtain ⟨err, he⟩ := key hne
    rw [he] at hf
    exact hf rfl
  · intro err
    have h403 : Itoa 403 = "403" := by decide
    refine ⟨"Content-Type: text/plain; charset=utf-8\r\n" ++
      ("Content-Length: " ++ Itoa (fmtError rt err).length ++ "\r\n" ++ "\r\n"
        ++ fmtError rt err), ?_⟩
    simp [errorText, h403, String.ext_iff]

/-- C16, run at a concrete input: the secret is "s3cret" and the request gives
the password "guess". -/
theorem c16_password_witness :
    ∃ err, handleRequest ⟨"s3cret"⟩ sampleRuntime sampleLib sampleFetch "198.51.100.4:1234" []
        { emptyOptionsRequest with Header := [("X-Urlfetch-Options", ["password=guess"])] } =
      (Reply.wrote (handlerError sampleRuntime sampleLib err 403), []) :=
  (c16_password ⟨"s3cret"⟩ sampleRuntime sampleLib sampleFetch "198.51.100.4:1234" []
    { emptyOptionsRequest with Header := [("X-Urlfetch-Options", ["password=guess"])] }
    (by decide)).1 (by decide)

/-- The password of the options is compared after the trimming of runes: with
the secret "s3cret", a value followed by the lone byte 0xA0 differs and is
answered with 403, and a value followed by the no-break space C2 A0 is the
secret and leads to the fetch. -/
theorem password_trimmed_by_runes :
    (handleRequest ⟨"s3cret"⟩ sampleRuntime sampleLib sampleFetch "198.51.100.4:1234" []
        { emptyOptionsRequest with
          Header := [("X-Urlfetch-Options", ["password=s3cret\xA0"])] }) =
      (Reply.wrote (handlerError sampleRuntime sampleLib
        (Errorf "urlfetch password is wrong") 403), []) ∧
    fetchCalls (handleRequest ⟨"s3cret"⟩ sampleRuntime sampleLib sampleFetch
        "198.51.100.4:1234" []
        { emptyOptionsRequest with
          Header := [("X-Urlfetch-Options", ["password=s3cret\xC2\xA0"])] }).2 = 1 := by
  refine ⟨?_, ?_⟩
  · set_option maxRecDepth 100000 in decide
  · set_option maxRecDepth 100000 in decide

/-- When no secret is configured, or the options give the secret as password,
the first effect of handling a request is the fetch of that request with the
options header taken out, the Accept-Encoding normalised, and the deadline and
certificate flag of its options. -/
theorem handleRequest_first_fetch (cfg : Config) (rt : Runtime) (lib : Lib) (fetch : Fetch)
    (remoteAddr : String) (body : Bytes) (req0 : Request)
    (hpw : cfg.Password = "" ∨
      (takeOptions lib req0.Header).1.get? "password" = some cfg.Password) :
    (handleRequest cfg rt lib fetch remoteAddr body req0).2.head? =
      some (Event.Fetch 0
        { req0 with RemoteAddr := remoteAddr, Body := body,
                    Header := normalizeAcceptEncoding lib (takeOptions lib req0.Header).2 }
        (deadlineOf (takeOptions lib req0.Header).1)
        (!sslVerifyOf (takeOptions lib req0.Header).1)) := by
  have hs : (serve rt lib fetch (takeOptions lib req0.Header).1
        (Header.Get lib (takeOptions lib req0.Header).2 "Accept-Encoding")
        { req0 with RemoteAddr := remoteAddr, Body := body,
                    Header := normalizeAcceptEncoding lib (takeOptions lib req0.Header).2 }).2.head? =
      some (Event.Fetch 0
        { req0 with RemoteAddr := remoteAddr, Body := body,
                    Header := normalizeAcceptEncoding lib (takeOptions lib req0.Header).2 }
        (deadlineOf (takeOptions lib req0.Header).1)
        (!sslVerifyOf (takeOptions lib req0.Header).1)) := by
    rw [serve_log]
    obtain ⟨tail, ht, _⟩ := fetchFrom_log lib fetch (deadlineOf (takeOptions lib req0.Header).1)
      (sslVerifyOf (takeOptions lib req0.Header).1)
      (fetchMaxSizeOf (takeOptions lib req0.Header).1) 1 0
      { req0 with RemoteAddr := remoteAddr, Body := body,
                  Header := normalizeAcceptEncoding lib (takeOptions lib req0.Header).2 } []
    rw [ht]
    simp
  unfold handleRequest
  simp only []
  by_cases h0 : cfg.Password = ""
  · simp only [h0, ne_eq, not_true_eq_false, if_false]
    exact hs
  · rcases hpw with hpw | hpw
    · exact absurd hpw h0
    · simp only [h0, ne_eq, not_false_eq_true, if_true, hpw, not_true_eq_false, if_false]
      exact hs

/-- C17.  The step of lines 192-197 leaves the header with Accept-Encoding
exactly "gzip" if the Accept-Encoding value it finds contains "gzip" and the
X-Requested-With value is empty or absent, and with no Accept-Encoding
otherwise; the values of every other header are unchanged.  The header it
leaves is the one of the request handed to the fetch. -/
theorem c17_accept_encoding (lib : Lib) (h : Header) :
    (Contains (Header.Get lib h "Accept-Encoding") "gzip" = true ∧
        Header.Get lib h "X-Requested-With" = "" →
      Header.values (normalizeAcceptEncoding lib h)
        (lib.CanonicalMIMEHeaderKey "Accept-Encoding") = ["gzip"]) ∧
    (¬ (Contains (Header.Get lib h "Accept-Encoding") "gzip" = true ∧
        Header.Get lib h "X-Requested-With" = "") →
      Header.values (normalizeAcceptEncoding lib h)
        (lib.CanonicalMIMEHeaderKey "Accept-Encoding") = []) ∧
    (∀ ck, ck ≠ lib.CanonicalMIMEHeaderKey "Accept-Encoding" →
      Header.values (normalizeAcceptEncoding lib h) ck = Header.values h ck) ∧
    (∀ (cfg : Config) (rt : Runtime) (fetch : Fetch) (remoteAddr : String) (body : Bytes)
        (req0 : Request),
      (cfg.Password = "" ∨
        (takeOptions lib req0.Header).1.get? "password" = some cfg.Password) →
      (takeOptions lib req0.Header).2 = h →
      ∃ deadline allowInvalid,
        (handleRequest cfg rt lib fetch remoteAddr body req0).2.head? =
          some (Event.Fetch 0
            { req0 with RemoteAddr := remoteAddr, Body := body,
                        Header := normalizeAcceptEncoding lib h } deadline allowInvalid)) := by
  refine ⟨?_, ?_, ?_, ?_⟩
  · intro hc
    simp only [normalizeAcceptEncoding, if_pos hc, Header.values_Set, if_true]
  · intro hc
    simp only [normalizeAcceptEncoding, if_neg hc, Header.values_Del, if_true]
  · intro ck hck
    unfold normalizeAcceptEncoding
    split
    · simp only [Header.values_Set, if_neg hck]
    · simp only [Header.values_Del, if_neg hck]
  · intro cfg rt fetch remoteAddr body req0 hpw hh
    refine ⟨deadlineOf (takeOptions lib req0.Header).1,
      !sslVerifyOf (takeOptions lib req0.Header).1, ?_⟩
    rw [← hh]
    exact handleRequest_first_fetch cfg rt lib fetch remoteAddr body req0 hpw

/-- C17, run at concrete inputs: a browser request keeps "gzip" alone, a
scripted request loses its Accept-Encoding, and the Accept header of the
browser request stays. -/
theorem c17_accept_encoding_witness :
    Header.values (normalizeAcceptEncoding sampleLib browserHeader)
      (sampleLib.CanonicalMIMEHeaderKey "Accept-Encoding") = ["gzip"] ∧
    Header.values (normalizeAcceptEncoding sampleLib scriptedHeader)
      (sampleLib.CanonicalMIMEHeaderKey "Accept-Encoding") = [] ∧
    Header.values (normalizeAcceptEncoding sampleLib browserHeader) "Accept" =
      Header.values browserHeader "Accept" :=
  ⟨(c17_accept_encoding sampleLib browserHeader).1 (by decide),
   (c17_accept_encoding sampleLib scriptedHeader).2.1 (by decide),
   (c17_accept_encoding sampleLib browserHeader).2.2.1 "Accept" (by decide)⟩

/-! ## C18 - C19: the fetch loop and the Range header -/

theorem fetchCalls_serve_le (rt : Runtime) (lib : Lib) (fetch : Fetch) (params : Params)
    (oAE : String) (req : Request) :
    fetchCalls (serve rt lib fetch params oAE req).2 ≤ 2 := by
  rw [serve_log]
  obtain ⟨tail, ht, hc⟩ := fetchFrom_log lib fetch (deadlineOf params) (sslVerifyOf params)
    (fetchMaxSizeOf params) 1 0 req []
  rw [ht]
  simp [fetchCalls] at hc ⊢
  omega

/-- C18.  For every carrier request the handler makes at most two fetches; a
fetch error whose text contains none of "RESPONSE_TOO_LARGE", "Over quota",
"urlfetch: CLOSED" ends the loop after that fetch, in whichever pass it
occurs; and when the loop ends with an error the handler writes the error
envelope of status 502 for that error, and nothing of a fetched body. -/
theorem c18_fetch_loop :
    (∀ (cfg : Config) (rt : Runtime) (lib : Lib) (fetch : Fetch) (r : CarrierRequest),
      fetchCalls (handler cfg rt lib fetch r).2 ≤ 2) ∧
    (∀ (lib : Lib) (fetch : Fetch) (deadline : Duration) (sslVerify : Bool)
        (fetchMaxSize : Int) (k i : Nat) (req : Request) (log : List Event) (err : GoError),
      fetch i req deadline (!sslVerify) = Except.error err →
      Contains err.Error "RESPONSE_TOO_LARGE" = false →
      Contains err.Error "Over quota" = false →
      Contains err.Error "urlfetch: CLOSED" = false →
      fetchFrom lib fetch deadline sslVerify fetchMaxSize k i req log =
        (Except.error err, req, log ++ [Event.Fetch i req deadline (!sslVerify)])) ∧
    (∀ (rt : Runtime) (lib : Lib) (fetch : Fetch) (params : Params) (oAE : String)
        (req req1 : Request) (log : List Event) (err : GoError),
      fetchFrom lib fetch (deadlineOf params) (sslVerifyOf params) (fetchMaxSizeOf params)
          1 0 req [] = (Except.error err, req1, log) →
      serve rt lib fetch params oAE req =
        (Reply.wrote (handlerError rt lib err 502), log)) := by
  refine ⟨?_, ?_, ?_⟩
  · intro cfg rt lib fetch r
    unfold handler
    split
    · simp [fetchCalls]
    · split
      · simp [fetchCalls]
      · simp [fetchCalls]
      · unfold handleRequest
        simp only []
        split
        · split
          · simp [fetchCalls]
          · split
            · simp [fetchCalls]
            · exact fetchCalls_serve_le _ _ _ _ _ _
        · exact fetchCalls_serve_le _ _ _ _ _ _
  · intro lib fetch deadline sslVerify fetchMaxSize k i req log err hf h1 h2 h3
    unfold fetchFrom
    simp [fetchOnce, hf, h1, h2, h3]
  · intro rt lib fetch params oAE req req1 log err hf
    simp [serve, hf]

/-- C18, run at a concrete input: a fetch that is refused is tried once, and
the answer is the error envelope of status 502. -/
theorem c18_fetch_loop_witness :
    fetchFrom sampleLib refusedFetch (20 * Second) false 4194304 1 0 emptyOptionsRequest [] =
      (Except.error fetchRefused, emptyOptionsRequest,
        [] ++ [Event.Fetch 0 emptyOptionsRequest (20 * Second) (!false)]) ∧
    serve sampleRuntime sampleLib refusedFetch [] "" emptyOptionsRequest =
      (Reply.wrote (handlerError sampleRuntime sampleLib fetchRefused 502),
        [Event.Fetch 0 emptyOptionsRequest (20 * Second) true]) :=
  ⟨c18_fetch_loop.2.1 sampleLib refusedFetch (20 * Second) false 4194304 1 0
      emptyOptionsRequest [] fetchRefused rfl (by decide) (by decide) (by decide),
   c18_fetch_loop.2.2 sampleRuntime sampleLib refusedFetch [] "" emptyOptionsRequest
      emptyOptionsRequest [Event.Fetch 0 emptyOptionsRequest (20 * Second) true] fetchRefused
      (by set_option maxRecDepth 100000 in rfl)⟩

theorem splitList_of_not_mem {α : Type} [DecidableEq α] (sep : α) (x : List α)
    (h : sep ∉ x) : splitList sep x = (x, []) := by
  induction x with
  | nil => rfl
  | cons c cs ih =>
    have hc : c ≠ sep := fun e => h (by simp [e])
    have hcs : sep ∉ cs := fun e => h (by simp [e])
    simp [splitList, hc, ih hcs]

theorem splitList_append {α : Type} [DecidableEq α] (sep : α) (x y : List α)
    (h : sep ∉ x) :
    splitList sep (x ++ sep :: y) = (x, (splitList sep y).1 :: (splitList sep y).2) := by
  induction x with
  | nil => simp [splitList]
  | cons c cs ih =>
    have hc : c ≠ sep := fun e => h (by simp [e])
    have hcs : sep ∉ cs := fun e => h (by simp [e])
    simp [splitList, hc, ih hcs]

/-- The two splits of line 259 and line 260 on a Range value `bytes=a-b`. -/
theorem Split_range (a b : String)
    (ha : ∀ c ∈ a.data, c ≠ '=' ∧ c ≠ '-') (hb : ∀ c ∈ b.data, c ≠ '=' ∧ c ≠ '-') :
    Split ("bytes=" ++ a ++ "-" ++ b) '=' = ["bytes", a ++ "-" ++ b] ∧
    Split (a ++ "-" ++ b) '-' = [a, b] := by
  have e1 : ("bytes=" ++ a ++ "-" ++ b).data =
      ['b', 'y', 't', 'e', 's'] ++ '=' :: (a.data ++ '-' :: b.data) := by
    simp [String.data_append]
  have e2 : (a ++ "-" ++ b).data = a.data ++ '-' :: b.data := by
    simp [String.data_append]
  have n1 : '=' ∉ a.data ++ '-' :: b.data := by
    intro hm
    rcases List.mem_append.mp hm with h | h
    · exact (ha _ h).1 rfl
    · rcases List.mem_cons.mp h with h | h
      · exact absurd h (by decide)
      · exact (hb _ h).1 rfl
  have n2 : '-' ∉ a.data := fun hm => (ha _ hm).2 rfl
  have n3 : '-' ∉ b.data := fun hm => (hb _ hm).2 rfl
  constructor
  · simp only [Split, e1]
    rw [splitList_append '=' _ _ (by decide), splitList_of_not_mem '=' _ n1]
    simp [String.ext_iff, String.data_append]
  · simp only [Split, e2]
    rw [splitList_append '-' _ _ n2, splitList_of_not_mem '-' _ n3]
    simp

/-- C19, counterexample: the open range `bytes=9223372036854775807-` with the
size limit 100.  The start is an integer, the end is not; the sum of start
and limit leaves the 64 bits of `int`, and the Range written ends at
-9223372036854775709, not at the start plus 100. -/
theorem c19_range_end_wraps :
    Atoi "9223372036854775807" = some 9223372036854775807 ∧ Atoi "" = none ∧
    rewriteRange sampleLib [("Range", ["bytes=9223372036854775807-"])] 100 =
      Header.Set sampleLib [("Range", ["bytes=9223372036854775807-"])] "Range"
        "bytes=9223372036854775807--9223372036854775709" ∧
    ¬ ((-9223372036854775709 : Int) - 9223372036854775807 ≤ 100 ∧
        (-9223372036854775709 : Int) = 9223372036854775807 + 100) := by
  refine ⟨?_, ?_, ?_, ?_⟩
  · decide
  · decide
  · set_option maxRecDepth 100000 in decide
  · decide

/-- C19, amended.  The Range header after a failure for a response that is too
large, for every size limit `M` of the 64-bit `int`: a request whose Range
value is empty or absent gets "bytes=0-M"; a Range value `bytes=a-b`, where
`a` and `b` hold no `=` and no `-`, `a` is the integer `S` and `S + M` is
below `2 ^ 63`, becomes "bytes=S-(S+M)" when `b` is not an integer or is an
integer `E` with `E - S > M`, and is written "bytes=S-E" when `E - S ≤ M`; in
each of these cases the range written starts at `S` and ends at most `M`
after it. -/
theorem c19_range (lib : Lib) (h : Header) (M : Int) (hM : -2 ^ 63 ≤ M ∧ M < 2 ^ 63) :
    (Header.Get lib h "Range" = "" →
      rewriteRange lib h M = Header.Set lib h "Range" ("bytes=0-" ++ Itoa M)) ∧
    (∀ (a b : String) (S : Int),
      Header.Get lib h "Range" = "bytes=" ++ a ++ "-" ++ b →
      (∀ c ∈ a.data, c ≠ '=' ∧ c ≠ '-') → (∀ c ∈ b.data, c ≠ '=' ∧ c ≠ '-') →
      Atoi a = some S → S + M < 2 ^ 63 →
      (Atoi b = none →
        rewriteRange lib h M =
          Header.Set lib h "Range" ("bytes=" ++ Itoa S ++ "-" ++ Itoa (S + M))) ∧
      (∀ E, Atoi b = some E → E - S > M →
        rewriteRange lib h M =
          Header.Set lib h "Range" ("bytes=" ++ Itoa S ++ "-" ++ Itoa (S + M))) ∧
      (∀ E, Atoi b = some E → E - S ≤ M →
        rewriteRange lib h M =
          Header.Set lib h "Range" ("bytes=" ++ Itoa S ++ "-" ++ Itoa E)) ∧
      (∃ E1, rewriteRange lib h M =
          Header.Set lib h "Range" ("bytes=" ++ Itoa S ++ "-" ++ Itoa E1) ∧
        E1 - S ≤ M)) := by
  refine ⟨?_, ?_⟩
  · intro h0
    simp [rewriteRange, h0]
  · intro a b S hr ha hb hS hsum
    obtain ⟨s1, s2⟩ := Split_range a b ha hb
    have hS0 : 0 ≤ S := Atoi_nonneg a S hS (fun hm => (ha _ hm).2 rfl)
    have hS1 := Atoi_range a S hS
    have hw : wrapInt64 (S + M) = S + M := wrapInt64_of_range _ (by omega) hsum
    have hne : Header.Get lib h "Range" ≠ "" := by
      rw [hr]
      intro h0
      have := congrArg String.length h0
      simp [String.length_append] at this
      exact absurd this.1.2 (by decide)
    have hne1 : ¬ ("bytes=" ++ a ++ "-" ++ b = "") := by
      rw [← hr]
      exact hne
    have base1 : rewriteRange lib h M =
        (match Atoi b with
         | none => Header.Set lib h "Range" (rangeText S (S + M))
         | some e =>
           if wrapInt64 (e - S) > M then Header.Set lib h "Range" (rangeText S (S + M))
           else Header.Set lib h "Range" (rangeText S e)) := by
      unfold rewriteRange
      simp only [ne_eq, hr, hne1, not_false_eq_true, if_true, s1, s2, hS, hw]
    have hE0 : ∀ E, Atoi b = some E → wrapInt64 (E - S) = E - S := by
      intro E hE
      have h0 : 0 ≤ E := Atoi_nonneg b E hE (fun hm => (hb _ hm).2 rfl)
      have h1 := Atoi_range b E hE
      exact wrapInt64_of_range _ (by omega) (by omega)
    have ht : ∀ x y : Int, rangeText x y = "bytes=" ++ Itoa x ++ "-" ++ Itoa y :=
      fun _ _ => rfl
    simp only [ht] at base1
    refine ⟨?_, ?_, ?_, ?_⟩
    · intro hE
      rw [base1, hE]
    · intro E hE hgt
      rw [base1, hE]
      simp [hE0 E hE, hgt]
    · intro E hE hle
      rw [base1, hE]
      have : ¬ E - S > M := by omega
      simp [hE0 E hE, this]
    · cases hE : Atoi b with
      | none =>
        exact ⟨S + M, by rw [base1, hE], by omega⟩
      | some E =>
        by_cases hgt : E - S > M
        · exact ⟨S + M, by rw [base1, hE]; simp [hE0 E hE, hgt], by omega⟩
        · exact ⟨E, by rw [base1, hE]; simp [hE0 E hE, hgt], by omega⟩

/-- C19, run at concrete inputs with `M = 100`: no Range, the open range
`bytes=5-`, the wide range `bytes=5-500`, and the narrow range `bytes=5-50`. -/
theorem c19_range_witness :
    rewriteRange sampleLib [] 100 = Header.Set sampleLib [] "Range" ("bytes=0-" ++ Itoa 100) ∧
    ("bytes=0-" ++ Itoa 100 = "bytes=0-100") ∧
    rewriteRange sampleLib [("Range", ["bytes=5-"])] 100 =
      Header.Set sampleLib [("Range", ["bytes=5-"])] "Range"
        ("bytes=" ++ Itoa 5 ++ "-" ++ Itoa (5 + 100)) ∧
    ("bytes=" ++ Itoa 5 ++ "-" ++ Itoa (5 + 100) = "bytes=5-105") ∧
    rewriteRange sampleLib [("Range", ["bytes=5-500"])] 100 =
      Header.Set sampleLib [("Range", ["bytes=5-500"])] "Range"
        ("bytes=" ++ Itoa 5 ++ "-" ++ Itoa (5 + 100)) ∧
    rewriteRange sampleLib [("Range", ["bytes=5-50"])] 100 =
      Header.Set sampleLib [("Range", ["bytes=5-50"])] "Range"
        ("bytes=" ++ Itoa 5 ++ "-" ++ Itoa 50) ∧
    ("bytes=" ++ Itoa 5 ++ "-" ++ Itoa 50 = "bytes=5-50") :=
  ⟨(c19_range sampleLib [] 100 (by decide)).1 (by decide),
   by decide,
   ((c19_range sampleLib [("Range", ["bytes=5-"])] 100 (by decide)).2 "5" "" 5 (by decide)
      (by decide) (by decide) (by decide) (by decide)).1 (by decide),
   by decide,
   ((c19_range sampleLib [("Range", ["bytes=5-500"])] 100 (by decide)).2 "5" "500" 5
      (by decide) (by decide) (by decide) (by decide) (by decide)).2.1 500 (by decide)
      (by decide),
   ((c19_range sampleLib [("Range", ["bytes=5-50"])] 100 (by decide)).2 "5" "50" 5 (by decide)
      (by decide) (by decide) (by decide) (by decide)).2.2.1 50 (by decide) (by decide),
   by decide⟩

/-! ## C20: a textual response labelled "br" -/

/-- C20, counterexample: a fetched page of 600 bytes of text, with
Content-Type text/html, Content-Encoding "br" and a declared length of 600,
asked for by a caller that accepts gzip and deflate.  The body is not binary;
line 308 drops the label, and lines 311-351 then compress the body: the
response wrapped carries Content-Encoding "deflate" and a body of 7 bytes,
not the fetched bytes. -/
theorem c20_br_text_recompressed :
    Header.Get sampleLib brHeader "Content-Encoding" = "br" ∧
    IsTextContentType (Header.Get sampleLib brHeader "Content-Type") = true ∧
    IsBinary longText = false ∧
    reencode sampleLib "gzip, deflate" "/index.html" brHeader 600 longText =
      ⟨[("Content-Encoding", ["deflate"]), ("Content-Length", ["7"]),
        ("Content-Type", ["text/html"])], 7, [255, 97, 255, 97, 90, 97, 0]⟩ := by
  refine ⟨by decide, by decide, ?_, ?_⟩
  · set_option maxRecDepth 100000 in decide
  · set_option maxRecDepth 100000 in decide

/-- C20, amended.  For every fetched response whose Content-Encoding is "br",
whose Content-Type is textual and whose body is not binary, the response the
relay wraps carries no Content-Encoding header and its body and content
length are those fetched, provided that the body has at most 512 bytes, or
the Accept-Encoding of the caller contains neither "deflate" nor "gzip", or
the body compressed with the encoding chosen is not shorter than the declared
content length. -/
theorem c20_br_text (lib : Lib) (oAE path : String) (h : Header) (contentLength : Int)
    (content : Bytes)
    (hbr : Header.Get lib h "Content-Encoding" = "br")
    (htext : IsTextContentType (Header.Get lib h "Content-Type") = true)
    (hbin : IsBinary content = false)
    (hkeep : content.length ≤ 512 ∨
      (Contains oAE "deflate" = false ∧ Contains oAE "gzip" = false) ∨
      (Contains oAE "deflate" = true ∧ contentLength ≤ ((lib.deflate content).length : Int)) ∨
      (Contains oAE "deflate" = false ∧ Contains oAE "gzip" = true ∧
        contentLength ≤ ((lib.gzip content).length : Int))) :
    reencode lib oAE path h contentLength content =
      ⟨Header.Del lib h "Content-Encoding", contentLength, content⟩ ∧
    Header.values (Header.Del lib h "Content-Encoding")
      (lib.CanonicalMIMEHeaderKey "Content-Encoding") = [] := by
  refine ⟨?_, by simp [Header.values_Del]⟩
  unfold reencode
  simp only [hbr, htext, hbin, and_self, if_true, Header.Get_Del_self, Bool.false_eq_true,
    if_false]
  rcases hkeep with hlen | ⟨hd, hg⟩ | ⟨hd, hl⟩ | ⟨hd, hg, hl⟩
  · have : ¬ content.length > 512 := by omega
    simp only [this, if_false]
  · split
    · simp [chooseWriter, hd, hg]
    · rfl
  · split
    · have : ¬ ((lib.deflate content).length : Int) < contentLength := by omega
      simp [chooseWriter, hd, this]
    · rfl
  · split
    · have : ¬ ((lib.gzip content).length : Int) < contentLength := by omega
      simp [chooseWriter, hd, hg, this]
    · rfl

/-- C20, run at a concrete input: the page of 600 bytes labelled "br", asked
for by a caller that accepts no compression. -/
theorem c20_br_text_witness :
    reencode sampleLib "identity" "/index.html" brHeader 600 longText =
      ⟨Header.Del sampleLib brHeader "Content-Encoding", 600, longText⟩ ∧
    Header.values (Header.Del sampleLib brHeader "Content-Encoding")
      (sampleLib.CanonicalMIMEHeaderKey "Content-Encoding") = [] :=
  c20_br_text sampleLib "identity" "/index.html" brHeader 600 longText (by decide) (by decide)
    (by set_option maxRecDepth 100000 in decide) (Or.inr (Or.inl ⟨by decide, by decide⟩))

end Relay

namespace Relay

/-! ## C21 - C23: recompression and the envelopes written -/

/-- Lines 304-353 are the removal of the label "br" followed by the step of
lines 311-353. -/
theorem reencode_eq_recompress (lib : Lib) (oAE path : String) (h : Header)
    (contentLength : Int) (content : Bytes) :
    reencode lib oAE path h contentLength content =
      recompress lib oAE path (IsTextContentType (Header.Get lib h "Content-Type"))
        (if Header.Get lib h "Content-Encoding" = "br"
            ∧ IsTextContentType (Header.Get lib h "Content-Type") = true
            ∧ IsBinary content = false then
          Header.Del lib h "Content-Encoding"
        else h) contentLength content := rfl

/-- C21, counterexample: a response with Content-Type text/html and no
Content-Encoding whose body starts with the byte 0x89, fetched for a path
without extension.  The body is binary, so nothing is recompressed; yet the
step sets Content-Encoding to "deflate", which was absent before it. -/
theorem c21_binary_relabelled :
    Header.Get sampleLib textHeader "Content-Encoding" = "" ∧
    IsBinary binaryBody = true ∧
    (recompress sampleLib "gzip, deflate" "/data" true textHeader 4 binaryBody).Body
      = binaryBody ∧
    Header.Get sampleLib
      (recompress sampleLib "gzip, deflate" "/data" true textHeader 4 binaryBody).Header
      "Content-Encoding" = "deflate" := by
  decide

/-- C21, amended.  The step of lines 311-353 substitutes the recompressed body
when the response is textual with no Content-Encoding, the body is not binary
and longer than 512 bytes, the caller advertised deflate or gzip (deflate
chosen when both), and the recompressed length is strictly smaller than the
declared content length: Content-Length and Content-Encoding are then set to
the new length and the chosen encoding.  In every other case the body and the
content length are as before the step, and so is the header, except that a
textual response with no Content-Encoding and a binary body gets the
Content-Encoding "deflate", unless the extension of the requested path names
a type that is not textual. -/
theorem c21_recompress :
    (∀ (lib : Lib) (oAE : String),
      chooseWriter lib oAE =
        if Contains oAE "deflate" then some (lib.deflate, "deflate")
        else if Contains oAE "gzip" then some (lib.gzip, "gzip")
        else none) ∧
    (∀ (lib : Lib) (oAE path : String) (isText : Bool) (h : Header) (contentLength : Int)
        (content : Bytes) (w : Bytes → Bytes) (ce : String),
      Header.Get lib h "Content-Encoding" = "" → isText = true →
      IsBinary content = false → content.length > 512 →
      chooseWriter lib oAE = some (w, ce) →
      ((w content).length : Int) < contentLength →
      recompress lib oAE path isText h contentLength content =
        ⟨Header.Set lib (Header.Set lib h "Content-Length" (Itoa ((w content).length : Int)))
          "Content-Encoding" ce, ((w content).length : Int), w content⟩) ∧
    (∀ (lib : Lib) (oAE path : String) (isText : Bool) (h : Header) (contentLength : Int)
        (content : Bytes),
      ¬ (Header.Get lib h "Content-Encoding" = "" ∧ isText = true ∧
          IsBinary content = false ∧ content.length > 512 ∧
          ∃ w ce, chooseWriter lib oAE = some (w, ce) ∧
            ((w content).length : Int) < contentLength) →
      (recompress lib oAE path isText h contentLength content).Body = content ∧
      (recompress lib oAE path isText h contentLength content).ContentLength
        = contentLength ∧
      (recompress lib oAE path isText h contentLength content).Header =
        if Header.Get lib h "Content-Encoding" = "" ∧ isText = true ∧
            IsBinary content = true ∧
            ¬ (lib.Ext path ≠ "" ∧
              IsTextContentType (lib.TypeByExtension (lib.Ext path)) = false) then
          Header.Set lib h "Content-Encoding" "deflate"
        else h) := by
  refine ⟨fun lib oAE => rfl, ?_, ?_⟩
  · intro lib oAE path isText h contentLength content w ce hce htext hbin hlen hw hlt
    simp [recompress, hce, htext, hbin, hlen, hw, hlt]
  · intro lib oAE path isText h contentLength content hnot
    by_cases h1 : Header.Get lib h "Content-Encoding" = "" ∧ isText = true
    · by_cases hbin : IsBinary content = true
      · by_cases hext : lib.Ext path ≠ "" ∧
            IsTextContentType (lib.TypeByExtension (lib.Ext path)) = false
        · simp only [recompress, if_pos h1, if_pos hbin, if_pos hext]
          simp [hext]
        · simp only [recompress, if_pos h1, if_pos hbin, if_neg hext]
          simp [h1.1, h1.2, hbin, hext]
      · have hbin1 : IsBinary content = false := by simpa using hbin
        by_cases hlen : content.length > 512
        · cases hw : chooseWriter lib oAE with
          | none =>
            simp only [recompress, if_pos h1, if_neg hbin, if_pos hlen, hw]
            simp [hbin1]
          | some p =>
            obtain ⟨w, ce⟩ := p
            have hge : ¬ ((w content).length : Int) < contentLength := by
              intro hlt
              exact hnot ⟨h1.1, h1.2, hbin1, hlen, w, ce, hw, hlt⟩
            simp only [recompress, if_pos h1, if_neg hbin, if_pos hlen, hw, if_neg hge]
            simp [hbin1]
        · simp only [recompress, if_pos h1, if_neg hbin, if_neg hlen]
          simp [hbin1]
    · simp only [recompress, if_neg h1]
      have : ¬ (Header.Get lib h "Content-Encoding" = "" ∧ isText = true ∧
          IsBinary content = true ∧
          ¬ (lib.Ext path ≠ "" ∧
            IsTextContentType (lib.TypeByExtension (lib.Ext path)) = false)) :=
        fun hh => h1 ⟨hh.1, hh.2.1⟩
      simp only [if_neg this, and_self]

/-- C21, run at a concrete input: a page of 600 bytes of text with a declared
length of 600, asked for by a caller that accepts gzip and deflate, is
replaced by its 7 compressed bytes; the same page with a declared length of 5
is left as it was. -/
theorem c21_recompress_witness :
    recompress sampleLib "gzip, deflate" "/index.html" true textHeader 600 longText =
      ⟨Header.Set sampleLib
          (Header.Set sampleLib textHeader "Content-Length"
            (Itoa ((sampleDeflate longText).length : Int)))
          "Content-Encoding" "deflate",
        ((sampleDeflate longText).length : Int), sampleDeflate longText⟩ ∧
    ((recompress sampleLib "gzip, deflate" "/index.html" true textHeader 5 longText).Body
        = longText ∧
      (recompress sampleLib "gzip, deflate" "/index.html" true textHeader 5 longText).ContentLength
        = 5 ∧
      (recompress sampleLib "gzip, deflate" "/index.html" true textHeader 5 longText).Header =
        if Header.Get sampleLib textHeader "Content-Encoding" = "" ∧ true = true ∧
            IsBinary longText = true ∧
            ¬ (sampleLib.Ext "/index.html" ≠ "" ∧
              IsTextContentType (sampleLib.TypeByExtension (sampleLib.Ext "/index.html"))
                = false) then
          Header.Set sampleLib textHeader "Content-Encoding" "deflate"
        else textHeader) :=
  ⟨c21_recompress.2.1 sampleLib "gzip, deflate" "/index.html" true textHeader 600 longText
      sampleDeflate "deflate" (by decide) rfl
      (by set_option maxRecDepth 100000 in decide)
      (by set_option maxRecDepth 100000 in decide) rfl
      (by set_option maxRecDepth 100000 in decide),
   c21_recompress.2.2 sampleLib "gzip, deflate" "/index.html" true textHeader 5 longText
      (by
        rintro ⟨_, _, _, _, w, ce, hw, hlt⟩
        have hw1 : chooseWriter sampleLib "gzip, deflate" = some (sampleDeflate, "deflate") :=
          rfl
        rw [hw1] at hw
        injection hw with hw
        injection hw with hw2 hce
        subst hw2
        have hl : (sampleDeflate longText).length = 7 := by
          set_option maxRecDepth 100000 in decide
        rw [hl] at hlt
        omega)⟩

/-- The carrier response written for a fetched response: its Content-Type,
the length it declares and the number of bytes of its body. -/
theorem writeResponse_lengths (lib : Lib) (oAE : String) (req : Request) (resp : Response) :
    (writeResponse lib oAE req resp).ContentType = "image/gif" ∧
    (writeResponse lib oAE req resp).ContentLength =
      Itoa (((2 + (lib.deflate (bytesOf (responseText lib resp.Status
          (reencode lib oAE req.URL.Path (reviseHeader lib resp) resp.ContentLength
            resp.content).Header))).length : Nat) : Int) +
        (reencode lib oAE req.URL.Path (reviseHeader lib resp) resp.ContentLength
          resp.content).ContentLength) ∧
    (writeResponse lib oAE req resp).Body.length =
      2 + (lib.deflate (bytesOf (responseText lib resp.Status
          (reencode lib oAE req.URL.Path (reviseHeader lib resp) resp.ContentLength
            resp.content).Header))).length +
        (reencode lib oAE req.URL.Path (reviseHeader lib resp) resp.ContentLength
          resp.content).Body.length := by
  refine ⟨rfl, ?_, ?_⟩
  · simp [writeResponse, PutUint16]
  · simp [writeResponse, wrapEnvelope, PutUint16]
    omega

/-- C22, the code run at a failing input: the fetch for a HEAD request
answers with a declared content length of 1234 and no content.  The handler
writes a carrier response that declares 1365 bytes, the 131 bytes of the
length and the compressed header block plus the 1234 declared for the
resource, and then writes 131 bytes. -/
theorem c22_head_response_length :
    serve sampleRuntime sampleLib headFetch [] "" headRequest =
      (Reply.wrote (writeResponse sampleLib "" headRequest headResponse),
        [Event.Fetch 0 headRequest (20 * Second) true]) ∧
    (writeResponse sampleLib "" headRequest headResponse).ContentType = "image/gif" ∧
    (writeResponse sampleLib "" headRequest headResponse).ContentLength = "1365" ∧
    (writeResponse sampleLib "" headRequest headResponse).Body.length = 131 := by
  refine ⟨?_, ?_, ?_, ?_⟩
  · set_option maxRecDepth 100000 in rfl
  · rfl
  · set_option maxRecDepth 100000 in decide
  · set_option maxRecDepth 100000 in decide

/-- C23, counterexample: the error envelope written for an over-quota error
with status 502.  The block of the declared length decompresses to the status
line, the header lines, the empty line and the JSON text of the error, and no
byte of the carrier body follows the block. -/
theorem c23_json_inside_block :
    unwrapEnvelope sampleInflate (handlerError sampleRuntime sampleLib overQuota 502).Body =
      Except.ok (⟨bytesOf (errorText sampleRuntime overQuota 502), none⟩, []) ∧
    errorText sampleRuntime overQuota 502 =
      "HTTP/1.1 502\r\nContent-Type: text/plain; charset=utf-8\r\nContent-Length: 195\r\n\r\n"
        ++ fmtError sampleRuntime overQuota ∧
    (fmtError sampleRuntime overQuota).length = 195 := by
  refine ⟨?_, ?_, ?_⟩
  · set_option maxRecDepth 100000 in rfl
  · set_option maxRecDepth 100000 in decide
  · set_option maxRecDepth 100000 in decide

/-- C23, amended.  For every error and status code whose compressed text has
at most 65535 bytes, `handlerError` emits an envelope with the same framing
as a success envelope: the compressed block of the declared length
decompresses to what the flate reader makes of the compressed status line,
header lines, empty line and JSON error text, and no body byte follows that
block. -/
theorem c23_error_envelope (rt : Runtime) (lib : Lib) (err : GoError) (code : Int)
    (hlen : (lib.deflate (bytesOf (errorText rt err code))).length ≤ 65535) :
    (handlerError rt lib err code).ContentType = "image/gif" ∧
    (handlerError rt lib err code).StatusCode = 200 ∧
    (handlerError rt lib err code).ContentLength =
      Itoa (((handlerError rt lib err code).Body.length : Nat) : Int) ∧
    (handlerError rt lib err code).Body =
      wrapEnvelope lib.deflate (bytesOf (errorText rt err code)) [] ∧
    unwrapEnvelope lib.inflate (handlerError rt lib err code).Body =
      Except.ok (lib.inflate (lib.deflate (bytesOf (errorText rt err code))), []) ∧
    errorText rt err code =
      "HTTP/1.1 " ++ Itoa code ++ "\r\n" ++
        "Content-Type: text/plain; charset=utf-8\r\n" ++
        "Content-Length: " ++ Itoa (fmtError rt err).length ++ "\r\n" ++
        "\r\n" ++ fmtError rt err := by
  have h : (lib.deflate (bytesOf (errorText rt err code))).length % 65536 / 256 % 256 * 256
      + (lib.deflate (bytesOf (errorText rt err code))).length % 65536 % 256
      = (lib.deflate (bytesOf (errorText rt err code))).length := by omega
  refine ⟨rfl, rfl, ?_, ?_, ?_, rfl⟩
  · simp [handlerError]
  · simp [handlerError, wrapEnvelope]
  · simp [handlerError, unwrapEnvelope, PutUint16, uint16, binaryReadUint16, h]

/-- C23, run at a concrete input: the envelope of an over-quota error. -/
theorem c23_error_envelope_witness :
    (sampleLib.deflate (bytesOf (errorText sampleRuntime overQuota 502))).length ≤ 65535 ∧
    unwrapEnvelope sampleLib.inflate (handlerError sampleRuntime sampleLib overQuota 502).Body =
      Except.ok (sampleLib.inflate
        (sampleLib.deflate (bytesOf (errorText sampleRuntime overQuota 502))), []) :=
  ⟨by set_option maxRecDepth 100000 in decide,
   (c23_error_envelope sampleRuntime sampleLib overQuota 502
      (by set_option maxRecDepth 100000 in decide)).2.2.2.2.1⟩

/-! ## C24 - C25: the request line, and the window of `IsBinary` -/

/-- A stream whose first line has `MaxScanTokenSize` bytes or more makes
`ReadRequest` end in a run-time fault. -/
theorem ReadRequest_fault_of_long (lib : Lib) (r : ReadCloser)
    (h : MaxScanTokenSize ≤ (splitList 10 r.data).1.length) :
    ReadRequest lib r = Result.fault := by
  unfold ReadRequest
  rw [(scanLines_eq_nil r.data).2 (Or.inr h)]

theorem longLine_facts :
    longLine.length = 65536 ∧ (10 : Nat) ∉ longLine ∧ ' ' ∉ (stringOf longLine).data := by
  refine ⟨?_, ?_, ?_⟩
  · simp only [longLine, List.length_replicate]
  · intro hm
    have := List.eq_of_mem_replicate hm
    exact absurd this (by decide)
  · intro hm
    simp only [stringOf, longLine, List.map_replicate] at hm
    have := List.eq_of_mem_replicate hm
    exact absurd this (by decide)

/-- The first line of the stream `longLine` is the whole of it. -/
theorem longLine_first : (splitList 10 longLine).1.length = 65536 := by
  obtain ⟨hlen, h10, _⟩ := longLine_facts
  rw [splitList_of_not_mem 10 longLine h10]
  exact hlen

theorem ReadRequest_longLine (lib : Lib) : ReadRequest lib ⟨longLine, none⟩ = Result.fault := by
  apply ReadRequest_fault_of_long
  show MaxScanTokenSize ≤ (splitList 10 longLine).1.length
  rw [longLine_first]
  decide

theorem Split_longLine : (Split (stringOf longLine) ' ').length = 1 := by
  obtain ⟨_, _, hsp⟩ := longLine_facts
  simp only [Split, splitList_of_not_mem ' ' _ hsp, List.map_cons, List.map_nil,
    List.length_cons, List.length_nil]

/-- A fault of `ReadRequest` is a fault of the handler: nothing is written. -/
theorem handler_of_fault (cfg : Config) (rt : Runtime) (lib : Lib) (fetch : Fetch)
    (r : CarrierRequest) (stream : ReadCloser) (body : Bytes)
    (hun : unwrapEnvelope lib.inflate r.Body = Except.ok (stream, body))
    (hf : ReadRequest lib stream = Result.fault) :
    handler cfg rt lib fetch r = (Reply.fault, []) := by
  unfold handler
  rw [hun]
  simp only [hf]

/-- C24, counterexample: a header block that is one line of 65536 letters.
The line holds no space, so it does not split into three parts; the scanner
refuses it as too long, and `ReadRequest` ends in a run-time fault instead of
returning an error: the handler writes no envelope of status 400. -/
theorem c24_long_first_line_faults :
    (Split (stringOf longLine) ' ').length = 1 ∧
    (splitList 10 longLine).1.length = 65536 ∧
    ReadRequest sampleLib ⟨longLine, none⟩ = Result.fault ∧
    handler ⟨""⟩ sampleRuntime longLineLib sampleFetch ⟨"10.0.0.1:4000", [0, 1, 0]⟩ =
      (Reply.fault, []) :=
  ⟨Split_longLine, longLine_first, ReadRequest_longLine sampleLib,
   handler_of_fault ⟨""⟩ sampleRuntime longLineLib sampleFetch ⟨"10.0.0.1:4000", [0, 1, 0]⟩
     ⟨longLine, none⟩ [] rfl (ReadRequest_longLine longLineLib)⟩

/-- C24, amended.  A header block whose first line is shorter than 65536
bytes and does not split on single spaces into exactly three parts, or whose
target fails URL parsing, makes `ReadRequest` return an error; the handler
answers an error of `ReadRequest` with the error envelope of status 400 and
makes no fetch; and for a first line of three parts, shorter than 65536
bytes, the request returned has that method and target and the protocol
HTTP/1.1, whatever the third part says: such a request is returned when the
target parses, no Content-Length is among the lines, no later line is too
long and the stream ends cleanly. -/
theorem c24_request_line :
    (∀ (r : ReadCloser), r.data ≠ [] → (splitList 10 r.data).1.length < 65536 →
      ∃ rest, scanLines r.data = stringOf (dropCR (splitList 10 r.data).1) :: rest) ∧
    (∀ (lib : Lib) (r : ReadCloser) (line : String) (rest : List String),
      scanLines r.data = line :: rest → (Split line ' ').length ≠ 3 →
      ReadRequest lib r = Result.error (Errorf ("Invaild Request Line: " ++ lib.Quote line))) ∧
    (∀ (lib : Lib) (r : ReadCloser) (line : String) (rest : List String) (m u p : String)
        (e : GoError),
      scanLines r.data = line :: rest → Split line ' ' = [m, u, p] →
      lib.Parse u = Except.error e →
      ReadRequest lib r = Result.error e) ∧
    (∀ (cfg : Config) (rt : Runtime) (lib : Lib) (fetch : Fetch) (r : CarrierRequest)
        (stream : ReadCloser) (body : Bytes) (e : GoError),
      unwrapEnvelope lib.inflate r.Body = Except.ok (stream, body) →
      ReadRequest lib stream = Result.error e →
      handler cfg rt lib fetch r = (Reply.wrote (handlerError rt lib e 400), [])) ∧
    (∀ (lib : Lib) (r : ReadCloser) (line : String) (rest : List String) (m u p : String)
        (req : Request),
      scanLines r.data = line :: rest → Split line ' ' = [m, u, p] →
      ReadRequest lib r = Result.ok req →
      req.Method = m ∧ req.RequestURI = u ∧ req.Proto = "HTTP/1.1" ∧
        req.ProtoMajor = 1 ∧ req.ProtoMinor = 1) ∧
    (∀ (lib : Lib) (r : ReadCloser) (line : String) (rest : List String) (m u p : String)
        (url : URL),
      scanLines r.data = line :: rest → Split line ' ' = [m, u, p] →
      lib.Parse u = Except.ok url →
      Header.Get lib (readHeaderLines lib rest) "Content-Length" = "" → scanErr r = none →
      ∃ req, ReadRequest lib r = Result.ok req ∧ req.Method = m ∧ req.RequestURI = u ∧
        req.Proto = "HTTP/1.1" ∧ req.URL = url) := by
  refine ⟨fun r hne hlt => scanLines_first r.data hne hlt, ?_, ?_, ?_, ?_, ?_⟩
  · intro lib r line rest hs hlen
    unfold ReadRequest
    rw [hs]
    simp only []
    split
    · rename_i heq
      rw [heq] at hlen
      simp at hlen
    · rfl
  · intro lib r line rest m u p e hs hsp hparse
    unfold ReadRequest
    rw [hs]
    simp only [hsp, hparse]
  · intro cfg rt lib fetch r stream body e hun hread
    unfold handler
    rw [hun]
    simp only [hread]
  · intro lib r line rest m u p req hs hsp hok
    unfold ReadRequest at hok
    rw [hs] at hok
    simp only [hsp] at hok
    split at hok
    · cases hok
    · split at hok
      · split at hok
        · cases hok
        · injection hok with hok
          subst hok
          exact ⟨rfl, rfl, rfl, rfl, rfl⟩
      · split at hok
        · cases hok
        · injection hok with hok
          subst hok
          exact ⟨rfl, rfl, rfl, rfl, rfl⟩
  · intro lib r line rest m u p url hs hsp hparse hcl herr
    unfold ReadRequest
    rw [hs]
    simp only [hsp, hparse, hcl, herr]
    simp

/-- C24, run at concrete inputs: a first line of two parts; a target with a
bad escape; the carrier body of a block that holds the line of two parts; and
a first line whose third part is "HTTP/9.9". -/
theorem c24_request_line_witness :
    (∃ rest, scanLines (bytesOf "GET http://example.com/\r\n") =
      stringOf (dropCR (splitList 10 (bytesOf "GET http://example.com/\r\n")).1) :: rest) ∧
    ReadRequest sampleLib ⟨bytesOf "GET http://example.com/\r\n", none⟩ =
      Result.error (Errorf ("Invaild Request Line: " ++
        sampleLib.Quote "GET http://example.com/")) ∧
    ReadRequest sampleLib ⟨bytesOf "GET /a%zz HTTP/1.1\r\n", none⟩ =
      Result.error (Errorf "parse /a%zz: invalid URL escape") ∧
    handler ⟨""⟩ sampleRuntime sampleLib sampleFetch
        ⟨"10.0.0.1:4000",
          wrapEnvelope sampleDeflate (bytesOf "GET http://example.com/\r\n") []⟩ =
      (Reply.wrote (handlerError sampleRuntime sampleLib
        (Errorf ("Invaild Request Line: " ++ sampleLib.Quote "GET http://example.com/")) 400),
        []) ∧
    (∃ req, ReadRequest sampleLib ⟨bytesOf "GET http://example.com/ HTTP/9.9\r\n", none⟩ =
        Result.ok req ∧ req.Method = "GET" ∧ req.RequestURI = "http://example.com/" ∧
      req.Proto = "HTTP/1.1" ∧ req.URL = ⟨"example.com", "/", "http://example.com/"⟩) ∧
    (emptyOptionsRequest.Method = "GET" ∧
      emptyOptionsRequest.RequestURI = "http://example.com/" ∧
      emptyOptionsRequest.Proto = "HTTP/1.1" ∧ emptyOptionsRequest.ProtoMajor = 1 ∧
      emptyOptionsRequest.ProtoMinor = 1) :=
  ⟨c24_request_line.1 ⟨bytesOf "GET http://example.com/\r\n", none⟩ (by decide)
      (by set_option maxRecDepth 100000 in decide),
   c24_request_line.2.1 sampleLib ⟨bytesOf "GET http://example.com/\r\n", none⟩
      "GET http://example.com/" [] (by decide) (by decide),
   c24_request_line.2.2.1 sampleLib ⟨bytesOf "GET /a%zz HTTP/1.1\r\n", none⟩
      "GET /a%zz HTTP/1.1" [] "GET" "/a%zz" "HTTP/1.1" _ (by decide) (by decide) rfl,
   c24_request_line.2.2.2.1 ⟨""⟩ sampleRuntime sampleLib sampleFetch
      ⟨"10.0.0.1:4000", wrapEnvelope sampleDeflate (bytesOf "GET http://example.com/\r\n") []⟩
      ⟨bytesOf "GET http://example.com/\r\n", none⟩ [] _
      (by set_option maxRecDepth 100000 in rfl)
      (by set_option maxRecDepth 100000 in rfl),
   c24_request_line.2.2.2.2.2 sampleLib ⟨bytesOf "GET http://example.com/ HTTP/9.9\r\n", none⟩
      "GET http://example.com/ HTTP/9.9" [] "GET" "http://example.com/" "HTTP/9.9"
      ⟨"example.com", "/", "http://example.com/"⟩ (by decide) (by decide) rfl (by decide)
      (by decide),
   c24_request_line.2.2.2.2.1 sampleLib
      ⟨bytesOf "GET http://example.com/ HTTP/0.9\r\nX-UrlFetch-Options:\r\n", none⟩
      "GET http://example.com/ HTTP/0.9" ["X-UrlFetch-Options:"] "GET" "http://example.com/"
      "HTTP/0.9" emptyOptionsRequest
      (by set_option maxRecDepth 100000 in decide) (by decide)
      (by set_option maxRecDepth 100000 in decide)⟩

/-- The scan of `IsBinary` from index `i`: it answers true exactly when a byte
above 0x7f stands at an offset it reaches, that is before the index 34 and
with no newline at an index above 4 before it. -/
theorem IsBinaryFrom_iff (l : Bytes) :
    ∀ i, i ≤ 33 →
      (IsBinaryFrom i l = true ↔
        ∃ j, j < l.length ∧ i + j ≤ 33 ∧ l.getD j 0 > 0x7f ∧
          ∀ k, k < j → ¬ (l.getD k 0 = 10 ∧ i + k > 4)) := by
  induction l with
  | nil => intro i _; simp [IsBinaryFrom]
  | cons c rest ih =>
    intro i hi
    by_cases hc : c > 0x7f
    · simp only [IsBinaryFrom, if_pos hc, true_iff]
      exact ⟨0, by simp, by omega, by simpa using hc, fun k hk => by omega⟩
    · by_cases hn : c = 10 ∧ i > 4
      · simp only [IsBinaryFrom, if_neg hc, if_pos hn, Bool.false_eq_true, false_iff]
        rintro ⟨j, _, _, hj, hk⟩
        cases j with
        | zero => exact hc (by simpa using hj)
        | succ j1 => exact hk 0 (by omega) (by simpa using hn)
      · by_cases h32 : i > 32
        · simp only [IsBinaryFrom, if_neg hc, if_neg hn, if_pos h32, Bool.false_eq_true,
            false_iff]
          rintro ⟨j, _, hle, hj, _⟩
          cases j with
          | zero => exact hc (by simpa using hj)
          | succ j1 => omega
        · simp only [IsBinaryFrom, if_neg hc, if_neg hn, if_neg h32]
          rw [ih (i + 1) (by omega)]
          constructor
          · rintro ⟨j, hlt, hle, hj, hk⟩
            refine ⟨j + 1, by simpa using hlt, by omega, by simpa using hj, ?_⟩
            intro k hkj
            cases k with
            | zero => simpa using hn
            | succ k1 =>
              have := hk k1 (by omega)
              simpa [Nat.add_assoc, Nat.add_comm 1 k1] using this
          · rintro ⟨j, hlt, hle, hj, hk⟩
            cases j with
            | zero => exact absurd (by simpa using hj) hc
            | succ j1 =>
              refine ⟨j1, by simpa using hlt, by omega, by simpa using hj, ?_⟩
              intro k hkj
              have := hk (k + 1) (by omega)
              simpa [Nat.add_assoc, Nat.add_comm 1 k] using this

/-- C25, counterexample: thirty-two letters followed by the byte 0x80, and four
letters followed by a newline and the byte 0x80.  Neither slice starts with
the byte-order mark.  In the first no byte at an index below 32 is 0x80 or
more, in the second a newline stands at index 4 before the only such byte;
`IsBinary` returns true for both. -/
theorem c25_window_is_wider :
    (¬ [0xef, 0xbb, 0xbf] <+: highAt32 ∧
      (∀ j, j < 32 → highAt32.getD j 0 < 0x80) ∧ 0x80 ≤ highAt32.getD 32 0 ∧
      IsBinary highAt32 = true) ∧
    (¬ [0xef, 0xbb, 0xbf] <+: newlineAt4 ∧
      newlineAt4.getD 4 0 = 10 ∧ (∀ j, j < 5 → newlineAt4.getD j 0 < 0x80) ∧
      IsBinary newlineAt4 = true) := by
  refine ⟨⟨?_, ?_, ?_, ?_⟩, ?_, ?_, ?_, ?_⟩ <;> decide

/-- C25, amended.  For every byte slice `b` that does not start with the
byte-order mark, `IsBinary b` is true exactly when there is an index `j` of
at most 33 with `b[j]` at least 0x80 such that no newline occurs at an index
`k` with `5 ≤ k < j`.  So a byte with the high bit at index 34 or beyond, or
after a newline at index 5 or later, never makes `b` binary, and a newline at
an index below 5 never stops the scan. -/
theorem c25_scan_window (b : Bytes) (hbom : ¬ [0xef, 0xbb, 0xbf] <+: b) :
    (IsBinary b = true ↔
      ∃ j, j < b.length ∧ j ≤ 33 ∧ 0x80 ≤ b.getD j 0 ∧
        ∀ k, 5 ≤ k → k < j → b.getD k 0 ≠ 10) ∧
    ((∀ j, j < b.length → 0x80 ≤ b.getD j 0 →
        34 ≤ j ∨ ∃ k, 5 ≤ k ∧ k < j ∧ b.getD k 0 = 10) →
      IsBinary b = false) := by
  have hcond : ¬ (b.length > 3 ∧ b.getD 0 0 = 0xef ∧ b.getD 1 0 = 0xbb ∧
      b.getD 2 0 = 0xbf) := by
    rintro ⟨hlen, h0, h1, h2⟩
    apply hbom
    cases b with
    | nil => simp at hlen
    | cons c0 r0 =>
      cases r0 with
      | nil => simp at hlen
      | cons c1 r1 =>
        cases r1 with
        | nil => simp at hlen
        | cons c2 r2 =>
          simp at h0 h1 h2
          subst h0 h1 h2
          exact ⟨r2, rfl⟩
  have hiff : IsBinary b = true ↔
      ∃ j, j < b.length ∧ j ≤ 33 ∧ 0x80 ≤ b.getD j 0 ∧
        ∀ k, 5 ≤ k → k < j → b.getD k 0 ≠ 10 := by
    simp only [IsBinary, if_neg hcond]
    rw [IsBinaryFrom_iff b 0 (by omega)]
    constructor
    · rintro ⟨j, hlt, hle, hj, hk⟩
      refine ⟨j, hlt, by omega, by omega, ?_⟩
      intro k h5 hkj hnl
      exact hk k hkj ⟨hnl, by omega⟩
    · rintro ⟨j, hlt, hle, hj, hk⟩
      refine ⟨j, hlt, by omega, by omega, ?_⟩
      rintro k hkj ⟨hnl, h4⟩
      exact hk k (by omega) hkj hnl
  refine ⟨hiff, ?_⟩
  intro hall
  cases hb : IsBinary b with
  | false => rfl
  | true =>
    obtain ⟨j, hlt, hle, hj, hk⟩ := hiff.1 hb
    rcases hall j hlt hj with h34 | ⟨k, h5, hkj, hnl⟩
    · omega
    · exact absurd hnl (hk k h5 hkj)

/-- C25, run at concrete inputs: a byte of 0x80 at index 33 after thirty-three
letters makes the slice binary, and the same byte at index 34 does not. -/
theorem c25_scan_window_witness :
    (IsBinary (List.replicate 33 97 ++ [0x80]) = true ↔
      ∃ j, j < (List.replicate 33 97 ++ [0x80]).length ∧ j ≤ 33 ∧
        0x80 ≤ (List.replicate 33 97 ++ [0x80]).getD j 0 ∧
        ∀ k, 5 ≤ k → k < j → (List.replicate 33 97 ++ [0x80]).getD k 0 ≠ 10) ∧
    IsBinary (List.replicate 34 97 ++ [0x80]) = false :=
  ⟨(c25_scan_window (List.replicate 33 97 ++ [0x80]) (by decide)).1,
   (c25_scan_window (List.replicate 34 97 ++ [0x80]) (by decide)).2
      (by
        intro j hlt hj
        have hlen : (List.replicate 34 97 ++ [0x80]).length = 35 := by decide
        rw [hlen] at hlt
        by_cases h34 : 34 ≤ j
        · exact Or.inl h34
        · exfalso
          have hj33 : j < 34 := by omega
          revert hj
          revert j
          decide)⟩

/-! ## C27 - C28: the read error of the scanner, and a stream without a line -/

/-- C27, the code run at a failing input: a stream that delivers a well-formed
request line with a target that parses and part of a Host line, then fails
with "unexpected EOF".  No Content-Length is among the lines read, and
`ReadRequest` returns the read error, not a nil error; with a Content-Length
line among the lines read it returns a request. -/
theorem c27_read_error_returned :
    scanLines brokenStream.data = ["GET http://example.com/ HTTP/1.1", "Host: exam"] ∧
    Split "GET http://example.com/ HTTP/1.1" ' ' = ["GET", "http://example.com/", "HTTP/1.1"] ∧
    sampleLib.Parse "http://example.com/" =
      Except.ok ⟨"example.com", "/", "http://example.com/"⟩ ∧
    brokenStream.err = some (Errorf "unexpected EOF") ∧
    ReadRequest sampleLib brokenStream = Result.error (Errorf "unexpected EOF") ∧
    ReadRequest sampleLib brokenStreamWithLength =
      Result.ok
        { Method := "GET", RequestURI := "http://example.com/", Proto := "HTTP/1.1",
          ProtoMajor := 1, ProtoMinor := 1,
          URL := ⟨"example.com", "/", "http://example.com/"⟩, Host := "example.com",
          Header := [("Host", ["exam"]), ("Content-Length", ["0"])],
          ContentLength := 0, RemoteAddr := "", Body := [] } := by
  refine ⟨?_, ?_, ?_, ?_, ?_, ?_⟩
  · set_option maxRecDepth 100000 in decide
  · set_option maxRecDepth 100000 in decide
  · set_option maxRecDepth 100000 in rfl
  · rfl
  · set_option maxRecDepth 100000 in decide
  · set_option maxRecDepth 100000 in decide

/-- A request line followed by a line of 65536 letters: the lines as the split
function cuts them. -/
theorem scanTokens_long_second :
    scanTokens (bytesOf "GET http://example.com/ HTTP/1.1" ++ 10 :: longLine) =
      [bytesOf "GET http://example.com/ HTTP/1.1", longLine] := by
  obtain ⟨hlen, h10, _⟩ := longLine_facts
  have hne : longLine ≠ [] := by
    intro e
    rw [e] at hlen
    cases hlen
  have h1 : splitList 10 (bytesOf "GET http://example.com/ HTTP/1.1" ++ 10 :: longLine) =
      (bytesOf "GET http://example.com/ HTTP/1.1", [longLine]) := by
    rw [splitList_append 10 _ _ (by decide), splitList_of_not_mem 10 longLine h10]
  simp only [scanTokens, h1]
  simp [hne]

/-- A header line that is too long ends the loop of line 94 with `ErrTooLong`,
which the call returns when no Content-Length line has been read. -/
theorem ReadRequest_long_header_line :
    ReadRequest sampleLib ⟨bytesOf "GET http://example.com/ HTTP/1.1" ++ 10 :: longLine, none⟩ =
      Result.error ErrTooLong := by
  obtain ⟨hlen, _, _⟩ := longLine_facts
  have hshort : (bytesOf "GET http://example.com/ HTTP/1.1").length < MaxScanTokenSize := by
    decide
  have hlong : ¬ longLine.length < MaxScanTokenSize := by
    rw [hlen]
    decide
  have hl : scanLines (bytesOf "GET http://example.com/ HTTP/1.1" ++ 10 :: longLine) =
      ["GET http://example.com/ HTTP/1.1"] := by
    simp only [scanLines, scanTokens_long_second, List.takeWhile_cons, hshort, hlong,
      decide_True, decide_False, if_true, Bool.false_eq_true, if_false, List.map_cons,
      List.map_nil, List.takeWhile_nil]
    decide
  have he : scanErr ⟨bytesOf "GET http://example.com/ HTTP/1.1" ++ 10 :: longLine, none⟩ =
      some ErrTooLong := by
    simp only [scanErr, scanTokens_long_second, List.all_cons, hshort, hlong, decide_True,
      decide_False, Bool.true_and, Bool.false_and, Bool.false_eq_true, if_false]
  unfold ReadRequest
  simp only [hl, he]
  decide

/-- C28, counterexample: a stream whose first line is 65536 letters, followed
by a Host line.  The input has a first line, but the scanner refuses it as
too long and the first `Scan` hands out nothing: `ReadRequest` does not
return normally, it ends in a run-time fault. -/
theorem c28_long_first_line_faults :
    (splitList 10 (longLine ++ 10 :: bytesOf "Host: example.com\r\n")).1 = longLine ∧
    longLine.length = 65536 ∧
    ReadRequest sampleLib ⟨longLine ++ 10 :: bytesOf "Host: example.com\r\n", none⟩ =
      Result.fault := by
  obtain ⟨hlen, h10, _⟩ := longLine_facts
  have hfirst : (splitList 10 (longLine ++ 10 :: bytesOf "Host: example.com\r\n")).1 =
      longLine := by
    rw [splitList_append 10 longLine _ h10]
  refine ⟨hfirst, hlen, ?_⟩
  apply ReadRequest_fault_of_long
  show MaxScanTokenSize ≤
    (splitList 10 (longLine ++ 10 :: bytesOf "Host: example.com\r\n")).1.length
  rw [hfirst, hlen]
  decide

/-- C28, amended.  `ReadRequest` completes, with a request whose URL is the
parsed target or with an error, if and only if the first call of its scanner
yields a line; that call yields no line exactly when the stream delivers no
byte, whether it ends cleanly or fails at once, or when its first line has
65536 bytes or more, and the call of `ReadRequest` then ends in a run-time
fault (the nil dereference of the Host computation, or the write to the nil
header map) instead of returning an error. -/
theorem c28_completes_iff_line :
    (∀ (lib : Lib) (r : ReadCloser),
      ReadRequest lib r = Result.fault ↔ scanLines r.data = []) ∧
    (∀ (lib : Lib) (r : ReadCloser), scanLines r.data ≠ [] →
      (∃ req, ReadRequest lib r = Result.ok req ∧ ∃ u, lib.Parse u = Except.ok req.URL) ∨
        ∃ e, ReadRequest lib r = Result.error e) ∧
    (∀ (r : ReadCloser),
      scanLines r.data = [] ↔ r.data = [] ∨ 65536 ≤ (splitList 10 r.data).1.length) ∧
    (∀ (lib : Lib) (err : Option GoError), ReadRequest lib ⟨[], err⟩ = Result.fault) := by
  have key : ∀ (lib : Lib) (r : ReadCloser), scanLines r.data ≠ [] →
      (∃ req, ReadRequest lib r = Result.ok req ∧ ∃ u, lib.Parse u = Except.ok req.URL) ∨
        ∃ e, ReadRequest lib r = Result.error e := by
    intro lib r hne
    unfold ReadRequest
    cases hs : scanLines r.data with
    | nil => exact absurd hs hne
    | cons line rest =>
      simp only []
      split
      · rename_i method uri p hsp
        cases hp : lib.Parse uri with
        | error e => exact Or.inr ⟨e, rfl⟩
        | ok u =>
          simp only []
          split
          · split
            · exact Or.inr ⟨_, rfl⟩
            · exact Or.inl ⟨_, rfl, uri, hp⟩
          · split
            · exact Or.inr ⟨_, rfl⟩
            · exact Or.inl ⟨_, rfl, uri, hp⟩
      · exact Or.inr ⟨_, rfl⟩
  refine ⟨?_, key, fun r => scanLines_eq_nil r.data, ?_⟩
  · intro lib r
    constructor
    · intro hf
      by_contra hne
      rcases key lib r hne with ⟨req, hreq, _⟩ | ⟨e, he⟩
      · rw [hreq] at hf
        cases hf
      · rw [he] at hf
        cases hf
    · intro hs
      unfold ReadRequest
      rw [hs]
  · intro lib err
    rfl

/-- C28, run at concrete inputs: a stream of one request line, and a stream
that fails before it delivers a byte. -/
theorem c28_completes_iff_line_witness :
    ((∃ req, ReadRequest sampleLib ⟨bytesOf "GET http://example.com/ HTTP/1.1", none⟩ =
          Result.ok req ∧ ∃ u, sampleLib.Parse u = Except.ok req.URL) ∨
      ∃ e, ReadRequest sampleLib ⟨bytesOf "GET http://example.com/ HTTP/1.1", none⟩ =
        Result.error e) ∧
    ReadRequest sampleLib ⟨[], some (Errorf "unexpected EOF")⟩ = Result.fault :=
  ⟨c28_completes_iff_line.2.1 sampleLib ⟨bytesOf "GET http://example.com/ HTTP/1.1", none⟩
      (by set_option maxRecDepth 100000 in decide),
   (c28_completes_iff_line.1 sampleLib ⟨[], some (Errorf "unexpected EOF")⟩).2 (by decide)⟩

/-! ## C30: the sleeps of the relay -/

theorem sleepsOf_append (a b : List Event) : sleepsOf (a ++ b) = sleepsOf a ++ sleepsOf b := by
  simp [sleepsOf]

/-- The last pass of the loop: the log gains the fetch and the sleep of its
failure. -/
theorem fetchFrom_zero_log (lib : Lib) (fetch : Fetch) (deadline : Duration)
    (sslVerify : Bool) (fetchMaxSize : Int) (i : Nat) (req : Request) (log : List Event) :
    (fetchFrom lib fetch deadline sslVerify fetchMaxSize 0 i req log).2.2 =
      log ++ [Event.Fetch i req deadline (!sslVerify)] ++
        (delays (fetchOnce fetch i req deadline sslVerify)).map Event.Sleep := by
  unfold fetchFrom
  simp only []
  cases h : fetchOnce fetch i req deadline sslVerify with
  | ok resp => simp [delays]
  | error err =>
    simp only [delays]
    by_cases h1 : Contains err.Error "RESPONSE_TOO_LARGE" = true
    · simp [h1]
    · by_cases h2 : Contains err.Error "Over quota" = true
      · simp [h1, h2]
      · by_cases h3 : Contains err.Error "urlfetch: CLOSED" = true
        · simp [h1, h2, h3]
        · simp [h1, h2, h3]

/-- The two passes of the loop: the log gains the first fetch and the sleep
of its failure, and the second pass when the failure is one the loop goes on
after. -/
theorem fetchFrom_one_log (lib : Lib) (fetch : Fetch) (deadline : Duration)
    (sslVerify : Bool) (fetchMaxSize : Int) (req : Request) :
    (fetchFrom lib fetch deadline sslVerify fetchMaxSize 1 0 req []).2.2 =
      [Event.Fetch 0 req deadline (!sslVerify)] ++
        (delays (fetchOnce fetch 0 req deadline sslVerify)).map Event.Sleep ++
        (if retried (fetchOnce fetch 0 req deadline sslVerify) = true then
          [Event.Fetch 1
              (nextRequest lib fetchMaxSize req (fetchOnce fetch 0 req deadline sslVerify))
              deadline (!sslVerify)] ++
            (delays (fetchOnce fetch 1
              (nextRequest lib fetchMaxSize req (fetchOnce fetch 0 req deadline sslVerify))
              deadline sslVerify)).map Event.Sleep
        else []) := by
  unfold fetchFrom
  simp only []
  cases h : fetchOnce fetch 0 req deadline sslVerify with
  | ok resp => simp [delays, retried]
  | error err =>
    have hd : delays (Except.error err) =
        if Contains err.Error "RESPONSE_TOO_LARGE" then []
        else if Contains err.Error "Over quota" then [DefaultOverquotaDelay]
        else if Contains err.Error "urlfetch: CLOSED" then [DefaultURLFetchClosedDelay]
        else [] := rfl
    rw [hd]
    simp only [retried, nextRequest]
    by_cases h1 : Contains err.Error "RESPONSE_TOO_LARGE" = true
    · simp [h1, fetchFrom_zero_log]
    · by_cases h2 : Contains err.Error "Over quota" = true
      · simp [h1, h2, fetchFrom_zero_log]
      · by_cases h3 : Contains err.Error "urlfetch: CLOSED" = true
        · simp [h1, h2, h3, fetchFrom_zero_log]
        · simp [h1, h2, h3]

/-- C30.  The relay sleeps after every failed fetch classified as over-quota
or channel-closed, the one of the last pass included, and after no other
fetch: the sleeps of one request are those of the first fetch followed, when
the loop goes on, by those of the second.  Two over-quota failures in a row
cost twice `DefaultOverquotaDelay`, 8 seconds, before the error envelope of
status 502 is written, and a failure for a response that is too large adds no
sleep. -/
theorem c30_sleeps :
    (∀ (lib : Lib) (fetch : Fetch) (deadline : Duration) (sslVerify : Bool)
        (fetchMaxSize : Int) (i : Nat) (req : Request) (log : List Event) (err : GoError),
      fetchOnce fetch i req deadline sslVerify = Except.error err →
      Contains err.Error "RESPONSE_TOO_LARGE" = false →
      (Contains err.Error "Over quota" = true →
        fetchFrom lib fetch deadline sslVerify fetchMaxSize 0 i req log =
          (Except.error err, req,
            log ++ [Event.Fetch i req deadline (!sslVerify)] ++
              [Event.Sleep DefaultOverquotaDelay])) ∧
      (Contains err.Error "Over quota" = false →
        Contains err.Error "urlfetch: CLOSED" = true →
        fetchFrom lib fetch deadline sslVerify fetchMaxSize 0 i req log =
          (Except.error err, req,
            log ++ [Event.Fetch i req deadline (!sslVerify)] ++
              [Event.Sleep DefaultURLFetchClosedDelay]))) ∧
    (∀ (lib : Lib) (fetch : Fetch) (deadline : Duration) (sslVerify : Bool)
        (fetchMaxSize : Int) (i : Nat) (req : Request) (log : List Event) (err : GoError),
      fetchOnce fetch i req deadline sslVerify = Except.error err →
      Contains err.Error "RESPONSE_TOO_LARGE" = true →
      fetchFrom lib fetch deadline sslVerify fetchMaxSize 0 i req log =
        (Except.error err, { req with Header := rewriteRange lib req.Header fetchMaxSize },
          log ++ [Event.Fetch i req deadline (!sslVerify)])) ∧
    (∀ (rt : Runtime) (lib : Lib) (fetch : Fetch) (params : Params) (oAE : String)
        (req : Request),
      sleepsOf (serve rt lib fetch params oAE req).2 =
        delays (fetchOnce fetch 0 req (deadlineOf params) (sslVerifyOf params)) ++
          (if retried (fetchOnce fetch 0 req (deadlineOf params) (sslVerifyOf params)) = true
            then
              delays (fetchOnce fetch 1
                (nextRequest lib (fetchMaxSizeOf params) req
                  (fetchOnce fetch 0 req (deadlineOf params) (sslVerifyOf params)))
                (deadlineOf params) (sslVerifyOf params))
            else [])) ∧
    (∀ (rt : Runtime) (lib : Lib) (fetch : Fetch) (params : Params) (oAE : String)
        (req : Request) (e0 e1 : GoError),
      fetchOnce fetch 0 req (deadlineOf params) (sslVerifyOf params) = Except.error e0 →
      fetchOnce fetch 1 req (deadlineOf params) (sslVerifyOf params) = Except.error e1 →
      Contains e0.Error "RESPONSE_TOO_LARGE" = false → Contains e0.Error "Over quota" = true →
      Contains e1.Error "RESPONSE_TOO_LARGE" = false → Contains e1.Error "Over quota" = true →
      serve rt lib fetch params oAE req =
        (Reply.wrote (handlerError rt lib e1 502),
          [Event.Fetch 0 req (deadlineOf params) (!sslVerifyOf params),
            Event.Sleep DefaultOverquotaDelay,
            Event.Fetch 1 req (deadlineOf params) (!sslVerifyOf params),
            Event.Sleep DefaultOverquotaDelay]) ∧
      (sleepsOf (serve rt lib fetch params oAE req).2).sum = 2 * DefaultOverquotaDelay ∧
      2 * DefaultOverquotaDelay = 8 * Second) := by
  refine ⟨?_, ?_, ?_, ?_⟩
  · intro lib fetch deadline sslVerify fetchMaxSize i req log err hf h1
    constructor
    · intro h2
      unfold fetchFrom
      simp [hf, h1, h2]
    · intro h2 h3
      unfold fetchFrom
      simp [hf, h1, h2, h3]
  · intro lib fetch deadline sslVerify fetchMaxSize i req log err hf h1
    unfold fetchFrom
    simp [hf, h1]
  · intro rt lib fetch params oAE req
    rw [serve_log, fetchFrom_one_log]
    have hs : ∀ l : List Duration, sleepsOf (l.map Event.Sleep) = l := by
      intro l
      induction l with
      | nil => rfl
      | cons d t ih =>
        simp only [sleepsOf, List.map_cons, List.filterMap_cons] at ih ⊢
        rw [ih]
    have hf : ∀ (i : Nat) (r : Request) (d : Duration) (v : Bool),
        sleepsOf [Event.Fetch i r d v] = [] := fun _ _ _ _ => rfl
    have hn : sleepsOf [] = [] := rfl
    split
    · simp only [sleepsOf_append, hs, hf, List.nil_append]
    · simp only [sleepsOf_append, hs, hf, hn, List.nil_append, List.append_nil]
  · intro rt lib fetch params oAE req e0 e1 hf0 hf1 h0 h0q h1 h1q
    have hserve : serve rt lib fetch params oAE req =
        (Reply.wrote (handlerError rt lib e1 502),
          [Event.Fetch 0 req (deadlineOf params) (!sslVerifyOf params),
            Event.Sleep DefaultOverquotaDelay,
            Event.Fetch 1 req (deadlineOf params) (!sslVerifyOf params),
            Event.Sleep DefaultOverquotaDelay]) := by
      unfold serve fetchFrom
      simp only [hf0, h0, h0q]
      unfold fetchFrom
      simp [hf1, h1, h1q]
    refine ⟨hserve, ?_, by decide⟩
    rw [hserve]
    simp [sleepsOf]
    ring

/-- C30, run at concrete inputs: a fetch facility that is over quota at every
call, and one whose responses are too large at every call. -/
theorem c30_sleeps_witness :
    (serve sampleRuntime sampleLib overQuotaFetch [] "" emptyOptionsRequest =
        (Reply.wrote (handlerError sampleRuntime sampleLib overQuota 502),
          [Event.Fetch 0 emptyOptionsRequest (deadlineOf []) (!sslVerifyOf []),
            Event.Sleep DefaultOverquotaDelay,
            Event.Fetch 1 emptyOptionsRequest (deadlineOf []) (!sslVerifyOf []),
            Event.Sleep DefaultOverquotaDelay]) ∧
      (sleepsOf (serve sampleRuntime sampleLib overQuotaFetch [] ""
        emptyOptionsRequest).2).sum = 2 * DefaultOverquotaDelay ∧
      2 * DefaultOverquotaDelay = 8 * Second) ∧
    fetchFrom sampleLib tooLargeFetch (20 * Second) false 4194304 0 1 emptyOptionsRequest [] =
      (Except.error tooLarge,
        { emptyOptionsRequest with
          Header := rewriteRange sampleLib emptyOptionsRequest.Header 4194304 },
        [] ++ [Event.Fetch 1 emptyOptionsRequest (20 * Second) (!false)]) ∧
    fetchFrom sampleLib overQuotaFetch (20 * Second) false 4194304 0 1 emptyOptionsRequest [] =
      (Except.error overQuota, emptyOptionsRequest,
        [] ++ [Event.Fetch 1 emptyOptionsRequest (20 * Second) (!false)] ++
          [Event.Sleep DefaultOverquotaDelay]) ∧
    fetchFrom sampleLib closedFetch (20 * Second) false 4194304 0 1 emptyOptionsRequest [] =
      (Except.error channelClosed, emptyOptionsRequest,
        [] ++ [Event.Fetch 1 emptyOptionsRequest (20 * Second) (!false)] ++
          [Event.Sleep DefaultURLFetchClosedDelay]) :=
  ⟨c30_sleeps.2.2.2 sampleRuntime sampleLib overQuotaFetch [] "" emptyOptionsRequest
      overQuota overQuota rfl rfl (by decide) (by decide) (by decide) (by decide),
   c30_sleeps.2.1 sampleLib tooLargeFetch (20 * Second) false 4194304 1 emptyOptionsRequest []
      tooLarge rfl (by decide),
   (c30_sleeps.1 sampleLib overQuotaFetch (20 * Second) false 4194304 1 emptyOptionsRequest []
      overQuota rfl (by decide)).1 (by decide),
   (c30_sleeps.1 sampleLib closedFetch (20 * Second) false 4194304 1 emptyOptionsRequest []
      channelClosed rfl (by decide)).2 (by decide) (by decide)⟩

end Relay

/-! ## C26 and C29: the end of the loop, and the effects of the last attempt -/

/-- An attempt that ends the call has slept and marked no server bad. -/
theorem attempt_done_effects (c : Collaborators) (t : Transport) (req : Request) (i : Nat)
    (log l : List Event) (o : Outcome) (h : attempt c t req i log = Step.done o l) :
    sleeps l = sleeps log ∧ toggles l = toggles log := by
  unfold attempt onCarrierError onNotOK onOK onDecoded blacklistPeer ReadAll at h
  simp only [] at h
  repeat' split at h
  all_goals cases h
  all_goals simp [sleeps, toggles, List.filterMap_append]

/-- An attempt that goes on to the next one is not the last; it has slept at
most once, for `RetryDelay` or `Deadline`, and marked at most one server bad. -/
theorem attempt_next_effects (c : Collaborators) (t : Transport) (req : Request) (i : Nat)
    (log l : List Event) (h : attempt c t req i log = Step.next l) :
    (i : Int) ≠ t.RetryTimes - 1 ∧
    (sleeps l).length ≤ (sleeps log).length + 1 ∧
    (toggles l).length ≤ (toggles log).length + 1 ∧
    (0 ≤ t.RetryDelay → 0 ≤ t.Deadline →
      (sleeps l).sum ≤ (sleeps log).sum + max t.RetryDelay t.Deadline) := by
  unfold attempt onCarrierError onNotOK onOK onDecoded blacklistPeer ReadAll at h
  simp only [] at h
  repeat' split at h
  all_goals cases h
  all_goals
    refine ⟨by assumption, ?_, ?_, ?_⟩
    · simp [sleeps, List.filterMap_append]
    · simp [toggles, List.filterMap_append]
    · intro h0 h1
      simp [sleeps, List.filterMap_append, h0, h1]

/-- The last attempt ends the call, without a sleep and without marking a
server bad. -/
theorem attempt_last_done (c : Collaborators) (t : Transport) (req : Request) (i : Nat)
    (log : List Event) (hi : (i : Int) = t.RetryTimes - 1) :
    ∃ o l, attempt c t req i log = Step.done o l ∧ sleeps l = sleeps log ∧
      toggles l = toggles log := by
  cases h : attempt c t req i log with
  | done o l => exact ⟨o, l, rfl, attempt_done_effects c t req i log l o h⟩
  | next l => exact absurd hi (attempt_next_effects c t req i log l h).1

/-- The last attempt writes no blacklist entry and closes no connection when
its carrier call does not fail with a timeout. -/
theorem attempt_last_teardowns (c : Collaborators) (t : Transport) (req : Request) (i : Nat)
    (log : List Event) (hi : (i : Int) = t.RetryTimes - 1)
    (hno : ∀ req1 err,
      c.EncodeRequest i req (c.PickFetchServer req i) t.Deadline = Except.ok req1 →
      c.RoundTrip i req1 = Except.error err → isTimeoutError err = false) :
    teardowns (attempt c t req i log).log = teardowns log := by
  cases henc : c.EncodeRequest i req (c.PickFetchServer req i) t.Deadline with
  | error err =>
    rw [attempt_of_encode_error c t req i log err henc]
    simp [Step.log, teardowns, List.countP_append]
  | ok req1 =>
    cases hrt : c.RoundTrip i req1 with
    | error err =>
      have hn := hno req1 err henc hrt
      rw [attempt_of_carrier_error c t req i log req1 err henc hrt]
      unfold onCarrierError
      simp [hn, hi, Step.log, teardowns, List.countP_append]
    | ok resp =>
      by_cases hs : resp.StatusCode = 200
      · rw [attempt_of_ok c t req i log req1 resp henc hrt hs]
        unfold onOK
        simp only [if_pos hi]
        repeat' split
        all_goals simp [Step.log, teardowns, List.countP_append]
      · rw [attempt_of_not_ok c t req i log req1 resp henc hrt hs]
        unfold onNotOK
        simp [if_pos hi, Step.log, teardowns, List.countP_append]

/-- With at least one pass left and the last pass at index `RetryTimes - 1`,
the loop ends in a return of one of its attempts. -/
theorem attemptsFrom_returns_inside (c : Collaborators) (t : Transport) (req : Request)
    (n : Nat) : ∀ (i : Nat) (log : List Event), 1 ≤ n → (i : Int) + (n : Int) = t.RetryTimes →
      ∃ (j : Nat) (log0 : List Event) (o : Outcome) (log1 : List Event),
        (j : Int) < t.RetryTimes ∧ attempt c t req j log0 = Step.done o log1 ∧
        attemptsFrom c t req n i log = (o, log1) := by
  induction n with
  | zero => intro i log h1; omega
  | succ n ih =>
    intro i log _ hsum
    push_cast at hsum
    cases h : attempt c t req i log with
    | done o l =>
      exact ⟨i, log, o, l, by omega, h, attemptsFrom_of_done c t req n i log l o h⟩
    | next l =>
      have hne := (attempt_next_effects c t req i log l h).1
      have hn : 1 ≤ n := by omega
      obtain ⟨j, log0, o, log1, hj, hd, hres⟩ := ih (i + 1) l hn (by push_cast; omega)
      exact ⟨j, log0, o, log1, hj, hd, by
        rw [attemptsFrom_of_next c t req n i log l h]; exact hres⟩

/-- The loop with `n` passes left, the last of them at index `RetryTimes - 1`,
sleeps and marks a server bad at most `n - 1` times. -/
theorem attemptsFrom_effects (c : Collaborators) (t : Transport) (req : Request)
    (n : Nat) : ∀ (i : Nat) (log : List Event), (i : Int) + (n : Int) = t.RetryTimes →
      (sleeps (attemptsFrom c t req n i log).2).length ≤ (sleeps log).length + (n - 1) ∧
      (toggles (attemptsFrom c t req n i log).2).length ≤ (toggles log).length + (n - 1) ∧
      (0 ≤ t.RetryDelay → 0 ≤ t.Deadline →
        (sleeps (attemptsFrom c t req n i log).2).sum ≤
          (sleeps log).sum + ((n - 1 : Nat) : Int) * max t.RetryDelay t.Deadline) := by
  induction n with
  | zero => intro i log _; simp [attemptsFrom]
  | succ n ih =>
    intro i log hsum
    push_cast at hsum
    cases h : attempt c t req i log with
    | done o l =>
      rw [attemptsFrom_of_done c t req n i log l o h]
      obtain ⟨hs, ht⟩ := attempt_done_effects c t req i log l o h
      refine ⟨by simp [hs], by simp [ht], ?_⟩
      intro h0 h1
      have hM : 0 ≤ max t.RetryDelay t.Deadline := le_max_of_le_left h0
      have hn : (0 : Int) ≤ ((n + 1 - 1 : Nat) : Int) := Int.ofNat_nonneg _
      have := mul_nonneg hn hM
      simp only [hs]
      linarith
    | next l =>
      rw [attemptsFrom_of_next c t req n i log l h]
      obtain ⟨hne, hs, ht, hsum1⟩ := attempt_next_effects c t req i log l h
      have hn : 1 ≤ n := by omega
      obtain ⟨m, rfl⟩ : ∃ m, n = m + 1 := ⟨n - 1, by omega⟩
      obtain ⟨is, it, isum⟩ := ih (i + 1) l (by push_cast; omega)
      refine ⟨by omega, by omega, ?_⟩
      intro h0 h1
      have a := hsum1 h0 h1
      have b := isum h0 h1
      have e1 : ((m + 1 - 1 : Nat) : Int) = (m : Int) := by simp
      have e2 : ((m + 1 + 1 - 1 : Nat) : Int) = (m : Int) + 1 := by simp
      rw [e1] at b
      rw [e2]
      linarith [add_mul (m : Int) 1 (max t.RetryDelay t.Deadline)]

/-- C26, counterexample: with `RetryTimes` at 0 the loop makes no attempt, no
collaborator is called, and `RoundTrip` returns the error of line 155. -/
theorem c26_no_attempt_configured :
    idleTransport.RetryTimes = 0 ∧
    RoundTrip (constCollaborators (Except.ok carrier200) (Except.ok (some decoded404)))
        idleTransport sampleReq =
      (Outcome.ret none
        (some (cannotReachHere
          (constCollaborators (Except.ok carrier200) (Except.ok (some decoded404)))
          sampleReq)), []) ∧
    (cannotReachHere
        (constCollaborators (Except.ok carrier200) (Except.ok (some decoded404)))
        sampleReq).Error =
      "GAE: cannot reach here with " ++ sampleGoString sampleReq := by
  refine ⟨rfl, rfl, rfl⟩

/-- C26, amended.  For every configured retry count of at least 1 and every
behaviour of the collaborators, what `RoundTrip` returns is what one of the
attempts of the loop returns: the call ends inside the attempt loop and never
reaches the error of line 155. -/
theorem c26_returns_inside_loop (c : Collaborators) (t : Transport) (req : Request)
    (hR : 1 ≤ t.RetryTimes) :
    ∃ (j : Nat) (log0 : List Event) (o : Outcome) (log1 : List Event),
      (j : Int) < t.RetryTimes ∧ attempt c t req j log0 = Step.done o log1 ∧
      RoundTrip c t req = (o, log1) := by
  have hk : ((t.RetryTimes.toNat : Nat) : Int) = t.RetryTimes :=
    Int.toNat_of_nonneg (by omega)
  exact attemptsFrom_returns_inside c t req t.RetryTimes.toNat 0 [] (by omega)
    (by rw [hk]; simp)

/-- C26, run at a concrete input: two attempts, of which the first is answered
with the carrier status 500. -/
theorem c26_returns_inside_loop_witness :
    ∃ (j : Nat) (log0 : List Event) (o : Outcome) (log1 : List Event),
      (j : Int) < twoAttempts.RetryTimes ∧
      attempt (constCollaborators (Except.ok carrier500) (Except.ok none)) twoAttempts
        sampleReq j log0 = Step.done o log1 ∧
      RoundTrip (constCollaborators (Except.ok carrier500) (Except.ok none)) twoAttempts
        sampleReq = (o, log1) :=
  c26_returns_inside_loop (constCollaborators (Except.ok carrier500) (Except.ok none))
    twoAttempts sampleReq (by decide)

/-- C29, counterexample: three attempts with `RetryDelay` and `Deadline` at
minus one second.  The first attempt is answered with the carrier status 503
and sleeps for `RetryDelay`, the second is answered with 500 and returns.  The
durations slept total minus one second, which is more than
`(R - 1) * max RetryDelay Deadline`, minus two seconds. -/
theorem c29_negative_durations :
    1 ≤ negativeTransport.RetryTimes ∧
    sleeps (RoundTrip
      (scriptCollaborators (fun i => if i = 0 then Except.ok carrier503 else Except.ok carrier500)
        (fun _ => Except.ok none)) negativeTransport sampleReq).2 = [-1 * Second] ∧
    ¬ ((sleeps (RoundTrip
      (scriptCollaborators (fun i => if i = 0 then Except.ok carrier503 else Except.ok carrier500)
        (fun _ => Except.ok none)) negativeTransport sampleReq).2).sum ≤
      (negativeTransport.RetryTimes - 1) *
        max negativeTransport.RetryDelay negativeTransport.Deadline) := by
  refine ⟨by decide, by decide, by decide⟩

/-- C29, amended.  On the attempt of index `RetryTimes - 1` the call returns
without a sleep and without marking a server bad, and it writes a blacklist
entry or closes connections only when the carrier error is a timeout.  Hence,
for every retry count `R` of at least 1, one call sleeps at most `R - 1` times
and calls `ToggleBadServer` at most `R - 1` times; and when `RetryDelay` and
`Deadline` are not negative, the durations slept total at most
`(R - 1) * max RetryDelay Deadline`. -/
theorem c29_last_attempt_and_bounds :
    (∀ (c : Collaborators) (t : Transport) (req : Request) (i : Nat) (log : List Event),
      (i : Int) = t.RetryTimes - 1 →
      ∃ o l, attempt c t req i log = Step.done o l ∧ sleeps l = sleeps log ∧
        toggles l = toggles log) ∧
    (∀ (c : Collaborators) (t : Transport) (req : Request) (i : Nat) (log : List Event),
      (i : Int) = t.RetryTimes - 1 →
      (∀ req1 err,
        c.EncodeRequest i req (c.PickFetchServer req i) t.Deadline = Except.ok req1 →
        c.RoundTrip i req1 = Except.error err → isTimeoutError err = false) →
      teardowns (attempt c t req i log).log = teardowns log) ∧
    (∀ (c : Collaborators) (t : Transport) (req : Request), 1 ≤ t.RetryTimes →
      ((sleeps (RoundTrip c t req).2).length : Int) ≤ t.RetryTimes - 1 ∧
      ((toggles (RoundTrip c t req).2).length : Int) ≤ t.RetryTimes - 1 ∧
      (0 ≤ t.RetryDelay → 0 ≤ t.Deadline →
        (sleeps (RoundTrip c t req).2).sum ≤
          (t.RetryTimes - 1) * max t.RetryDelay t.Deadline)) := by
  refine ⟨attempt_last_done, attempt_last_teardowns, ?_⟩
  intro c t req hR
  have hk : ((t.RetryTimes.toNat : Nat) : Int) = t.RetryTimes :=
    Int.toNat_of_nonneg (by omega)
  obtain ⟨hs, ht, hsum⟩ := attemptsFrom_effects c t req t.RetryTimes.toNat 0 []
    (by rw [hk]; simp)
  have hpos : 1 ≤ t.RetryTimes.toNat := by omega
  have hc : ((t.RetryTimes.toNat - 1 : Nat) : Int) = t.RetryTimes - 1 := by
    rw [Nat.cast_sub hpos, hk]; simp
  have hs0 : sleeps ([] : List Event) = [] := rfl
  have ht0 : toggles ([] : List Event) = [] := rfl
  rw [hs0] at hs hsum
  rw [ht0] at ht
  simp only [List.length_nil, Nat.zero_add, List.sum_nil, zero_add] at hs ht hsum
  refine ⟨?_, ?_, ?_⟩
  · unfold RoundTrip
    rw [← hc]
    exact_mod_cast hs
  · unfold RoundTrip
    rw [← hc]
    exact_mod_cast ht
  · intro h0 h1
    unfold RoundTrip
    rw [← hc]
    exact hsum h0 h1

/-- C29, run at a concrete input: two attempts with a deadline of twenty
seconds and a delay of two; the first attempt is answered with the carrier
status 503, the second is answered with 500. -/
theorem c29_last_attempt_and_bounds_witness :
    (∃ o l, attempt
        (scriptCollaborators
          (fun i => if i = 0 then Except.ok carrier503 else Except.ok carrier500)
          (fun _ => Except.ok none)) twoAttempts sampleReq 1 [] = Step.done o l ∧
      sleeps l = sleeps [] ∧ toggles l = toggles []) ∧
    teardowns (attempt
        (scriptCollaborators
          (fun i => if i = 0 then Except.ok carrier503 else Except.ok carrier500)
          (fun _ => Except.ok none)) twoAttempts sampleReq 1 []).log = teardowns [] ∧
    ((sleeps (RoundTrip
        (scriptCollaborators
          (fun i => if i = 0 then Except.ok carrier503 else Except.ok carrier500)
          (fun _ => Except.ok none)) twoAttempts sampleReq).2).length : Int)
        ≤ twoAttempts.RetryTimes - 1 ∧
    ((toggles (RoundTrip
        (scriptCollaborators
          (fun i => if i = 0 then Except.ok carrier503 else Except.ok carrier500)
          (fun _ => Except.ok none)) twoAttempts sampleReq).2).length : Int)
        ≤ twoAttempts.RetryTimes - 1 ∧
    (sleeps (RoundTrip
        (scriptCollaborators
          (fun i => if i = 0 then Except.ok carrier503 else Except.ok carrier500)
          (fun _ => Except.ok none)) twoAttempts sampleReq).2).sum ≤
      (twoAttempts.RetryTimes - 1) * max twoAttempts.RetryDelay twoAttempts.Deadline :=
  ⟨c29_last_attempt_and_bounds.1 _ twoAttempts sampleReq 1 [] (by decide),
   c29_last_attempt_and_bounds.2.1 _ twoAttempts sampleReq 1 [] (by decide)
      (fun _ _ _ h => by simp [scriptCollaborators] at h),
   (c29_last_attempt_and_bounds.2.2 _ twoAttempts sampleReq (by decide)).1,
   (c29_last_attempt_and_bounds.2.2 _ twoAttempts sampleReq (by decide)).2.1,
   (c29_last_attempt_and_bounds.2.2 _ twoAttempts sampleReq (by decide)).2.2
      (by decide) (by decide)⟩


end GoProxy
